import Mathlib

/-!
Simon Says (main.c): a shallow embedding and its verified properties

The embedding follows `main.c` function by function.  The globals of the
program are the fields of `GameState`.  Every routine is a function on a
`Sys`, which carries the globals together with two ghost logs: `out`, the
calls made to the board drivers and the routines entered, in program order,
and `hist`, the value of the globals after every assignment.

* `uint8_t` values are natural numbers, reduced modulo 256 where the source
  computes one; `int` values (`index1`, `index2`, `index3`, `seqlength`) are
  integers.
* `rand()` is a stream `Nat → Int`; `Sys.nrand` counts the calls made so far.
* `Get_EduBase_Button_Status()` is answered from a finite list of raw reads.
  A polling loop that needs a read when the list is empty stops with
  `Run.polling`: the capture has not returned on the reads supplied.
* An array access whose index is computed at run time is checked against the
  array's bounds; an access outside them is `Run.undefined` (`none` for
  `Sequence_Check`).  Accesses inside a `for` loop whose literal bound is the
  array's declared size use the total `peek` and `put`.
* The macros of `GPIO.h` and `Buzzer.h` (not part of the sources) are kept by
  name as constructors of `RGBColor`, `LedMask` and `Note`.
-/

namespace SimonSays

/-! ## Board interface -/

/-- Arguments of `RGB_LED_Output`, by the names `main.c` uses. -/
inductive RGBColor
  | RGB_LED_OFF
  | RGB_LED_RED
  | RGB_LED_GREEN
  | RGB_LED_BLUE
deriving DecidableEq, Repr

/-- Notes passed to `Play_Note`, by the names `main.c` uses. -/
inductive Note
  | G4_NOTE
  | A4_NOTE
  | B4_NOTE
  | C5_NOTE
deriving DecidableEq, Repr

/-- Arguments of `EduBase_LEDs_Output`: a literal mask, or one of the two
named masks of `GPIO.h`. -/
inductive LedMask
  | bits (mask : Nat)
  | EDUBASE_LED_ALL_OFF
  | EDUBASE_LED_ALL_ON
deriving DecidableEq, Repr

/-- Routines of `main.c` whose entry is recorded in the log. -/
inductive Routine
  | Generate_Sequence
  | Level_Config
  | Player_Sequence
  | Sequence_Check
  | LEVEL_FAIL
  | LEVEL_PASS
  | BEAT_GAME
  | RESET_GAME
deriving DecidableEq, Repr

/-- One entry of the log: a driver call with its argument (for
`Get_EduBase_Button_Status`, with the value it returned), or the entry into a
routine. -/
inductive Event
  | Seven_Segment_Display (n : Nat)
  | RGB_LED_Output (c : RGBColor)
  | EduBase_LEDs_Output (m : LedMask)
  | Play_Note (note : Note) (ms : Nat)
  | SysTick_Delay1ms (ms : Nat)
  | Get_EduBase_Button_Status (raw : Nat)
  | enter (r : Routine)
deriving DecidableEq, Repr

/-! ## Arrays and globals -/

/-- A C array `uint8_t a[n]`: exactly `n` cells. -/
def CArray (n : Nat) : Type := { l : List Nat // l.length = n }

instance (n : Nat) : DecidableEq (CArray n) :=
  inferInstanceAs (DecidableEq { l : List Nat // l.length = n })

/-- The cells of an array, in index order. -/
def CArray.cells {n : Nat} (a : CArray n) : List Nat := a.val

/-- The array `{0, ..., 0}`. -/
def CArray.zero (n : Nat) : CArray n := ⟨List.replicate n 0, List.length_replicate n 0⟩

/-- Read `a[i]` for a loop index `i` below the declared size. -/
def CArray.peek {n : Nat} (a : CArray n) (i : Nat) : Nat := a.val.getD i 0

/-- Write `a[i] = v` for a loop index `i` below the declared size. -/
def CArray.put {n : Nat} (a : CArray n) (i : Nat) (v : Nat) : CArray n :=
  ⟨a.val.set i v, by simp [a.property]⟩

/-- Read `a[i]` for a run-time index: `none` outside the array. -/
def CArray.load {n : Nat} (a : CArray n) (i : Int) : Option Nat :=
  if 0 ≤ i then a.val[i.toNat]? else none

/-- Write `a[i] = v` for a run-time index: `none` outside the array. -/
def CArray.store {n : Nat} (a : CArray n) (i : Int) (v : Nat) : Option (CArray n) :=
  if 0 ≤ i ∧ i < (n : Int) then some (a.put i.toNat v) else none

/-- The file-scope variables of `main.c` (lines 30-41). -/
structure GameState where
  level : Nat
  lv1array : CArray 2
  lv2array : CArray 3
  lv3array : CArray 4
  lv1playerarr : CArray 2
  lv2playerarr : CArray 3
  lv3playerarr : CArray 4
  index1 : Int
  index2 : Int
  index3 : Int
deriving DecidableEq

/-- The initialisers of lines 30-41: the state the program starts in. -/
def GameState.fresh : GameState where
  level := 0
  lv1array := CArray.zero 2
  lv2array := CArray.zero 3
  lv3array := CArray.zero 4
  lv1playerarr := CArray.zero 2
  lv2playerarr := CArray.zero 3
  lv3playerarr := CArray.zero 4
  index1 := 0
  index2 := 0
  index3 := 0

/-- Source line 34: `const uint8_t lowlimit = 1;` -/
def lowlimit : Nat := 1

/-- Source line 35: `const uint8_t uplimit = 4;` -/
def uplimit : Nat := 4

/-- The globals with the ghost logs. -/
structure Sys where
  st : GameState
  out : List Event
  hist : List GameState
  nrand : Nat
deriving DecidableEq

/-- The program at start-up: initial globals, empty log. -/
def Sys.boot : Sys := ⟨GameState.fresh, [], [GameState.fresh], 0⟩

/-- Append driver calls to the log. -/
def Sys.emit (m : Sys) (es : List Event) : Sys := { m with out := m.out ++ es }

/-- Execute one assignment to a global. -/
def Sys.assign (m : Sys) (f : GameState → GameState) : Sys :=
  { m with st := f m.st, hist := m.hist ++ [f m.st] }

/-- Result of a routine that polls the buttons. -/
inductive Run
  | done (m : Sys) (rest : List Nat)
  | polling (m : Sys)
  | undefined
deriving DecidableEq

/-! ## The routines of main.c -/

/-- The value `rand() % (uplimit - lowlimit + 1) + lowlimit` as stored into a
`uint8_t` cell; `%` on `int` truncates toward zero. -/
def randCell (r : Int) : Nat :=
  ((Int.tmod r ((uplimit : Int) - (lowlimit : Int) + 1) + (lowlimit : Int)) % 256).toNat

/-- One `rand()` call: the next value of the stream. -/
def Sys.rand (rand : Nat → Int) (m : Sys) : Int × Sys :=
  (rand m.nrand, { m with nrand := m.nrand + 1 })

/-- Lines 93-109. -/
def Generate_Sequence (rand : Nat → Int) (m : Sys) : Sys :=
  let m := m.emit [Event.enter Routine.Generate_Sequence]
  let m := (List.range 2).foldl (fun m i =>
    let (r, m) := m.rand rand
    m.assign fun s => { s with lv1array := s.lv1array.put i (randCell r) }) m
  let m := (List.range 3).foldl (fun m i =>
    let (r, m) := m.rand rand
    m.assign fun s => { s with lv2array := s.lv2array.put i (randCell r) }) m
  (List.range 4).foldl (fun m i =>
    let (r, m) := m.rand rand
    m.assign fun s => { s with lv3array := s.lv3array.put i (randCell r) }) m

/-- Lines 125-163. -/
def LED_Sound_Link (link : Nat) (m : Sys) : Sys :=
  match link with
  | 1 => m.emit [Event.EduBase_LEDs_Output (LedMask.bits 0x01), Event.Play_Note Note.G4_NOTE 50]
  | 2 => m.emit [Event.EduBase_LEDs_Output (LedMask.bits 0x02), Event.Play_Note Note.A4_NOTE 50]
  | 3 => m.emit [Event.EduBase_LEDs_Output (LedMask.bits 0x04), Event.Play_Note Note.B4_NOTE 50]
  | 4 => m.emit [Event.EduBase_LEDs_Output (LedMask.bits 0x08), Event.Play_Note Note.C5_NOTE 50]
  | _ => m.emit [Event.EduBase_LEDs_Output LedMask.EDUBASE_LED_ALL_OFF]

/-- Lines 310-337. -/
def Player_SeqConv (conv : Nat) : Nat :=
  match conv with
  | 0x01 => 1
  | 0x02 => 2
  | 0x04 => 3
  | 0x08 => 4
  | _ => 0

/-- Lines 496-518. -/
def RESET_GAME (m : Sys) : Sys :=
  let m := m.emit [Event.enter Routine.RESET_GAME]
  let m := (List.range 2).foldl (fun m i =>
    let m := m.assign fun s => { s with lv1array := s.lv1array.put i 0 }
    m.assign fun s => { s with lv1playerarr := s.lv1playerarr.put i 0 }) m
  let m := (List.range 3).foldl (fun m i =>
    let m := m.assign fun s => { s with lv2array := s.lv2array.put i 0 }
    m.assign fun s => { s with lv2playerarr := s.lv2playerarr.put i 0 }) m
  let m := (List.range 4).foldl (fun m i =>
    let m := m.assign fun s => { s with lv3array := s.lv3array.put i 0 }
    m.assign fun s => { s with lv3playerarr := s.lv3playerarr.put i 0 }) m
  let m := m.assign fun s => { s with index1 := 0 }
  let m := m.assign fun s => { s with index2 := 0 }
  let m := m.assign fun s => { s with index3 := 0 }
  m.assign fun s => { s with level := 0 }

/-- Lines 428-441. -/
def LEVEL_FAIL (m : Sys) : Sys :=
  let m := m.emit [Event.enter Routine.LEVEL_FAIL]
  let m := (List.range 4).foldl (fun m _ =>
    m.emit [Event.RGB_LED_Output RGBColor.RGB_LED_RED,
            Event.EduBase_LEDs_Output LedMask.EDUBASE_LED_ALL_ON,
            Event.SysTick_Delay1ms 500,
            Event.RGB_LED_Output RGBColor.RGB_LED_OFF,
            Event.EduBase_LEDs_Output LedMask.EDUBASE_LED_ALL_OFF,
            Event.SysTick_Delay1ms 500]) m
  RESET_GAME m

/-- Lines 453-465; `level` is a `uint8_t`. -/
def LEVEL_PASS (m : Sys) : Sys :=
  let m := m.emit [Event.enter Routine.LEVEL_PASS]
  let m := (List.range 4).foldl (fun m _ =>
    m.emit [Event.RGB_LED_Output RGBColor.RGB_LED_GREEN,
            Event.EduBase_LEDs_Output (LedMask.bits 0x09),
            Event.SysTick_Delay1ms 500,
            Event.RGB_LED_Output RGBColor.RGB_LED_OFF,
            Event.EduBase_LEDs_Output LedMask.EDUBASE_LED_ALL_OFF,
            Event.SysTick_Delay1ms 500]) m
  m.assign fun s => { s with level := (s.level + 1) % 256 }

/-- Lines 477-484. -/
def BEAT_GAME (m : Sys) : Sys :=
  let m := m.emit [Event.enter Routine.BEAT_GAME]
  let m := m.emit [Event.Seven_Segment_Display 0,
                   Event.RGB_LED_Output RGBColor.RGB_LED_GREEN,
                   Event.EduBase_LEDs_Output (LedMask.bits 0x06),
                   Event.SysTick_Delay1ms 3000]
  RESET_GAME m

/-- The `while` loop of `case 0` in `Player_Sequence` (lines 246-255). -/
def Player_Sequence.case0 : List Nat → Sys → Run
  | reads, m =>
    if m.st.index1 = 0 ∨ m.st.index1 = 1 then
      match reads with
      | [] => Run.polling m
      | button_status :: rest =>
        let m := m.emit [Event.Get_EduBase_Button_Status button_status]
        if button_status ≠ 0 then
          match m.st.lv1playerarr.store m.st.index1 (Player_SeqConv button_status) with
          | none => Run.undefined
          | some a =>
            let m := m.assign fun s => { s with lv1playerarr := a }
            match m.st.lv1playerarr.load m.st.index1 with
            | none => Run.undefined
            | some link =>
              let m := LED_Sound_Link link m
              let m := m.assign fun s => { s with index1 := s.index1 + 1 }
              Player_Sequence.case0 rest m
        else Player_Sequence.case0 rest m
    else Run.done m reads

/-- The `while` loop of `case 1` in `Player_Sequence` (lines 260-269). -/
def Player_Sequence.case1 : List Nat → Sys → Run
  | reads, m =>
    if m.st.index2 = 0 ∨ m.st.index2 = 1 ∨ m.st.index2 = 2 then
      match reads with
      | [] => Run.polling m
      | button_status :: rest =>
        let m := m.emit [Event.Get_EduBase_Button_Status button_status]
        if button_status ≠ 0 then
          match m.st.lv2playerarr.store m.st.index2 (Player_SeqConv button_status) with
          | none => Run.undefined
          | some a =>
            let m := m.assign fun s => { s with lv2playerarr := a }
            match m.st.lv2playerarr.load m.st.index2 with
            | none => Run.undefined
            | some link =>
              let m := LED_Sound_Link link m
              let m := m.assign fun s => { s with index2 := s.index2 + 1 }
              Player_Sequence.case1 rest m
        else Player_Sequence.case1 rest m
    else Run.done m reads

/-- The second `if` of the `case 2` loop body (lines 283-289): on
`index3 == 4` the three cursors are cleared and the loop is left. -/
def Player_Sequence.case2_tail (k : Sys → Run) (rest : List Nat) (m : Sys) : Run :=
  if m.st.index3 = 4 then
    let m := m.assign fun s => { s with index1 := 0 }
    let m := m.assign fun s => { s with index2 := 0 }
    let m := m.assign fun s => { s with index3 := 0 }
    Run.done m rest
  else k m

/-- The `while` loop of `case 2` in `Player_Sequence` (lines 274-290). -/
def Player_Sequence.case2 : List Nat → Sys → Run
  | reads, m =>
    if m.st.index3 = 0 ∨ m.st.index3 = 1 ∨ m.st.index3 = 2 ∨ m.st.index3 = 3 then
      match reads with
      | [] => Run.polling m
      | button_status :: rest =>
        let m := m.emit [Event.Get_EduBase_Button_Status button_status]
        if button_status ≠ 0 then
          match m.st.lv3playerarr.store m.st.index3 (Player_SeqConv button_status) with
          | none => Run.undefined
          | some a =>
            let m := m.assign fun s => { s with lv3playerarr := a }
            match m.st.lv3playerarr.load m.st.index3 with
            | none => Run.undefined
            | some link =>
              let m := LED_Sound_Link link m
              let m := m.assign fun s => { s with index3 := s.index3 + 1 }
              Player_Sequence.case2_tail (Player_Sequence.case2 rest) rest m
        else Player_Sequence.case2_tail (Player_Sequence.case2 rest) rest m
    else Run.done m reads

/-- Lines 240-294. -/
def Player_Sequence (m : Sys) (reads : List Nat) : Run :=
  let m := m.emit [Event.enter Routine.Player_Sequence]
  match m.st.level with
  | 0 => Player_Sequence.case0 reads m
  | 1 => Player_Sequence.case1 reads m
  | 2 => Player_Sequence.case2 reads m
  | _ => Run.done m reads

/-- The `for` loop shared by the three cases of `Sequence_Check`
(lines 359-373, 378-392, 397-411): `target` and `player` select the two arrays
of the case, `pass` is the routine called at `i == seqlength - 1`.  The first
argument is the number of iterations still allowed by `i < seqlength`. -/
def Sequence_Check.loop {n : Nat} (target player : GameState → CArray n)
    (pass : Sys → Sys) (seqlength : Int) : Nat → Nat → Sys → Option Sys
  | 0, _, m => some m
  | todo + 1, i, m =>
    match (target m.st).load (i : Int), (player m.st).load (i : Int) with
    | some t, some p =>
      if t ≠ p then some (LEVEL_FAIL m)
      else if (i : Int) = seqlength - 1 then
        Sequence_Check.loop target player pass seqlength todo (i + 1) (pass m)
      else Sequence_Check.loop target player pass seqlength todo (i + 1) m
    | _, _ => none

/-- Lines 353-415. -/
def Sequence_Check (seqlength : Int) (m : Sys) : Option Sys :=
  let m := m.emit [Event.enter Routine.Sequence_Check]
  match m.st.level with
  | 0 => Sequence_Check.loop (fun s => s.lv1array) (fun s => s.lv1playerarr) LEVEL_PASS
           seqlength seqlength.toNat 0 m
  | 1 => Sequence_Check.loop (fun s => s.lv2array) (fun s => s.lv2playerarr) LEVEL_PASS
           seqlength seqlength.toNat 0 m
  | 2 => Sequence_Check.loop (fun s => s.lv3array) (fun s => s.lv3playerarr) BEAT_GAME
           seqlength seqlength.toNat 0 m
  | _ => some m

/-- The presentation loop of one case of `Level_Config` (lines 185-191,
198-203, 211-217). -/
def Level_Config.present {n : Nat} (target : GameState → CArray n) (len : Nat) (m : Sys) : Sys :=
  (List.range len).foldl (fun m i =>
    let m := LED_Sound_Link ((target m.st).peek i) m
    m.emit [Event.SysTick_Delay1ms 500,
            Event.EduBase_LEDs_Output LedMask.EDUBASE_LED_ALL_OFF,
            Event.SysTick_Delay1ms 500]) m

/-- The tail of every case of `Level_Config`: `Player_Sequence();` then
`Sequence_Check(seqlength);`. -/
def Level_Config.play (seqlength : Int) (m : Sys) (reads : List Nat) : Run :=
  match Player_Sequence m reads with
  | Run.done m rest =>
    match Sequence_Check seqlength m with
    | some m => Run.done m rest
    | none => Run.undefined
  | r => r

/-- Lines 177-223. -/
def Level_Config (m : Sys) (reads : List Nat) : Run :=
  let m := m.emit [Event.enter Routine.Level_Config]
  let m := m.emit [Event.Seven_Segment_Display (m.st.level + 1)]
  let m := m.emit [Event.RGB_LED_Output RGBColor.RGB_LED_BLUE]
  match m.st.level with
  | 0 => Level_Config.play 2 (Level_Config.present (fun s => s.lv1array) 2 m) reads
  | 1 => Level_Config.play 3 (Level_Config.present (fun s => s.lv2array) 3 m) reads
  | 2 => Level_Config.play 4 (Level_Config.present (fun s => s.lv3array) 4 m) reads
  | _ => Run.done m reads

/-- The first `n` iterations of the `while(1)` loop of `main` (lines 73-78). -/
def mainLoop (rand : Nat → Int) : Nat → Sys → List Nat → Run
  | 0, m, reads => Run.done m reads
  | n + 1, m, reads =>
    match Level_Config (Generate_Sequence rand m) reads with
    | Run.done m rest => mainLoop rand n m rest
    | r => r

/-- The program run for `n` iterations of its main loop.  The driver
initialisations of lines 56-71 touch no variable of `main.c`. -/
def main (rand : Nat → Int) (n : Nat) (reads : List Nat) : Run :=
  mainLoop rand n Sys.boot reads

/-! ## Vocabulary of the statements -/

/-- The sequence length of a level: the argument of `Sequence_Check` in the
case of `Level_Config` for that level (lines 193, 206, 219). -/
def levelLength : Nat → Nat
  | 0 => 2
  | 1 => 3
  | 2 => 4
  | _ => 0

/-- The target array that the `switch(level)` of `Sequence_Check` selects. -/
def GameState.target (s : GameState) : List Nat :=
  match s.level with
  | 0 => s.lv1array.cells
  | 1 => s.lv2array.cells
  | 2 => s.lv3array.cells
  | _ => []

/-- The player array that the `switch(level)` of `Sequence_Check` selects. -/
def GameState.player (s : GameState) : List Nat :=
  match s.level with
  | 0 => s.lv1playerarr.cells
  | 1 => s.lv2playerarr.cells
  | 2 => s.lv3playerarr.cells
  | _ => []

/-- The log entries written between two points of a run. -/
def Sys.emitted (before after : Sys) : List Event := after.out.drop before.out.length

/-- The six driver calls of one round of the failure signal. -/
def failFlash : List Event :=
  [Event.RGB_LED_Output RGBColor.RGB_LED_RED,
   Event.EduBase_LEDs_Output LedMask.EDUBASE_LED_ALL_ON,
   Event.SysTick_Delay1ms 500,
   Event.RGB_LED_Output RGBColor.RGB_LED_OFF,
   Event.EduBase_LEDs_Output LedMask.EDUBASE_LED_ALL_OFF,
   Event.SysTick_Delay1ms 500]

/-- The six driver calls of one round of the level-passed signal. -/
def passFlash : List Event :=
  [Event.RGB_LED_Output RGBColor.RGB_LED_GREEN,
   Event.EduBase_LEDs_Output (LedMask.bits 0x09),
   Event.SysTick_Delay1ms 500,
   Event.RGB_LED_Output RGBColor.RGB_LED_OFF,
   Event.EduBase_LEDs_Output LedMask.EDUBASE_LED_ALL_OFF,
   Event.SysTick_Delay1ms 500]

/-- The four driver calls of the game-beaten signal. -/
def beatSignal : List Event :=
  [Event.Seven_Segment_Display 0,
   Event.RGB_LED_Output RGBColor.RGB_LED_GREEN,
   Event.EduBase_LEDs_Output (LedMask.bits 0x06),
   Event.SysTick_Delay1ms 3000]

/-- The array with the given cells. -/
def CArray.ofList (l : List Nat) : CArray l.length := ⟨l, rfl⟩

/-- The boot state with the level and the arrays of levels 1 and 3 replaced:
the start of the example runs. -/
def Sys.sample (level : Nat) (t1 p1 : CArray 2) (t3 p3 : CArray 4) : Sys :=
  { Sys.boot with
    st := { GameState.fresh with
            level := level, lv1array := t1, lv1playerarr := p1, lv3array := t3,
            lv3playerarr := p3 } }

/-- The loop condition of the `while` of the active level in
`Player_Sequence` (lines 246, 260, 274); no loop at any other level. -/
def GameState.capturing (s : GameState) : Prop :=
  match s.level with
  | 0 => s.index1 = 0 ∨ s.index1 = 1
  | 1 => s.index2 = 0 ∨ s.index2 = 1 ∨ s.index2 = 2
  | 2 => s.index3 = 0 ∨ s.index3 = 1 ∨ s.index3 = 2 ∨ s.index3 = 3
  | _ => False

/-- The capture cursor of the active level. -/
def GameState.cursor (s : GameState) : Int :=
  match s.level with
  | 0 => s.index1
  | 1 => s.index2
  | 2 => s.index3
  | _ => 0

/-- The first `k` non-zero reads of a stream, in order. -/
def presses (k : Nat) (reads : List Nat) : List Nat := (reads.filter (fun b => b ≠ 0)).take k

/-- The reads of a stream up to and including its `k`-th non-zero read. -/
def consumed : Nat → List Nat → List Nat
  | 0, _ => []
  | _ + 1, [] => []
  | k + 1, b :: rest => b :: (if b ≠ 0 then consumed k rest else consumed (k + 1) rest)

/-- The reads of a stream after its `k`-th non-zero read. -/
def afterPresses : Nat → List Nat → List Nat
  | 0, reads => reads
  | _ + 1, [] => []
  | k + 1, b :: rest => if b ≠ 0 then afterPresses k rest else afterPresses (k + 1) rest

/-- The driver calls of `LED_Sound_Link(link)`. -/
def linkLog (link : Nat) : List Event := (LED_Sound_Link link Sys.boot).out

/-- The log of one poll of the capture loop: the read, and for a non-zero read
the feedback for its converted value. -/
def pollLog (b : Nat) : List Event :=
  Event.Get_EduBase_Button_Status b :: (if b ≠ 0 then linkLog (Player_SeqConv b) else [])

/-- Successive stores `a[i] = v0; a[i+1] = v1; ...`. -/
def CArray.putFrom {n : Nat} (a : CArray n) : Nat → List Nat → CArray n
  | _, [] => a
  | i, v :: vs => (a.put i v).putFrom (i + 1) vs

/-- The raw button code of a symbol: 1, 2, 3, 4 are the buttons 0x01, 0x02,
0x04, 0x08. -/
def buttonCode (symbol : Nat) : Nat := 2 ^ (symbol - 1)

/-- The log of the presentation of one target cell in `Level_Config`:
`LED_Sound_Link`, 500 ms, all LEDs off, 500 ms. -/
def presentLog (symbol : Nat) : List Event :=
  linkLog symbol ++ [Event.SysTick_Delay1ms 500,
    Event.EduBase_LEDs_Output LedMask.EDUBASE_LED_ALL_OFF, Event.SysTick_Delay1ms 500]

/-- The globals recorded between two points of a run. -/
def Sys.visited (before after : Sys) : List GameState := after.hist.drop before.hist.length

/-- From `m` to `r` the run only goes through globals that satisfy `P`: the
history of `r` extends that of `m` by states satisfying `P`, and `r` itself is
in such a state. -/
def Sys.Keeps (P : GameState → Prop) (m r : Sys) : Prop :=
  (∃ new, r.hist = m.hist ++ new ∧ ∀ s ∈ new, P s) ∧ P r.st

/-- The same for a routine that polls: it has not run into an access outside
an array, and up to its return, or up to the last read supplied, it went
through globals satisfying `P` only. -/
def Run.Keeps (P : GameState → Prop) (m : Sys) : Run → Prop
  | Run.done r _ => Sys.Keeps P m r
  | Run.polling r => Sys.Keeps P m r
  | Run.undefined => False

/-- A property of the globals that the assignments of `Player_Sequence`
preserve: it does not depend on array contents, survives a cursor increment
made under the loop condition, and survives clearing a cursor. -/
structure CaptureClosed (P : GameState → Prop) : Prop where
  arrays : ∀ s t : GameState, t.level = s.level → t.index1 = s.index1 →
    t.index2 = s.index2 → t.index3 = s.index3 → P s → P t
  step1 : ∀ s : GameState, P s → (s.index1 = 0 ∨ s.index1 = 1) →
    P { s with index1 := s.index1 + 1 }
  step2 : ∀ s : GameState, P s → (s.index2 = 0 ∨ s.index2 = 1 ∨ s.index2 = 2) →
    P { s with index2 := s.index2 + 1 }
  step3 : ∀ s : GameState, P s →
    (s.index3 = 0 ∨ s.index3 = 1 ∨ s.index3 = 2 ∨ s.index3 = 3) →
    P { s with index3 := s.index3 + 1 }
  clear1 : ∀ s : GameState, P s → P { s with index1 := 0 }
  clear2 : ∀ s : GameState, P s → P { s with index2 := 0 }
  clear3 : ∀ s : GameState, P s → P { s with index3 := 0 }

/-- A property of the globals that every assignment of the program preserves:
those of `Player_Sequence`, `level = 0` of `RESET_GAME`, and the increment of
`LEVEL_PASS` at the levels 0 and 1 where `Sequence_Check` calls it. -/
structure Closed (P : GameState → Prop) extends CaptureClosed P : Prop where
  restart : ∀ s : GameState, P s → P { s with level := 0 }
  pass : ∀ s : GameState, P s → s.level ≤ 1 → P { s with level := (s.level + 1) % 256 }

/-- The cursor bounds: each cursor is between 0 and the size of its array. -/
def GameState.InBounds (s : GameState) : Prop :=
  (0 ≤ s.index1 ∧ s.index1 ≤ 2) ∧ (0 ≤ s.index2 ∧ s.index2 ≤ 3) ∧ (0 ≤ s.index3 ∧ s.index3 ≤ 4)

/-- The masks passed to `EduBase_LEDs_Output` in a log, in order. -/
def ledOutputs (es : List Event) : List LedMask :=
  es.filterMap fun e =>
    match e with
    | Event.EduBase_LEDs_Output k => some k
    | _ => none

/-- The notes passed to `Play_Note` in a log, in order. -/
def notesPlayed (es : List Event) : List Note :=
  es.filterMap fun e =>
    match e with
    | Event.Play_Note note _ => some note
    | _ => none

/-- The values returned by `Get_EduBase_Button_Status` in a log, in order. -/
def buttonReads (es : List Event) : List Nat :=
  es.filterMap fun e =>
    match e with
    | Event.Get_EduBase_Button_Status raw => some raw
    | _ => none

/-- The routines entered in a log, in order. -/
def routinesEntered (es : List Event) : List Routine :=
  es.filterMap fun e =>
    match e with
    | Event.enter r => some r
    | _ => none

/-- The globals and logs a run stopped with; the boot state for a run that
went outside an array. -/
def Run.sys : Run → Sys
  | Run.done m _ => m
  | Run.polling m => m
  | Run.undefined => Sys.boot

/-- A cell of a player array after a capture consumed the reads `used`: the
value it had before, or `Player_SeqConv` of a non-zero read among `used`. -/
def StoredFrom (used : List Nat) (old new : Option Nat) : Prop :=
  new = old ∨ ∃ b ∈ used, b ≠ 0 ∧ new = some (Player_SeqConv b)

/-- What a capture loop may have done from `m` to `r` on the reads `used`:
the log gained the polls of `used` and nothing else, the level and the target
arrays are the same, and every player-array cell is as before or holds a value
stored from a non-zero read. -/
def Sys.Captured (used : List Nat) (m r : Sys) : Prop :=
  r.out = m.out ++ used.flatMap pollLog ∧ r.nrand = m.nrand ∧
  r.st.level = m.st.level ∧ r.st.lv1array = m.st.lv1array ∧
  r.st.lv2array = m.st.lv2array ∧ r.st.lv3array = m.st.lv3array ∧
  (∀ i : Nat, StoredFrom used (m.st.lv1playerarr.cells[i]?) (r.st.lv1playerarr.cells[i]?)) ∧
  (∀ i : Nat, StoredFrom used (m.st.lv2playerarr.cells[i]?) (r.st.lv2playerarr.cells[i]?)) ∧
  (∀ i : Nat, StoredFrom used (m.st.lv3playerarr.cells[i]?) (r.st.lv3playerarr.cells[i]?))

/-- The same for the result of a polling routine run on `reads`: it did not go
outside an array; if it returned, the reads it consumed and the reads it left
make up `reads`; if it is still polling, it consumed them all. -/
def Run.Captured (m : Sys) (reads : List Nat) : Run → Prop
  | Run.done r rest => ∃ used, reads = used ++ rest ∧ Sys.Captured used m r
  | Run.polling r => Sys.Captured reads m r
  | Run.undefined => False

/-- The cursors at the top of a main-loop iteration: the cursor of the active
level and of every later level is 0. -/
def GameState.AtTop (s : GameState) : Prop :=
  (s.level = 0 ∧ s.index1 = 0 ∧ s.index2 = 0 ∧ s.index3 = 0) ∨
  (s.level = 1 ∧ s.index2 = 0 ∧ s.index3 = 0) ∨
  (s.level = 2 ∧ s.index3 = 0)

/-! ## Basic facts about arrays and the logs -/

theorem range_two : List.range 2 = [0, 1] := rfl
theorem range_three : List.range 3 = [0, 1, 2] := rfl
theorem range_four : List.range 4 = [0, 1, 2, 3] := rfl

@[simp]
theorem Sys.emit_st (m : Sys) (es : List Event) : (m.emit es).st = m.st := rfl
@[simp]
theorem Sys.emit_out (m : Sys) (es : List Event) : (m.emit es).out = m.out ++ es := rfl
@[simp]
theorem Sys.emit_hist (m : Sys) (es : List Event) : (m.emit es).hist = m.hist := rfl
@[simp]
theorem Sys.emit_nrand (m : Sys) (es : List Event) : (m.emit es).nrand = m.nrand := rfl
@[simp]
theorem Sys.assign_st (m : Sys) (f : GameState → GameState) : (m.assign f).st = f m.st := rfl
@[simp]
theorem Sys.assign_out (m : Sys) (f : GameState → GameState) : (m.assign f).out = m.out := rfl
@[simp]
theorem Sys.assign_hist (m : Sys) (f : GameState → GameState) :
    (m.assign f).hist = m.hist ++ [f m.st] := rfl
@[simp]
theorem Sys.assign_nrand (m : Sys) (f : GameState → GameState) :
    (m.assign f).nrand = m.nrand := rfl

theorem CArray.ext_cells {n : Nat} {a b : CArray n} (h : a.cells = b.cells) : a = b :=
  Subtype.ext h

theorem CArray.length_cells {n : Nat} (a : CArray n) : a.cells.length = n := a.property

theorem CArray.cells_put {n : Nat} (a : CArray n) (i v : Nat) :
    (a.put i v).cells = a.cells.set i v := rfl

theorem CArray.cells_two (a : CArray 2) : ∃ x y, a.cells = [x, y] := by
  obtain ⟨l, hl⟩ := a
  match l, hl with
  | [x, y], _ => exact ⟨x, y, rfl⟩

theorem CArray.cells_three (a : CArray 3) : ∃ x y z, a.cells = [x, y, z] := by
  obtain ⟨l, hl⟩ := a
  match l, hl with
  | [x, y, z], _ => exact ⟨x, y, z, rfl⟩

theorem CArray.cells_four (a : CArray 4) : ∃ x y z w, a.cells = [x, y, z, w] := by
  obtain ⟨l, hl⟩ := a
  match l, hl with
  | [x, y, z, w], _ => exact ⟨x, y, z, w, rfl⟩

theorem CArray.put_all_two (a : CArray 2) (p q : Nat) :
    (((a.put 0 p).put 1 q)).cells = [p, q] := by
  obtain ⟨x, y, h⟩ := a.cells_two
  simp [CArray.cells_put, h]

theorem CArray.put_all_three (a : CArray 3) (p q r : Nat) :
    ((((a.put 0 p).put 1 q).put 2 r)).cells = [p, q, r] := by
  obtain ⟨x, y, z, h⟩ := a.cells_three
  simp [CArray.cells_put, h]

theorem CArray.put_all_four (a : CArray 4) (p q r t : Nat) :
    (((((a.put 0 p).put 1 q).put 2 r).put 3 t)).cells = [p, q, r, t] := by
  obtain ⟨x, y, z, w, h⟩ := a.cells_four
  simp [CArray.cells_put, h]

theorem randCell_of_nonneg (r : Int) (h : 0 ≤ r) : randCell r = (r % 4).toNat + 1 := by
  unfold randCell uplimit lowlimit
  have h4 : Int.tmod r 4 = r % 4 := Int.tmod_eq_emod h (by decide)
  norm_num
  rw [h4]
  omega

theorem Generate_Sequence_st (rand : Nat → Int) (m : Sys) :
    (Generate_Sequence rand m).st =
      { m.st with
        lv1array := (m.st.lv1array.put 0 (randCell (rand m.nrand))).put 1
          (randCell (rand (m.nrand + 1)))
        lv2array := ((m.st.lv2array.put 0 (randCell (rand (m.nrand + 2)))).put 1
          (randCell (rand (m.nrand + 3)))).put 2 (randCell (rand (m.nrand + 4)))
        lv3array := (((m.st.lv3array.put 0 (randCell (rand (m.nrand + 5)))).put 1
          (randCell (rand (m.nrand + 6)))).put 2 (randCell (rand (m.nrand + 7)))).put 3
          (randCell (rand (m.nrand + 8))) } := by
  simp [Generate_Sequence, range_two, range_three, range_four, Sys.rand, Sys.assign, Sys.emit]

theorem RESET_GAME_st (m : Sys) : (RESET_GAME m).st = GameState.fresh := by
  simp only [RESET_GAME, range_two, range_three, range_four, List.foldl_cons, List.foldl_nil,
    Sys.assign_st, Sys.emit_st, GameState.fresh, GameState.mk.injEq, and_true, true_and]
  refine ⟨?_, ?_, ?_, ?_, ?_, ?_⟩ <;> apply CArray.ext_cells
  · exact CArray.put_all_two _ 0 0
  · exact CArray.put_all_three _ 0 0 0
  · exact CArray.put_all_four _ 0 0 0 0
  · exact CArray.put_all_two _ 0 0
  · exact CArray.put_all_three _ 0 0 0
  · exact CArray.put_all_four _ 0 0 0 0

theorem RESET_GAME_out (m : Sys) :
    (RESET_GAME m).out = m.out ++ [Event.enter Routine.RESET_GAME] := by
  simp [RESET_GAME, range_two, range_three, range_four]

/-! ## C1 -/

/-- C1: for every stream of non-negative `rand()` results, `Generate_Sequence`
leaves target arrays of 2, 3 and 4 cells, every cell is one of 1, 2, 3, 4, and
cell by cell they are `(rand value mod 4) + 1` for the next nine values of the
stream, taken in the order `lv1array`, `lv2array`, `lv3array`. -/
theorem C1_Generate_Sequence_cells (rand : Nat → Int) (m : Sys) (h : ∀ k, 0 ≤ rand k) :
    (Generate_Sequence rand m).st.lv1array.cells =
        [(rand m.nrand % 4).toNat + 1, (rand (m.nrand + 1) % 4).toNat + 1] ∧
    (Generate_Sequence rand m).st.lv2array.cells =
        [(rand (m.nrand + 2) % 4).toNat + 1, (rand (m.nrand + 3) % 4).toNat + 1,
         (rand (m.nrand + 4) % 4).toNat + 1] ∧
    (Generate_Sequence rand m).st.lv3array.cells =
        [(rand (m.nrand + 5) % 4).toNat + 1, (rand (m.nrand + 6) % 4).toNat + 1,
         (rand (m.nrand + 7) % 4).toNat + 1, (rand (m.nrand + 8) % 4).toNat + 1] ∧
    (Generate_Sequence rand m).st.lv1array.cells.length = 2 ∧
    (Generate_Sequence rand m).st.lv2array.cells.length = 3 ∧
    (Generate_Sequence rand m).st.lv3array.cells.length = 4 ∧
    ∀ x ∈ (Generate_Sequence rand m).st.lv1array.cells ++
          (Generate_Sequence rand m).st.lv2array.cells ++
          (Generate_Sequence rand m).st.lv3array.cells, x ∈ [1, 2, 3, 4] := by
  have hb : ∀ k, (rand k % 4).toNat + 1 ∈ [1, 2, 3, 4] := by
    intro k
    have h1 := Int.emod_nonneg (rand k) (show (4 : Int) ≠ 0 by decide)
    have h2 := Int.emod_lt_of_pos (rand k) (show (0 : Int) < 4 by decide)
    have h3 : (rand k % 4).toNat < 4 := by omega
    generalize (rand k % 4).toNat = t at h3
    interval_cases t <;> simp
  have e1 := CArray.put_all_two m.st.lv1array (randCell (rand m.nrand))
    (randCell (rand (m.nrand + 1)))
  have e2 := CArray.put_all_three m.st.lv2array (randCell (rand (m.nrand + 2)))
    (randCell (rand (m.nrand + 3))) (randCell (rand (m.nrand + 4)))
  have e3 := CArray.put_all_four m.st.lv3array (randCell (rand (m.nrand + 5)))
    (randCell (rand (m.nrand + 6))) (randCell (rand (m.nrand + 7)))
    (randCell (rand (m.nrand + 8)))
  simp only [randCell_of_nonneg _ (h _)] at e1 e2 e3
  rw [Generate_Sequence_st]
  simp only [randCell_of_nonneg _ (h _)]
  refine ⟨e1, e2, e3, CArray.length_cells _, CArray.length_cells _, CArray.length_cells _, ?_⟩
  intro x hx
  rw [e1, e2, e3] at hx
  simp only [List.cons_append, List.nil_append, List.mem_cons, List.mem_singleton,
    List.not_mem_nil, or_false] at hx
  rcases hx with h | h | h | h | h | h | h | h | h <;> rw [h] <;> exact hb _

/-- Witness of C1 on the stream 3, 10, 17, ... from the boot state. -/
theorem C1_Generate_Sequence_cells_witness :
    (Generate_Sequence (fun k => 7 * (k : Int) + 3) Sys.boot).st.lv1array.cells = [4, 3] ∧
    (Generate_Sequence (fun k => 7 * (k : Int) + 3) Sys.boot).st.lv2array.cells = [2, 1, 4] ∧
    (Generate_Sequence (fun k => 7 * (k : Int) + 3) Sys.boot).st.lv3array.cells = [3, 2, 1, 4] :=
  have h := C1_Generate_Sequence_cells (fun k => 7 * (k : Int) + 3) Sys.boot (fun k => by positivity)
  ⟨h.1, h.2.1, h.2.2.1⟩

/-! ## C2 -/

/-- C2: `RESET_GAME` applied to any state gives exactly the fresh-start state
(level 0, all six arrays zero, the three cursors 0), which is the state the
program boots in; so `RESET_GAME` after `RESET_GAME` equals `RESET_GAME`. -/
theorem C2_RESET_GAME_fresh (m : Sys) :
    (RESET_GAME m).st = GameState.fresh ∧
    Sys.boot.st = GameState.fresh ∧
    GameState.fresh.level = 0 ∧
    GameState.fresh.lv1array.cells = [0, 0] ∧ GameState.fresh.lv2array.cells = [0, 0, 0] ∧
    GameState.fresh.lv3array.cells = [0, 0, 0, 0] ∧
    GameState.fresh.lv1playerarr.cells = [0, 0] ∧ GameState.fresh.lv2playerarr.cells = [0, 0, 0] ∧
    GameState.fresh.lv3playerarr.cells = [0, 0, 0, 0] ∧
    GameState.fresh.index1 = 0 ∧ GameState.fresh.index2 = 0 ∧ GameState.fresh.index3 = 0 ∧
    (RESET_GAME (RESET_GAME m)).st = (RESET_GAME m).st := by
  refine ⟨RESET_GAME_st m, rfl, rfl, rfl, rfl, rfl, rfl, rfl, rfl, rfl, rfl, rfl, ?_⟩
  rw [RESET_GAME_st, RESET_GAME_st]

theorem CArray.eq_iff_cells {n : Nat} (a b : CArray n) : a = b ↔ a.cells = b.cells :=
  ⟨fun h => by rw [h], CArray.ext_cells⟩

theorem CArray.load_natCast {n : Nat} (a : CArray n) (i : Nat) :
    a.load (i : Int) = a.cells[i]? := by
  simp [CArray.load, CArray.cells]

theorem CArray.load_zero {n : Nat} (a : CArray n) : a.load 0 = a.cells[0]? :=
  a.load_natCast 0

theorem CArray.load_one {n : Nat} (a : CArray n) : a.load 1 = a.cells[1]? :=
  a.load_natCast 1

theorem CArray.load_two {n : Nat} (a : CArray n) : a.load 2 = a.cells[2]? :=
  a.load_natCast 2

theorem CArray.load_three {n : Nat} (a : CArray n) : a.load 3 = a.cells[3]? :=
  a.load_natCast 3

theorem LEVEL_FAIL_st (m : Sys) : (LEVEL_FAIL m).st = GameState.fresh := by
  simp [LEVEL_FAIL, RESET_GAME_st]

theorem LEVEL_FAIL_out (m : Sys) :
    (LEVEL_FAIL m).out = m.out ++ ([Event.enter Routine.LEVEL_FAIL] ++ failFlash ++ failFlash ++
      failFlash ++ failFlash ++ [Event.enter Routine.RESET_GAME]) := by
  simp [LEVEL_FAIL, RESET_GAME_out, range_four, failFlash]

theorem Sequence_Check_level0 (m : Sys) (h : m.st.level = 0) :
    Sequence_Check 2 m = some
      (if m.st.lv1array = m.st.lv1playerarr
        then LEVEL_PASS (m.emit [Event.enter Routine.Sequence_Check])
        else LEVEL_FAIL (m.emit [Event.enter Routine.Sequence_Check])) := by
  obtain ⟨t0, t1, ht⟩ := m.st.lv1array.cells_two
  obtain ⟨p0, p1, hp⟩ := m.st.lv1playerarr.cells_two
  simp only [Sequence_Check, Sys.emit_st, h, CArray.eq_iff_cells, ht, hp]
  simp [Sequence_Check.loop, CArray.load_zero, CArray.load_one, ht, hp]
  by_cases h0 : t0 = p0 <;> by_cases h1 : t1 = p1 <;> simp [h0, h1]

theorem Sequence_Check_level1 (m : Sys) (h : m.st.level = 1) :
    Sequence_Check 3 m = some
      (if m.st.lv2array = m.st.lv2playerarr
        then LEVEL_PASS (m.emit [Event.enter Routine.Sequence_Check])
        else LEVEL_FAIL (m.emit [Event.enter Routine.Sequence_Check])) := by
  obtain ⟨t0, t1, t2, ht⟩ := m.st.lv2array.cells_three
  obtain ⟨p0, p1, p2, hp⟩ := m.st.lv2playerarr.cells_three
  simp only [Sequence_Check, Sys.emit_st, h, CArray.eq_iff_cells, ht, hp]
  simp [Sequence_Check.loop, CArray.load_zero, CArray.load_one, CArray.load_two, ht, hp]
  by_cases h0 : t0 = p0 <;> by_cases h1 : t1 = p1 <;> by_cases h2 : t2 = p2 <;>
    simp [h0, h1, h2]

theorem Sequence_Check_level2 (m : Sys) (h : m.st.level = 2) :
    Sequence_Check 4 m = some
      (if m.st.lv3array = m.st.lv3playerarr
        then BEAT_GAME (m.emit [Event.enter Routine.Sequence_Check])
        else LEVEL_FAIL (m.emit [Event.enter Routine.Sequence_Check])) := by
  obtain ⟨t0, t1, t2, t3, ht⟩ := m.st.lv3array.cells_four
  obtain ⟨p0, p1, p2, p3, hp⟩ := m.st.lv3playerarr.cells_four
  simp only [Sequence_Check, Sys.emit_st, h, CArray.eq_iff_cells, ht, hp]
  simp [Sequence_Check.loop, CArray.load_zero, CArray.load_one, CArray.load_two,
    CArray.load_three, ht, hp]
  by_cases h0 : t0 = p0 <;> by_cases h1 : t1 = p1 <;> by_cases h2 : t2 = p2 <;>
    by_cases h3 : t3 = p3 <;> simp [h0, h1, h2, h3]

theorem LEVEL_PASS_st (m : Sys) :
    (LEVEL_PASS m).st = { m.st with level := (m.st.level + 1) % 256 } := by
  simp [LEVEL_PASS, range_four]

theorem LEVEL_PASS_out (m : Sys) :
    (LEVEL_PASS m).out = m.out ++ ([Event.enter Routine.LEVEL_PASS] ++ passFlash ++ passFlash ++
      passFlash ++ passFlash) := by
  simp [LEVEL_PASS, range_four, passFlash]

theorem BEAT_GAME_st (m : Sys) : (BEAT_GAME m).st = GameState.fresh := by
  simp [BEAT_GAME, RESET_GAME_st]

theorem BEAT_GAME_out (m : Sys) :
    (BEAT_GAME m).out = m.out ++ ([Event.enter Routine.BEAT_GAME] ++ beatSignal ++
      [Event.enter Routine.RESET_GAME]) := by
  simp [BEAT_GAME, RESET_GAME_out, beatSignal]

theorem Sys.emitted_of_out {before after : Sys} {es : List Event}
    (h : after.out = before.out ++ es) : Sys.emitted before after = es := by
  simp [Sys.emitted, h]

theorem GameState.length_target (s : GameState) (h : s.level ≤ 2) :
    s.target.length = levelLength s.level := by
  unfold GameState.target
  obtain ⟨l, hl⟩ : ∃ l, s.level = l := ⟨_, rfl⟩
  rw [hl] at h ⊢
  interval_cases l <;> simp [levelLength, CArray.length_cells]

theorem GameState.length_player (s : GameState) (h : s.level ≤ 2) :
    s.player.length = levelLength s.level := by
  unfold GameState.player
  obtain ⟨l, hl⟩ : ∃ l, s.level = l := ⟨_, rfl⟩
  rw [hl] at h ⊢
  interval_cases l <;> simp [levelLength, CArray.length_cells]

theorem mismatch_iff_ne (a b : List Nat) (n : Nat) (ha : a.length = n) (hb : b.length = n) :
    (∃ i, i < n ∧ a[i]? ≠ b[i]?) ↔ a ≠ b := by
  constructor
  · rintro ⟨i, _, hi⟩ hab
    exact hi (by rw [hab])
  · intro hab
    by_contra hno
    push_neg at hno
    apply hab
    apply List.ext_getElem?
    intro i
    by_cases hi : i < n
    · exact hno i hi
    · rw [List.getElem?_eq_none (by omega), List.getElem?_eq_none (by omega)]

/-- The routine `Sequence_Check` called with the length of the active level: a match runs
`LEVEL_PASS` (levels 0 and 1) or `BEAT_GAME` (level 2), anything else runs
`LEVEL_FAIL`. -/
theorem Sequence_Check_eq (m : Sys) (hL : m.st.level ≤ 2) :
    Sequence_Check (levelLength m.st.level : Nat) m = some
      (if m.st.target = m.st.player then
        (if m.st.level = 2 then BEAT_GAME (m.emit [Event.enter Routine.Sequence_Check])
         else LEVEL_PASS (m.emit [Event.enter Routine.Sequence_Check]))
       else LEVEL_FAIL (m.emit [Event.enter Routine.Sequence_Check])) := by
  obtain ⟨l, hl⟩ : ∃ l, m.st.level = l := ⟨_, rfl⟩
  have hl2 : l ≤ 2 := hl ▸ hL
  interval_cases l
  · have := Sequence_Check_level0 m hl
    simpa [hl, levelLength, GameState.target, GameState.player, CArray.eq_iff_cells] using this
  · have := Sequence_Check_level1 m hl
    simpa [hl, levelLength, GameState.target, GameState.player, CArray.eq_iff_cells] using this
  · have := Sequence_Check_level2 m hl
    simpa [hl, levelLength, GameState.target, GameState.player, CArray.eq_iff_cells] using this

/-- What `Sequence_Check` does when the active arrays are equal: `LEVEL_PASS`
or, at level 2, `BEAT_GAME`. -/
theorem Sequence_Check_of_eq (m : Sys) (hL : m.st.level ≤ 2)
    (heq : m.st.player = m.st.target) :
    ∃ r, Sequence_Check (levelLength m.st.level : Nat) m = some r ∧
      Event.enter Routine.LEVEL_FAIL ∉ Sys.emitted m r ∧
      (m.st.level < 2 →
        r = LEVEL_PASS (m.emit [Event.enter Routine.Sequence_Check]) ∧
        Sys.emitted m r = [Event.enter Routine.Sequence_Check, Event.enter Routine.LEVEL_PASS] ++
          passFlash ++ passFlash ++ passFlash ++ passFlash) ∧
      (m.st.level = 2 →
        r = BEAT_GAME (m.emit [Event.enter Routine.Sequence_Check]) ∧
        Sys.emitted m r = [Event.enter Routine.Sequence_Check, Event.enter Routine.BEAT_GAME] ++
          beatSignal ++ [Event.enter Routine.RESET_GAME]) := by
  refine ⟨_, Sequence_Check_eq m hL, ?_⟩
  rw [if_pos heq.symm]
  by_cases h2 : m.st.level = 2
  · have hout : Sys.emitted m (BEAT_GAME (m.emit [Event.enter Routine.Sequence_Check])) =
        [Event.enter Routine.Sequence_Check, Event.enter Routine.BEAT_GAME] ++
          beatSignal ++ [Event.enter Routine.RESET_GAME] :=
      Sys.emitted_of_out (by simp [BEAT_GAME_out])
    rw [if_pos h2]
    refine ⟨?_, fun h => absurd h2 (by omega), fun _ => ⟨rfl, hout⟩⟩
    rw [hout]
    simp [beatSignal]
  · have hout : Sys.emitted m (LEVEL_PASS (m.emit [Event.enter Routine.Sequence_Check])) =
        [Event.enter Routine.Sequence_Check, Event.enter Routine.LEVEL_PASS] ++
          passFlash ++ passFlash ++ passFlash ++ passFlash :=
      Sys.emitted_of_out (by simp [LEVEL_PASS_out])
    rw [if_neg h2]
    refine ⟨?_, fun _ => ⟨rfl, hout⟩, fun h => absurd h h2⟩
    rw [hout]
    simp [passFlash]

/-! ## C3 -/

/-- C3: reflexivity of the comparison.  At every level 0, 1, 2, if the active
player array equals the active target array, `Sequence_Check` called with the
level's length returns, never enters `LEVEL_FAIL`, and is exactly `LEVEL_PASS`
(levels 0 and 1) or `BEAT_GAME` (level 2) run once after its own entry. -/
theorem C3_Sequence_Check_refl (m : Sys) (hL : m.st.level ≤ 2)
    (heq : m.st.player = m.st.target) :
    ∃ r, Sequence_Check (levelLength m.st.level : Nat) m = some r ∧
      Event.enter Routine.LEVEL_FAIL ∉ Sys.emitted m r ∧
      (m.st.level < 2 →
        r = LEVEL_PASS (m.emit [Event.enter Routine.Sequence_Check]) ∧
        Sys.emitted m r = [Event.enter Routine.Sequence_Check, Event.enter Routine.LEVEL_PASS] ++
          passFlash ++ passFlash ++ passFlash ++ passFlash) ∧
      (m.st.level = 2 →
        r = BEAT_GAME (m.emit [Event.enter Routine.Sequence_Check]) ∧
        Sys.emitted m r = [Event.enter Routine.Sequence_Check, Event.enter Routine.BEAT_GAME] ++
          beatSignal ++ [Event.enter Routine.RESET_GAME]) :=
  Sequence_Check_of_eq m hL heq

/-- Witness of C3: level 0 with target and player both 2, 4. -/
theorem C3_Sequence_Check_refl_witness :
    ∃ r, Sequence_Check 2 (Sys.sample 0 (CArray.ofList [2, 4]) (CArray.ofList [2, 4])
        (CArray.zero 4) (CArray.zero 4)) = some r ∧ r.st.level = 1 :=
  have h := C3_Sequence_Check_refl (Sys.sample 0 (CArray.ofList [2, 4]) (CArray.ofList [2, 4])
    (CArray.zero 4) (CArray.zero 4)) (by decide) (by decide)
  h.elim fun r hr => ⟨r, hr.1, by rw [(hr.2.2.1 (by decide)).1]; decide⟩

/-! ## C4 -/

/-- What `Sequence_Check` does when the active arrays differ: `LEVEL_FAIL`. -/
theorem Sequence_Check_of_ne (m : Sys) (hL : m.st.level ≤ 2) (hne : m.st.target ≠ m.st.player) :
    ∃ r, Sequence_Check (levelLength m.st.level : Nat) m = some r ∧
      r.st = GameState.fresh ∧
      Sys.emitted m r = [Event.enter Routine.Sequence_Check, Event.enter Routine.LEVEL_FAIL] ++
        failFlash ++ failFlash ++ failFlash ++ failFlash ++ [Event.enter Routine.RESET_GAME] := by
  refine ⟨_, Sequence_Check_eq m hL, ?_⟩
  rw [if_neg hne]
  exact ⟨LEVEL_FAIL_st _, Sys.emitted_of_out (by simp [LEVEL_FAIL_out])⟩

/-- C4: at every level 0, 1, 2 with length N, `Sequence_Check(N)` enters
`LEVEL_FAIL` exactly when some index below N holds different values in the
active target and player arrays.  A second state at the same level that agrees
with the first on both arrays up to and including a mismatching index (in
particular the first one) gives the same outcome: the failure log and the
fresh-start state, whatever its later cells hold. -/
theorem C4_Sequence_Check_fail_iff (m : Sys) (hL : m.st.level ≤ 2) :
    ∃ r, Sequence_Check (levelLength m.st.level : Nat) m = some r ∧
      (Event.enter Routine.LEVEL_FAIL ∈ Sys.emitted m r ↔
        ∃ i, i < levelLength m.st.level ∧ m.st.target[i]? ≠ m.st.player[i]?) ∧
      ∀ (m2 : Sys) (k : Nat), m2.st.level = m.st.level → k < levelLength m.st.level →
        m.st.target[k]? ≠ m.st.player[k]? →
        (∀ j, j ≤ k → m2.st.target[j]? = m.st.target[j]? ∧ m2.st.player[j]? = m.st.player[j]?) →
        ∃ r2, Sequence_Check (levelLength m.st.level : Nat) m2 = some r2 ∧
          Event.enter Routine.LEVEL_FAIL ∈ Sys.emitted m r ∧
          Sys.emitted m2 r2 = Sys.emitted m r ∧
          r2.st = r.st ∧ r.st = GameState.fresh := by
  have hiff := mismatch_iff_ne m.st.target m.st.player (levelLength m.st.level)
    (m.st.length_target hL) (m.st.length_player hL)
  by_cases heq : m.st.target = m.st.player
  · obtain ⟨r, hr, hnf, -, -⟩ := Sequence_Check_of_eq m hL heq.symm
    refine ⟨r, hr, ⟨fun h => absurd h hnf, fun h => absurd heq (hiff.mp h)⟩, ?_⟩
    intro m2 k _ _ hk
    exact absurd (by rw [heq]) hk
  · obtain ⟨r, hr, hst, hout⟩ := Sequence_Check_of_ne m hL heq
    refine ⟨r, hr, ⟨fun _ => hiff.mpr heq, fun _ => by rw [hout]; simp⟩, ?_⟩
    intro m2 k hlev hk hmis hagree
    have hne2 : m2.st.target ≠ m2.st.player := by
      intro h2
      apply hmis
      rw [← (hagree k (le_refl k)).1, ← (hagree k (le_refl k)).2, h2]
    obtain ⟨r2, hr2, hst2, hout2⟩ := Sequence_Check_of_ne m2 (hlev ▸ hL) hne2
    rw [hlev] at hr2
    exact ⟨r2, hr2, by rw [hout]; simp, by rw [hout, hout2], by rw [hst, hst2], hst⟩

/-- Witness of C4: level 0, target 1, 3 against player 2, 3, and a second state
with target 1, 4 against player 2, 1 that agrees with it at index 0. -/
theorem C4_Sequence_Check_fail_iff_witness :
    ∃ r r2,
      Sequence_Check 2 (Sys.sample 0 (CArray.ofList [1, 3]) (CArray.ofList [2, 3])
        (CArray.zero 4) (CArray.zero 4)) = some r ∧
      Sequence_Check 2 (Sys.sample 0 (CArray.ofList [1, 4]) (CArray.ofList [2, 1])
        (CArray.zero 4) (CArray.zero 4)) = some r2 ∧
      r2.st = r.st ∧ r.st = GameState.fresh :=
  have h := C4_Sequence_Check_fail_iff (Sys.sample 0 (CArray.ofList [1, 3])
    (CArray.ofList [2, 3]) (CArray.zero 4) (CArray.zero 4)) (by decide)
  h.elim fun r hr =>
    (hr.2.2 (Sys.sample 0 (CArray.ofList [1, 4]) (CArray.ofList [2, 1])
      (CArray.zero 4) (CArray.zero 4)) 0 rfl (by decide) (by decide)
      (fun j hj => by
        have hj0 : j = 0 := by omega
        subst hj0
        exact ⟨by decide, by decide⟩)).elim
      fun r2 hr2 => ⟨r, r2, hr.1, hr2.1, hr2.2.2.2.1, hr2.2.2.2.2⟩

theorem LED_Sound_Link_eq (link : Nat) (m : Sys) :
    LED_Sound_Link link m = m.emit (linkLog link) := by
  unfold linkLog LED_Sound_Link
  split <;> rfl

theorem CArray.store_natCast {n : Nat} (a : CArray n) (i : Nat) (v : Nat) (h : i < n) :
    a.store (i : Int) v = some (a.put i v) := by
  simp [CArray.store, h]

theorem CArray.load_put {n : Nat} (a : CArray n) (i : Nat) (v : Nat) (h : i < n) :
    (a.put i v).load (i : Int) = some v := by
  rw [CArray.load_natCast, CArray.cells_put]
  simp [a.length_cells, h]

/-- The state after a non-zero read `b` in the loop of level 1 at cursor `i`. -/
theorem Player_Sequence.case0_press (b : Nat) (rest : List Nat) (m : Sys) (i : Nat)
    (hi : m.st.index1 = i) (hlt : i < 2) (hb : b ≠ 0) :
    Player_Sequence.case0 (b :: rest) m =
      Player_Sequence.case0 rest
        ((((m.emit [Event.Get_EduBase_Button_Status b]).assign fun s =>
          { s with lv1playerarr := m.st.lv1playerarr.put i (Player_SeqConv b) }).emit
          (linkLog (Player_SeqConv b))).assign fun s => { s with index1 := s.index1 + 1 }) := by
  have hg : m.st.index1 = 0 ∨ m.st.index1 = 1 := by omega
  rw [Player_Sequence.case0]
  simp only [hg, if_true, Sys.emit_st, hb, ne_eq, not_false_eq_true, hi,
    CArray.store_natCast _ _ _ hlt, Sys.assign_st, CArray.load_put _ _ _ hlt, LED_Sound_Link_eq]
  simp [Sys.assign, Sys.emit, hi]
  intros
  omega

theorem Player_Sequence.case0_zero (rest : List Nat) (m : Sys) (hg : m.st.index1 = 0 ∨ m.st.index1 = 1) :
    Player_Sequence.case0 (0 :: rest) m =
      Player_Sequence.case0 rest (m.emit [Event.Get_EduBase_Button_Status 0]) := by
  rw [Player_Sequence.case0]
  simp [hg]

theorem Player_Sequence.case0_exit (reads : List Nat) (m : Sys) (hg : ¬ (m.st.index1 = 0 ∨ m.st.index1 = 1)) :
    Player_Sequence.case0 reads m = Run.done m reads := by
  unfold Player_Sequence.case0
  simp only [hg, if_false]

/-- The capture loop of level 1 with `k` presses still to come. -/
theorem Player_Sequence.case0_capture : ∀ (reads : List Nat) (k : Nat) (m : Sys), k ≤ 2 →
    m.st.index1 = ((2 - k : Nat) : Int) → k ≤ (reads.filter (fun b => b ≠ 0)).length →
    ∃ r, Player_Sequence.case0 reads m = Run.done r (afterPresses k reads) ∧
      r.st = { m.st with
               lv1playerarr := m.st.lv1playerarr.putFrom (2 - k) ((presses k reads).map Player_SeqConv),
               index1 := 2 } ∧
      r.out = m.out ++ (consumed k reads).flatMap pollLog ∧ r.nrand = m.nrand := by
  intro reads
  induction reads with
  | nil =>
    intro k m hk hi hlen
    have hk0 : k = 0 := by simpa using hlen
    subst hk0
    refine ⟨m, ?_, ?_, ?_, rfl⟩
    · rw [Player_Sequence.case0_exit _ _ (by rw [hi]; decide)]
      rfl
    · obtain ⟨st, out, hist, nrand⟩ := m
      obtain ⟨lv, a1, a2, a3, p1, p2, p3, i1, i2, i3⟩ := st
      simp only [Nat.sub_zero, Nat.cast_ofNat] at hi
      simp [presses, CArray.putFrom, hi]
    · simp [consumed]
  | cons b rest ih =>
    intro k m hk hi hlen
    cases k with
    | zero =>
      refine ⟨m, ?_, ?_, ?_, rfl⟩
      · rw [Player_Sequence.case0_exit _ _ (by rw [hi]; decide)]
        rfl
      · obtain ⟨st, out, hist, nrand⟩ := m
        obtain ⟨lv, a1, a2, a3, p1, p2, p3, i1, i2, i3⟩ := st
        simp only [Nat.sub_zero, Nat.cast_ofNat] at hi
        simp [presses, CArray.putFrom, hi]
      · simp [consumed]
    | succ k =>
      have hg : m.st.index1 = 0 ∨ m.st.index1 = 1 := by rw [hi]; omega
      by_cases hb : b = 0
      · subst hb
        rw [Player_Sequence.case0_zero _ _ hg]
        obtain ⟨r, hr, hst, hout, hnr⟩ := ih (k + 1)
          (m.emit [Event.Get_EduBase_Button_Status 0]) hk hi (by simpa using hlen)
        refine ⟨r, ?_, ?_, ?_, hnr⟩
        · rw [hr]
          simp [afterPresses]
        · rw [hst]
          simp [presses]
        · rw [hout]
          simp [consumed, pollLog]
      · rw [Player_Sequence.case0_press b rest m (2 - (k + 1)) hi (by omega) hb]
        obtain ⟨r, hr, hst, hout, hnr⟩ := ih k
          ((((m.emit [Event.Get_EduBase_Button_Status b]).assign fun s =>
            { s with lv1playerarr := m.st.lv1playerarr.put (2 - (k + 1)) (Player_SeqConv b) }).emit
            (linkLog (Player_SeqConv b))).assign fun s => { s with index1 := s.index1 + 1 })
          (by omega) (by simp only [Sys.assign_st, Sys.emit_st, hi]; omega)
          (by simpa [hb] using hlen)
        refine ⟨r, ?_, ?_, ?_, hnr⟩
        · rw [hr]
          simp [afterPresses, hb]
        · rw [hst]
          simp [presses, hb, CArray.putFrom]
          congr 1
          omega
        · rw [hout]
          simp [consumed, hb, pollLog]

/-- The state after a non-zero read `b` in the loop of level 2 at cursor `i`. -/
theorem Player_Sequence.case1_press (b : Nat) (rest : List Nat) (m : Sys) (i : Nat)
    (hi : m.st.index2 = i) (hlt : i < 3) (hb : b ≠ 0) :
    Player_Sequence.case1 (b :: rest) m =
      Player_Sequence.case1 rest
        ((((m.emit [Event.Get_EduBase_Button_Status b]).assign fun s =>
          { s with lv2playerarr := m.st.lv2playerarr.put i (Player_SeqConv b) }).emit
          (linkLog (Player_SeqConv b))).assign fun s => { s with index2 := s.index2 + 1 }) := by
  have hg : m.st.index2 = 0 ∨ m.st.index2 = 1 ∨ m.st.index2 = 2 := by omega
  rw [Player_Sequence.case1]
  simp only [hg, if_true, Sys.emit_st, hb, ne_eq, not_false_eq_true, hi,
    CArray.store_natCast _ _ _ hlt, Sys.assign_st, CArray.load_put _ _ _ hlt, LED_Sound_Link_eq]
  simp [Sys.assign, Sys.emit, hi]
  intros
  omega

theorem Player_Sequence.case1_zero (rest : List Nat) (m : Sys) (hg : m.st.index2 = 0 ∨ m.st.index2 = 1 ∨ m.st.index2 = 2) :
    Player_Sequence.case1 (0 :: rest) m =
      Player_Sequence.case1 rest (m.emit [Event.Get_EduBase_Button_Status 0]) := by
  rw [Player_Sequence.case1]
  simp [hg]

theorem Player_Sequence.case1_exit (reads : List Nat) (m : Sys) (hg : ¬ (m.st.index2 = 0 ∨ m.st.index2 = 1 ∨ m.st.index2 = 2)) :
    Player_Sequence.case1 reads m = Run.done m reads := by
  unfold Player_Sequence.case1
  simp only [hg, if_false]

/-- The capture loop of level 2 with `k` presses still to come. -/
theorem Player_Sequence.case1_capture : ∀ (reads : List Nat) (k : Nat) (m : Sys), k ≤ 3 →
    m.st.index2 = ((3 - k : Nat) : Int) → k ≤ (reads.filter (fun b => b ≠ 0)).length →
    ∃ r, Player_Sequence.case1 reads m = Run.done r (afterPresses k reads) ∧
      r.st = { m.st with
               lv2playerarr := m.st.lv2playerarr.putFrom (3 - k) ((presses k reads).map Player_SeqConv),
               index2 := 3 } ∧
      r.out = m.out ++ (consumed k reads).flatMap pollLog ∧ r.nrand = m.nrand := by
  intro reads
  induction reads with
  | nil =>
    intro k m hk hi hlen
    have hk0 : k = 0 := by simpa using hlen
    subst hk0
    refine ⟨m, ?_, ?_, ?_, rfl⟩
    · rw [Player_Sequence.case1_exit _ _ (by rw [hi]; decide)]
      rfl
    · obtain ⟨st, out, hist, nrand⟩ := m
      obtain ⟨lv, a1, a2, a3, p1, p2, p3, i1, i2, i3⟩ := st
      simp only [Nat.sub_zero, Nat.cast_ofNat] at hi
      simp [presses, CArray.putFrom, hi]
    · simp [consumed]
  | cons b rest ih =>
    intro k m hk hi hlen
    cases k with
    | zero =>
      refine ⟨m, ?_, ?_, ?_, rfl⟩
      · rw [Player_Sequence.case1_exit _ _ (by rw [hi]; decide)]
        rfl
      · obtain ⟨st, out, hist, nrand⟩ := m
        obtain ⟨lv, a1, a2, a3, p1, p2, p3, i1, i2, i3⟩ := st
        simp only [Nat.sub_zero, Nat.cast_ofNat] at hi
        simp [presses, CArray.putFrom, hi]
      · simp [consumed]
    | succ k =>
      have hg : m.st.index2 = 0 ∨ m.st.index2 = 1 ∨ m.st.index2 = 2 := by rw [hi]; omega
      by_cases hb : b = 0
      · subst hb
        rw [Player_Sequence.case1_zero _ _ hg]
        obtain ⟨r, hr, hst, hout, hnr⟩ := ih (k + 1)
          (m.emit [Event.Get_EduBase_Button_Status 0]) hk hi (by simpa using hlen)
        refine ⟨r, ?_, ?_, ?_, hnr⟩
        · rw [hr]
          simp [afterPresses]
        · rw [hst]
          simp [presses]
        · rw [hout]
          simp [consumed, pollLog]
      · rw [Player_Sequence.case1_press b rest m (3 - (k + 1)) hi (by omega) hb]
        obtain ⟨r, hr, hst, hout, hnr⟩ := ih k
          ((((m.emit [Event.Get_EduBase_Button_Status b]).assign fun s =>
            { s with lv2playerarr := m.st.lv2playerarr.put (3 - (k + 1)) (Player_SeqConv b) }).emit
            (linkLog (Player_SeqConv b))).assign fun s => { s with index2 := s.index2 + 1 })
          (by omega) (by simp only [Sys.assign_st, Sys.emit_st, hi]; omega)
          (by simpa [hb] using hlen)
        refine ⟨r, ?_, ?_, ?_, hnr⟩
        · rw [hr]
          simp [afterPresses, hb]
        · rw [hst]
          simp [presses, hb, CArray.putFrom]
          congr 1
          omega
        · rw [hout]
          simp [consumed, hb, pollLog]

theorem Player_Sequence.case2_zero (rest : List Nat) (m : Sys)
    (hg : m.st.index3 = 0 ∨ m.st.index3 = 1 ∨ m.st.index3 = 2 ∨ m.st.index3 = 3) :
    Player_Sequence.case2 (0 :: rest) m =
      Player_Sequence.case2 rest (m.emit [Event.Get_EduBase_Button_Status 0]) := by
  have h4 : m.st.index3 ≠ 4 := by omega
  rw [Player_Sequence.case2]
  simp [hg, Player_Sequence.case2_tail, h4]

theorem Player_Sequence.case2_exit (reads : List Nat) (m : Sys)
    (hg : ¬ (m.st.index3 = 0 ∨ m.st.index3 = 1 ∨ m.st.index3 = 2 ∨ m.st.index3 = 3)) :
    Player_Sequence.case2 reads m = Run.done m reads := by
  unfold Player_Sequence.case2
  simp only [hg, if_false]

/-- The state after a non-zero read `b` in the loop of level 3 at a cursor
`i` below 3: the loop goes on. -/
theorem Player_Sequence.case2_press (b : Nat) (rest : List Nat) (m : Sys) (i : Nat)
    (hi : m.st.index3 = i) (hlt : i < 3) (hb : b ≠ 0) :
    Player_Sequence.case2 (b :: rest) m =
      Player_Sequence.case2 rest
        ((((m.emit [Event.Get_EduBase_Button_Status b]).assign fun s =>
          { s with lv3playerarr := m.st.lv3playerarr.put i (Player_SeqConv b) }).emit
          (linkLog (Player_SeqConv b))).assign fun s => { s with index3 := s.index3 + 1 }) := by
  have hg : m.st.index3 = 0 ∨ m.st.index3 = 1 ∨ m.st.index3 = 2 ∨ m.st.index3 = 3 := by omega
  have h4 : ¬ ((i : Int) + 1 = 4) := by omega
  rw [Player_Sequence.case2]
  simp only [hg, if_true, Sys.emit_st, hb, ne_eq, not_false_eq_true, hi,
    CArray.store_natCast _ _ _ (show i < 4 by omega), Sys.assign_st,
    CArray.load_put _ _ _ (show i < 4 by omega), LED_Sound_Link_eq,
    Player_Sequence.case2_tail, h4, if_false]
  simp [Sys.assign, Sys.emit, hi]
  intros
  omega

/-- The state after a non-zero read `b` in the loop of level 3 at cursor 3:
the three cursors are cleared and the loop is left. -/
theorem Player_Sequence.case2_last (b : Nat) (rest : List Nat) (m : Sys)
    (hi : m.st.index3 = 3) (hb : b ≠ 0) :
    Player_Sequence.case2 (b :: rest) m =
      Run.done
        (((((((m.emit [Event.Get_EduBase_Button_Status b]).assign fun s =>
          { s with lv3playerarr := m.st.lv3playerarr.put 3 (Player_SeqConv b) }).emit
          (linkLog (Player_SeqConv b))).assign fun s => { s with index3 := s.index3 + 1 }).assign
          fun s => { s with index1 := 0 }).assign fun s => { s with index2 := 0 }).assign
          fun s => { s with index3 := 0 }) rest := by
  have hi3 : m.st.index3 = ((3 : Nat) : Int) := by simpa using hi
  rw [Player_Sequence.case2]
  simp only [hi3, Sys.emit_st, hb, ne_eq, not_false_eq_true,
    CArray.store_natCast _ _ _ (show 3 < 4 by omega), Sys.assign_st,
    CArray.load_put _ _ _ (show 3 < 4 by omega), LED_Sound_Link_eq,
    Player_Sequence.case2_tail]
  simp [Sys.assign, Sys.emit, hi]

/-- The capture loop of level 3 with `k` presses still to come, `k` at least 1. -/
theorem Player_Sequence.case2_capture : ∀ (reads : List Nat) (k : Nat) (m : Sys), 1 ≤ k → k ≤ 4 →
    m.st.index3 = ((4 - k : Nat) : Int) → k ≤ (reads.filter (fun b => b ≠ 0)).length →
    ∃ r, Player_Sequence.case2 reads m = Run.done r (afterPresses k reads) ∧
      r.st = { m.st with
               lv3playerarr := m.st.lv3playerarr.putFrom (4 - k)
                 ((presses k reads).map Player_SeqConv),
               index1 := 0, index2 := 0, index3 := 0 } ∧
      r.out = m.out ++ (consumed k reads).flatMap pollLog ∧ r.nrand = m.nrand := by
  intro reads
  induction reads with
  | nil =>
    intro k m hk1 hk hi hlen
    simp at hlen
    omega
  | cons b rest ih =>
    intro k m hk1 hk hi hlen
    have hg : m.st.index3 = 0 ∨ m.st.index3 = 1 ∨ m.st.index3 = 2 ∨ m.st.index3 = 3 := by
      rw [hi]; omega
    by_cases hb : b = 0
    · subst hb
      rw [Player_Sequence.case2_zero _ _ hg]
      obtain ⟨r, hr, hst, hout, hnr⟩ := ih k
        (m.emit [Event.Get_EduBase_Button_Status 0]) hk1 hk hi (by simpa using hlen)
      obtain ⟨k, rfl⟩ : ∃ j, k = j + 1 := ⟨k - 1, by omega⟩
      refine ⟨r, ?_, ?_, ?_, hnr⟩
      · rw [hr]
        simp [afterPresses]
      · rw [hst]
        simp [presses]
      · rw [hout]
        simp [consumed, pollLog]
    · obtain ⟨k, rfl⟩ : ∃ j, k = j + 1 := ⟨k - 1, by omega⟩
      cases k with
      | zero =>
        have hi3 : m.st.index3 = 3 := by rw [hi]; rfl
        rw [Player_Sequence.case2_last b rest m hi3 hb]
        have hap : afterPresses (0 + 1) (b :: rest) = rest := by simp [afterPresses, hb]
        rw [hap]
        refine ⟨_, rfl, ?_, ?_, rfl⟩
        · simp [presses, hb, CArray.putFrom]
        · simp [consumed, hb, pollLog]
      | succ k =>
        rw [Player_Sequence.case2_press b rest m (4 - (k + 1 + 1)) hi (by omega) hb]
        obtain ⟨r, hr, hst, hout, hnr⟩ := ih (k + 1)
          ((((m.emit [Event.Get_EduBase_Button_Status b]).assign fun s =>
            { s with lv3playerarr :=
                m.st.lv3playerarr.put (4 - (k + 1 + 1)) (Player_SeqConv b) }).emit
            (linkLog (Player_SeqConv b))).assign fun s => { s with index3 := s.index3 + 1 })
          (by omega) (by omega) (by simp only [Sys.assign_st, Sys.emit_st, hi]; omega)
          (by simpa [hb] using hlen)
        refine ⟨r, ?_, ?_, ?_, hnr⟩
        · rw [hr]
          simp [afterPresses, hb]
        · rw [hst]
          simp [presses, hb, CArray.putFrom]
          congr 1
          omega
        · rw [hout]
          simp [consumed, hb, pollLog]

theorem consumed_append_afterPresses : ∀ (k : Nat) (reads : List Nat),
    consumed k reads ++ afterPresses k reads = reads
  | 0, _ => by simp [consumed, afterPresses]
  | _ + 1, [] => by simp [consumed, afterPresses]
  | k + 1, b :: rest => by
    by_cases hb : b = 0
    · simp [consumed, afterPresses, hb, consumed_append_afterPresses (k + 1) rest]
    · simp [consumed, afterPresses, hb, consumed_append_afterPresses k rest]

theorem filter_consumed : ∀ (k : Nat) (reads : List Nat),
    (consumed k reads).filter (fun b => b ≠ 0) = presses k reads
  | 0, _ => by simp [consumed, presses]
  | _ + 1, [] => by simp [consumed, presses]
  | k + 1, b :: rest => by
    by_cases hb : b = 0
    · have := filter_consumed (k + 1) rest
      simp [presses] at this
      simp [consumed, presses, hb, this]
    · have := filter_consumed k rest
      simp [presses] at this
      simp [consumed, presses, hb, this]

theorem getLast_consumed : ∀ (k : Nat) (reads : List Nat),
    k ≤ (reads.filter (fun b => b ≠ 0)).length →
    (consumed k reads).getLast? = (presses k reads).getLast?
  | 0, _, _ => by simp [consumed, presses]
  | _ + 1, [], h => by simp at h
  | k + 1, b :: rest, h => by
    by_cases hb : b = 0
    · have := getLast_consumed (k + 1) rest (by simpa [hb] using h)
      obtain ⟨c, cs, hc⟩ : ∃ c cs, consumed (k + 1) rest = c :: cs := by
        cases rest with
        | nil => simp [hb] at h
        | cons c cs => exact ⟨c, _, rfl⟩
      simp [presses] at this
      simp [consumed, presses, hb, hc, ← this, List.getLast?_cons_cons]
    · have h2 : k ≤ (rest.filter (fun b => b ≠ 0)).length := by simpa [hb] using h
      have := getLast_consumed k rest h2
      cases k with
      | zero => simp [consumed, presses, hb]
      | succ k =>
        obtain ⟨c, cs, hc⟩ : ∃ c cs, consumed (k + 1) rest = c :: cs := by
          cases rest with
          | nil => simp at h2
          | cons c cs => exact ⟨c, _, rfl⟩
        obtain ⟨d, ds, hd⟩ : ∃ d ds, presses (k + 1) rest = d :: ds := by
          unfold presses
          cases hf : rest.filter (fun b => b ≠ 0) with
          | nil => rw [hf] at h2; simp at h2
          | cons d ds => exact ⟨d, _, rfl⟩
        have hp : presses (k + 1 + 1) (b :: rest) = b :: presses (k + 1) rest := by
          simp [presses, hb]
        have hcs : consumed (k + 1 + 1) (b :: rest) = b :: consumed (k + 1) rest := by
          simp [consumed, hb]
        rw [hp, hcs, hc, hd, List.getLast?_cons_cons, List.getLast?_cons_cons, ← hc, ← hd, this]

theorem length_presses (k : Nat) (reads : List Nat)
    (h : k ≤ (reads.filter (fun b => b ≠ 0)).length) : (presses k reads).length = k := by
  simp [presses] at h ⊢
  exact h

theorem CArray.putFrom_all_two (a : CArray 2) (vs : List Nat) (h : vs.length = 2) :
    (a.putFrom 0 vs).cells = vs := by
  match vs, h with
  | [p, q], _ => exact CArray.put_all_two a p q

theorem CArray.putFrom_all_three (a : CArray 3) (vs : List Nat) (h : vs.length = 3) :
    (a.putFrom 0 vs).cells = vs := by
  match vs, h with
  | [p, q, r], _ => exact CArray.put_all_three a p q r

theorem CArray.putFrom_all_four (a : CArray 4) (vs : List Nat) (h : vs.length = 4) :
    (a.putFrom 0 vs).cells = vs := by
  match vs, h with
  | [p, q, r, t], _ => exact CArray.put_all_four a p q r t

/-- The routine `Player_Sequence` entered at a level 0, 1, 2 with the level's cursor at 0
and at least the level's length of non-zero reads to come. -/
theorem Player_Sequence_capture (m : Sys) (reads : List Nat) (hL : m.st.level ≤ 2)
    (hc : m.st.cursor = 0)
    (hlen : levelLength m.st.level ≤ (reads.filter (fun b => b ≠ 0)).length) :
    ∃ r, Player_Sequence m reads = Run.done r (afterPresses (levelLength m.st.level) reads) ∧
      r.st.player = (presses (levelLength m.st.level) reads).map Player_SeqConv ∧
      r.st.level = m.st.level ∧
      r.st.lv1array = m.st.lv1array ∧ r.st.lv2array = m.st.lv2array ∧
      r.st.lv3array = m.st.lv3array ∧
      (m.st.level ≠ 0 → r.st.lv1playerarr = m.st.lv1playerarr) ∧
      (m.st.level ≠ 1 → r.st.lv2playerarr = m.st.lv2playerarr) ∧
      (m.st.level ≠ 2 → r.st.lv3playerarr = m.st.lv3playerarr) ∧
      r.out = m.out ++ Event.enter Routine.Player_Sequence ::
        (consumed (levelLength m.st.level) reads).flatMap pollLog ∧
      r.nrand = m.nrand := by
  obtain ⟨l, hl⟩ : ∃ l, m.st.level = l := ⟨_, rfl⟩
  have hl2 : l ≤ 2 := hl ▸ hL
  have hpl := length_presses _ _ hlen
  rw [hl] at hlen hpl ⊢
  interval_cases l
  · obtain ⟨r, hr, hst, hout, hnr⟩ := Player_Sequence.case0_capture reads 2
      (m.emit [Event.enter Routine.Player_Sequence]) (le_refl 2)
      (by simpa [GameState.cursor, hl] using hc) hlen
    refine ⟨r, ?_, ?_, ?_⟩
    · simpa [Player_Sequence, hl] using hr
    · rw [hst]
      simp only [GameState.player, Sys.emit_st, Nat.sub_self, levelLength, hl]
      exact CArray.putFrom_all_two _ _ (by simpa using hpl)
    · rw [hst, hout, hnr]
      simp [hl, levelLength]
  · obtain ⟨r, hr, hst, hout, hnr⟩ := Player_Sequence.case1_capture reads 3
      (m.emit [Event.enter Routine.Player_Sequence]) (le_refl 3)
      (by simpa [GameState.cursor, hl] using hc) hlen
    refine ⟨r, ?_, ?_, ?_⟩
    · simpa [Player_Sequence, hl] using hr
    · rw [hst]
      simp only [GameState.player, Sys.emit_st, Nat.sub_self, levelLength, hl]
      exact CArray.putFrom_all_three _ _ (by simpa using hpl)
    · rw [hst, hout, hnr]
      simp [hl, levelLength]
  · obtain ⟨r, hr, hst, hout, hnr⟩ := Player_Sequence.case2_capture reads 4
      (m.emit [Event.enter Routine.Player_Sequence]) (by decide) (le_refl 4)
      (by simpa [GameState.cursor, hl] using hc) hlen
    refine ⟨r, ?_, ?_, ?_⟩
    · simpa [Player_Sequence, hl] using hr
    · rw [hst]
      simp only [GameState.player, Sys.emit_st, Nat.sub_self, levelLength, hl]
      exact CArray.putFrom_all_four _ _ (by simpa using hpl)
    · rw [hst, hout, hnr]
      simp [hl, levelLength]

/-! ## C10 -/

/-- C10: at every level 0, 1, 2 with length N and the level's cursor at 0, on
every read stream with at least N non-zero reads `Player_Sequence` returns,
having consumed the stream up to and including its N-th non-zero read (the
consumed part ends in a non-zero read and holds exactly N of them); the player
array of the level then holds `Player_SeqConv` of the first N non-zero reads in
order; the level, the three target arrays and the player arrays of the other
levels are unchanged. -/
theorem C10_Player_Sequence_returns (m : Sys) (reads : List Nat) (hL : m.st.level ≤ 2)
    (hc : m.st.cursor = 0)
    (hlen : levelLength m.st.level ≤ (reads.filter (fun b => b ≠ 0)).length) :
    ∃ r, Player_Sequence m reads = Run.done r (afterPresses (levelLength m.st.level) reads) ∧
      reads = consumed (levelLength m.st.level) reads ++
        afterPresses (levelLength m.st.level) reads ∧
      ((consumed (levelLength m.st.level) reads).filter (fun b => b ≠ 0)).length =
        levelLength m.st.level ∧
      (∃ b, (consumed (levelLength m.st.level) reads).getLast? = some b ∧ b ≠ 0) ∧
      r.st.player = ((reads.filter (fun b => b ≠ 0)).take (levelLength m.st.level)).map
        Player_SeqConv ∧
      r.st.level = m.st.level ∧
      r.st.lv1array = m.st.lv1array ∧ r.st.lv2array = m.st.lv2array ∧
      r.st.lv3array = m.st.lv3array ∧
      (m.st.level ≠ 0 → r.st.lv1playerarr = m.st.lv1playerarr) ∧
      (m.st.level ≠ 1 → r.st.lv2playerarr = m.st.lv2playerarr) ∧
      (m.st.level ≠ 2 → r.st.lv3playerarr = m.st.lv3playerarr) := by
  obtain ⟨r, hr, hp, hlv, h1, h2, h3, hp1, hp2, hp3, -, -⟩ :=
    Player_Sequence_capture m reads hL hc hlen
  have hpl := length_presses _ _ hlen
  refine ⟨r, hr, (consumed_append_afterPresses _ _).symm, ?_, ?_, hp, hlv, h1, h2, h3,
    hp1, hp2, hp3⟩
  · rw [filter_consumed, hpl]
  · rw [getLast_consumed _ _ hlen]
    have hpos : 0 < levelLength m.st.level := by
      obtain ⟨l, hl⟩ : ∃ l, m.st.level = l := ⟨_, rfl⟩
      have hl2 : l ≤ 2 := hl ▸ hL
      rw [hl]
      interval_cases l <;> decide
    have hne : presses (levelLength m.st.level) reads ≠ [] := by
      intro h0
      rw [h0] at hpl
      simp at hpl
      omega
    refine ⟨(presses (levelLength m.st.level) reads).getLast hne,
      List.getLast?_eq_getLast _ hne, ?_⟩
    have hmem := List.getLast_mem hne
    have hmem2 : (presses (levelLength m.st.level) reads).getLast hne ∈
        reads.filter (fun b => b ≠ 0) := List.mem_of_mem_take hmem
    simpa using (List.mem_filter.mp hmem2).2

/-- Witness of C10: level 0, reads 0, 2, 0, 0, 8, 5: the capture returns with
5 left over and the player array 2, 4. -/
theorem C10_Player_Sequence_returns_witness :
    ∃ r, Player_Sequence (Sys.sample 0 (CArray.zero 2) (CArray.zero 2) (CArray.zero 4)
        (CArray.zero 4)) [0, 2, 0, 0, 8, 5] = Run.done r [5] ∧
      r.st.player = [2, 4] :=
  have h := C10_Player_Sequence_returns (Sys.sample 0 (CArray.zero 2) (CArray.zero 2)
    (CArray.zero 4) (CArray.zero 4)) [0, 2, 0, 0, 8, 5] (by decide) (by decide) (by decide)
  h.elim fun r hr => ⟨r, hr.1, hr.2.2.2.2.1⟩

theorem Sys.emit_emit (m : Sys) (es fs : List Event) : (m.emit es).emit fs = m.emit (es ++ fs) := by
  simp [Sys.emit]

theorem Player_Sequence.case0_zeros (n : Nat) : ∀ (m : Sys),
    (m.st.index1 = 0 ∨ m.st.index1 = 1) →
    Player_Sequence.case0 (List.replicate n 0) m =
      Run.polling (m.emit (List.replicate n (Event.Get_EduBase_Button_Status 0))) := by
  induction n with
  | zero =>
    intro m hg
    unfold Player_Sequence.case0
    simp [hg, Sys.emit]
  | succ n ih =>
    intro m hg
    rw [List.replicate_succ, Player_Sequence.case0_zero _ _ hg, ih (m.emit _) hg, Sys.emit_emit]
    rfl

theorem Player_Sequence.case1_zeros (n : Nat) : ∀ (m : Sys),
    (m.st.index2 = 0 ∨ m.st.index2 = 1 ∨ m.st.index2 = 2) →
    Player_Sequence.case1 (List.replicate n 0) m =
      Run.polling (m.emit (List.replicate n (Event.Get_EduBase_Button_Status 0))) := by
  induction n with
  | zero =>
    intro m hg
    unfold Player_Sequence.case1
    simp [hg, Sys.emit]
  | succ n ih =>
    intro m hg
    rw [List.replicate_succ, Player_Sequence.case1_zero _ _ hg, ih (m.emit _) hg, Sys.emit_emit]
    rfl

theorem Player_Sequence.case2_zeros (n : Nat) : ∀ (m : Sys),
    (m.st.index3 = 0 ∨ m.st.index3 = 1 ∨ m.st.index3 = 2 ∨ m.st.index3 = 3) →
    Player_Sequence.case2 (List.replicate n 0) m =
      Run.polling (m.emit (List.replicate n (Event.Get_EduBase_Button_Status 0))) := by
  induction n with
  | zero =>
    intro m hg
    unfold Player_Sequence.case2
    simp [hg, Sys.emit]
  | succ n ih =>
    intro m hg
    rw [List.replicate_succ, Player_Sequence.case2_zero _ _ hg, ih (m.emit _) hg, Sys.emit_emit]
    rfl

/-- The routine `Player_Sequence` on zero reads only, entered while the loop condition of
the active level holds: still polling, nothing but the reads logged. -/
theorem Player_Sequence_zeros (m : Sys) (n : Nat) (hg : m.st.capturing) :
    Player_Sequence m (List.replicate n 0) =
      Run.polling (m.emit (Event.enter Routine.Player_Sequence ::
        List.replicate n (Event.Get_EduBase_Button_Status 0))) := by
  unfold GameState.capturing at hg
  unfold Player_Sequence
  simp only [Sys.emit_st]
  split at hg
  · rw [Player_Sequence.case0_zeros n (m.emit _) hg, Sys.emit_emit]
    rfl
  · rw [Player_Sequence.case1_zeros n (m.emit _) hg, Sys.emit_emit]
    rfl
  · rw [Player_Sequence.case2_zeros n (m.emit _) hg, Sys.emit_emit]
    rfl
  · exact absurd hg id

/-! ## C8 -/

/-- C8: in `Player_Sequence`, at each of the levels that poll (0, 1, 2), a
poll that reads 0x00 leaves the loop where it was: the globals (player arrays,
cursors, level) and their history are the same before and after, and the log
gains the read and nothing else, so no LED or tone call.  Hence on `n` zero
reads in a row the capture is still polling, in the state it was entered in. -/
theorem C8_zero_read_is_ignored (m : Sys) (rest : List Nat) (n : Nat) (hg : m.st.capturing) :
    (m.st.level = 0 → Player_Sequence.case0 (0 :: rest) m =
      Player_Sequence.case0 rest (m.emit [Event.Get_EduBase_Button_Status 0])) ∧
    (m.st.level = 1 → Player_Sequence.case1 (0 :: rest) m =
      Player_Sequence.case1 rest (m.emit [Event.Get_EduBase_Button_Status 0])) ∧
    (m.st.level = 2 → Player_Sequence.case2 (0 :: rest) m =
      Player_Sequence.case2 rest (m.emit [Event.Get_EduBase_Button_Status 0])) ∧
    (m.emit [Event.Get_EduBase_Button_Status 0]).st = m.st ∧
    (m.emit [Event.Get_EduBase_Button_Status 0]).hist = m.hist ∧
    (m.emit [Event.Get_EduBase_Button_Status 0]).out =
      m.out ++ [Event.Get_EduBase_Button_Status 0] ∧
    ∃ r, Player_Sequence m (List.replicate n 0) = Run.polling r ∧
      r.st = m.st ∧ r.hist = m.hist ∧
      r.out = m.out ++ Event.enter Routine.Player_Sequence ::
        List.replicate n (Event.Get_EduBase_Button_Status 0) := by
  refine ⟨fun h0 => ?_, fun h1 => ?_, fun h2 => ?_, rfl, rfl, rfl,
    ⟨_, Player_Sequence_zeros m n hg, rfl, rfl, rfl⟩⟩
  · simp only [GameState.capturing, h0] at hg
    exact Player_Sequence.case0_zero rest m hg
  · simp only [GameState.capturing, h1] at hg
    exact Player_Sequence.case1_zero rest m hg
  · simp only [GameState.capturing, h2] at hg
    exact Player_Sequence.case2_zero rest m hg

/-- Witness of C8: the boot state (level 0, cursor 0) and three zero reads. -/
theorem C8_zero_read_is_ignored_witness :
    ∃ r, Player_Sequence Sys.boot [0, 0, 0] = Run.polling r ∧ r.st = GameState.fresh :=
  have h := C8_zero_read_is_ignored Sys.boot [] 3 (Or.inl rfl)
  h.2.2.2.2.2.2.elim fun r hr => ⟨r, hr.1, hr.2.1⟩

theorem Level_Config.present_eq {n : Nat} (target : GameState → CArray n) (len : Nat) (m : Sys) :
    Level_Config.present target len m =
      m.emit ((List.range len).flatMap fun i => presentLog ((target m.st).peek i)) := by
  unfold Level_Config.present
  generalize List.range len = xs
  have key : ∀ (k : Sys), k.st = m.st →
      xs.foldl (fun m i =>
        (LED_Sound_Link ((target m.st).peek i) m).emit [Event.SysTick_Delay1ms 500,
          Event.EduBase_LEDs_Output LedMask.EDUBASE_LED_ALL_OFF, Event.SysTick_Delay1ms 500]) k =
      k.emit (xs.flatMap fun i => presentLog ((target m.st).peek i)) := by
    induction xs with
    | nil => intro k _; simp [Sys.emit]
    | cons x xs ih =>
      intro k hk
      rw [List.foldl_cons, ih _ (by simp [LED_Sound_Link_eq, hk])]
      simp [LED_Sound_Link_eq, Sys.emit_emit, presentLog, hk]
  exact key m rfl

/-- The three `emit`s that open `Level_Config` and the presentation loop, as
one log entry list. -/
theorem Level_Config_eq (m : Sys) (reads : List Nat) (hL : m.st.level ≤ 2) :
    Level_Config m reads =
      Level_Config.play (levelLength m.st.level : Nat)
        (m.emit ([Event.enter Routine.Level_Config, Event.Seven_Segment_Display (m.st.level + 1),
          Event.RGB_LED_Output RGBColor.RGB_LED_BLUE] ++
          m.st.target.flatMap presentLog)) reads := by
  obtain ⟨l, hl⟩ : ∃ l, m.st.level = l := ⟨_, rfl⟩
  have hl2 : l ≤ 2 := hl ▸ hL
  unfold Level_Config
  simp only [Sys.emit_st, Level_Config.present_eq, Sys.emit_emit, GameState.target]
  rw [hl]
  interval_cases l
  · obtain ⟨x, y, h⟩ := m.st.lv1array.cells_two
    have hp : ∀ i, m.st.lv1array.peek i = [x, y].getD i 0 := fun i => by
      rw [← h]; rfl
    simp [levelLength, range_two, hp, h]
  · obtain ⟨x, y, z, h⟩ := m.st.lv2array.cells_three
    have hp : ∀ i, m.st.lv2array.peek i = [x, y, z].getD i 0 := fun i => by
      rw [← h]; rfl
    simp [levelLength, range_three, hp, h]
  · obtain ⟨x, y, z, w, h⟩ := m.st.lv3array.cells_four
    have hp : ∀ i, m.st.lv3array.peek i = [x, y, z, w].getD i 0 := fun i => by
      rw [← h]; rfl
    simp [levelLength, range_four, hp, h]

/-- One `Level_Config` call at a level 0, 1, 2 with the level's cursor at 0 and
enough non-zero reads: the capture returns in a state `c` that holds the
converted presses, and the outcome is the one `Sequence_Check` picks for `c`. -/
theorem Level_Config_run (m : Sys) (reads : List Nat) (hL : m.st.level ≤ 2)
    (hc : m.st.cursor = 0)
    (hlen : levelLength m.st.level ≤ (reads.filter (fun b => b ≠ 0)).length) :
    ∃ c, c.st.level = m.st.level ∧ c.st.target = m.st.target ∧
      c.st.lv1array = m.st.lv1array ∧ c.st.lv2array = m.st.lv2array ∧
      c.st.lv3array = m.st.lv3array ∧
      c.st.player = (presses (levelLength m.st.level) reads).map Player_SeqConv ∧
      c.out = m.out ++ ([Event.enter Routine.Level_Config,
          Event.Seven_Segment_Display (m.st.level + 1),
          Event.RGB_LED_Output RGBColor.RGB_LED_BLUE] ++ m.st.target.flatMap presentLog ++
          Event.enter Routine.Player_Sequence ::
            (consumed (levelLength m.st.level) reads).flatMap pollLog ++
          [Event.enter Routine.Sequence_Check]) ∧
      Level_Config m reads = Run.done
        (if c.st.target = c.st.player then
          (if m.st.level = 2 then BEAT_GAME c else LEVEL_PASS c)
         else LEVEL_FAIL c) (afterPresses (levelLength m.st.level) reads) := by
  obtain ⟨r, hr, hp, hlv, h1, h2, h3, -, -, -, hout, -⟩ :=
    Player_Sequence_capture
      (m.emit ([Event.enter Routine.Level_Config, Event.Seven_Segment_Display (m.st.level + 1),
          Event.RGB_LED_Output RGBColor.RGB_LED_BLUE] ++ m.st.target.flatMap presentLog))
      reads hL hc hlen
  simp only [Sys.emit_st, Sys.emit_out] at hr hp hlv h1 h2 h3 hout
  have ht : r.st.target = m.st.target := by
    simp only [GameState.target, hlv, h1, h2, h3]
  refine ⟨r.emit [Event.enter Routine.Sequence_Check], hlv, ht, h1, h2, h3, hp, ?_, ?_⟩
  · simp [hout]
  · rw [Level_Config_eq m reads hL, Level_Config.play, hr]
    have hs := Sequence_Check_eq r (hlv ▸ hL)
    rw [hlv] at hs
    simp only [hs, Sys.emit_st]

theorem Player_SeqConv_buttonCode (x : Nat) (h : 1 ≤ x ∧ x ≤ 4) :
    Player_SeqConv (buttonCode x) = x := by
  obtain ⟨h1, h4⟩ := h
  interval_cases x <;> rfl

theorem map_Player_SeqConv_buttonCode (l : List Nat) (h : ∀ x ∈ l, 1 ≤ x ∧ x ≤ 4) :
    (l.map buttonCode).map Player_SeqConv = l := by
  induction l with
  | nil => rfl
  | cons a l ih =>
    simp only [List.map_cons, Player_SeqConv_buttonCode a (h a (List.mem_cons_self a l))]
    rw [ih fun x hx => h x (List.mem_cons_of_mem a hx)]

theorem enter_not_mem_linkLog (r : Routine) (link : Nat) : Event.enter r ∉ linkLog link := by
  unfold linkLog LED_Sound_Link
  split <;> simp [Sys.emit, Sys.boot]

theorem enter_not_mem_presentLog (r : Routine) (l : List Nat) :
    Event.enter r ∉ l.flatMap presentLog := by
  simp only [List.mem_flatMap, presentLog, List.mem_append, not_exists, not_and]
  intro x _ h
  rcases h with h | h
  · exact enter_not_mem_linkLog r x h
  · simp at h

theorem enter_not_mem_pollLog (r : Routine) (l : List Nat) :
    Event.enter r ∉ l.flatMap pollLog := by
  simp only [List.mem_flatMap, pollLog, not_exists, not_and]
  intro x _ h
  rcases List.mem_cons.mp h with h | h
  · simp at h
  · split at h
    · exact enter_not_mem_linkLog r _ h
    · simp at h

theorem length_filter_of_presses (k : Nat) (reads l : List Nat) (h : presses k reads = l)
    (hl : l.length = k) : k ≤ (reads.filter (fun b => b ≠ 0)).length := by
  have := congrArg List.length h
  simp only [presses, List.length_take, hl] at this
  omega

/-- A matched capture below the last level: `LEVEL_PASS` runs, nothing else. -/
theorem Level_Config_pass (m : Sys) (reads : List Nat) (hL : m.st.level ≤ 1)
    (hc : m.st.cursor = 0)
    (hlen : levelLength m.st.level ≤ (reads.filter (fun b => b ≠ 0)).length)
    (hmatch : (presses (levelLength m.st.level) reads).map Player_SeqConv = m.st.target) :
    ∃ r, Level_Config m reads = Run.done r (afterPresses (levelLength m.st.level) reads) ∧
      r.st.level = m.st.level + 1 ∧
      r.st.lv1array = m.st.lv1array ∧ r.st.lv2array = m.st.lv2array ∧
      r.st.lv3array = m.st.lv3array ∧
      Sys.emitted m r = [Event.enter Routine.Level_Config,
          Event.Seven_Segment_Display (m.st.level + 1),
          Event.RGB_LED_Output RGBColor.RGB_LED_BLUE] ++ m.st.target.flatMap presentLog ++
          Event.enter Routine.Player_Sequence ::
            (consumed (levelLength m.st.level) reads).flatMap pollLog ++
          [Event.enter Routine.Sequence_Check, Event.enter Routine.LEVEL_PASS] ++
          passFlash ++ passFlash ++ passFlash ++ passFlash := by
  obtain ⟨c, hlv, ht, h1, h2, h3, hp, hout, hrun⟩ :=
    Level_Config_run m reads (by omega) hc hlen
  rw [if_pos (by rw [ht, hp, hmatch]), if_neg (by omega)] at hrun
  refine ⟨_, hrun, ?_, ?_, ?_, ?_, ?_⟩
  · rw [LEVEL_PASS_st]
    simp only [hlv]
    omega
  · rw [LEVEL_PASS_st]; exact h1
  · rw [LEVEL_PASS_st]; exact h2
  · rw [LEVEL_PASS_st]; exact h3
  · exact Sys.emitted_of_out (by simp [LEVEL_PASS_out, hout])

/-- A matched capture at the last level: `BEAT_GAME` runs, nothing else. -/
theorem Level_Config_beat (m : Sys) (reads : List Nat) (hL : m.st.level = 2)
    (hc : m.st.cursor = 0)
    (hlen : levelLength m.st.level ≤ (reads.filter (fun b => b ≠ 0)).length)
    (hmatch : (presses (levelLength m.st.level) reads).map Player_SeqConv = m.st.target) :
    ∃ r, Level_Config m reads = Run.done r (afterPresses (levelLength m.st.level) reads) ∧
      r.st = GameState.fresh ∧
      Sys.emitted m r = [Event.enter Routine.Level_Config,
          Event.Seven_Segment_Display (m.st.level + 1),
          Event.RGB_LED_Output RGBColor.RGB_LED_BLUE] ++ m.st.target.flatMap presentLog ++
          Event.enter Routine.Player_Sequence ::
            (consumed (levelLength m.st.level) reads).flatMap pollLog ++
          [Event.enter Routine.Sequence_Check, Event.enter Routine.BEAT_GAME] ++
          beatSignal ++ [Event.enter Routine.RESET_GAME] := by
  obtain ⟨c, hlv, ht, h1, h2, h3, hp, hout, hrun⟩ :=
    Level_Config_run m reads (by omega) hc hlen
  rw [if_pos (by rw [ht, hp, hmatch]), if_pos hL] at hrun
  exact ⟨_, hrun, BEAT_GAME_st c, Sys.emitted_of_out (by simp [BEAT_GAME_out, hout])⟩

/-- A capture that differs from the target: `LEVEL_FAIL` runs, nothing else. -/
theorem Level_Config_fail (m : Sys) (reads : List Nat) (hL : m.st.level ≤ 2)
    (hc : m.st.cursor = 0)
    (hlen : levelLength m.st.level ≤ (reads.filter (fun b => b ≠ 0)).length)
    (hdiff : (presses (levelLength m.st.level) reads).map Player_SeqConv ≠ m.st.target) :
    ∃ r, Level_Config m reads = Run.done r (afterPresses (levelLength m.st.level) reads) ∧
      r.st = GameState.fresh ∧
      Sys.emitted m r = [Event.enter Routine.Level_Config,
          Event.Seven_Segment_Display (m.st.level + 1),
          Event.RGB_LED_Output RGBColor.RGB_LED_BLUE] ++ m.st.target.flatMap presentLog ++
          Event.enter Routine.Player_Sequence ::
            (consumed (levelLength m.st.level) reads).flatMap pollLog ++
          [Event.enter Routine.Sequence_Check, Event.enter Routine.LEVEL_FAIL] ++
          failFlash ++ failFlash ++ failFlash ++ failFlash ++
          [Event.enter Routine.RESET_GAME] := by
  obtain ⟨c, hlv, ht, h1, h2, h3, hp, hout, hrun⟩ :=
    Level_Config_run m reads hL hc hlen
  rw [if_neg (by rw [ht, hp]; exact fun h => hdiff h.symm)] at hrun
  exact ⟨_, hrun, LEVEL_FAIL_st c, Sys.emitted_of_out (by simp [LEVEL_FAIL_out, hout])⟩

/-! ## Properties kept along a run -/

theorem Sys.Keeps.refl {P : GameState → Prop} {m : Sys} (h : P m.st) : Sys.Keeps P m m :=
  ⟨⟨[], by simp, by simp⟩, h⟩

theorem Sys.Keeps.emit {P : GameState → Prop} {m r : Sys} (h : Sys.Keeps P m r)
    (es : List Event) : Sys.Keeps P m (r.emit es) := h

theorem Sys.Keeps.assign {P : GameState → Prop} {m r : Sys} (h : Sys.Keeps P m r)
    (f : GameState → GameState) (hf : P (f r.st)) : Sys.Keeps P m (r.assign f) := by
  obtain ⟨⟨new, hn, hall⟩, _⟩ := h
  refine ⟨⟨new ++ [f r.st], by simp [hn], ?_⟩, hf⟩
  intro s hs
  rcases List.mem_append.mp hs with h | h
  · exact hall s h
  · rw [List.mem_singleton.mp h]; exact hf

theorem Sys.Keeps.trans {P : GameState → Prop} {a b c : Sys} (h1 : Sys.Keeps P a b)
    (h2 : Sys.Keeps P b c) : Sys.Keeps P a c := by
  obtain ⟨⟨n1, hn1, hall1⟩, _⟩ := h1
  obtain ⟨⟨n2, hn2, hall2⟩, hc⟩ := h2
  refine ⟨⟨n1 ++ n2, by simp [hn2, hn1], ?_⟩, hc⟩
  intro s hs
  rcases List.mem_append.mp hs with h | h
  · exact hall1 s h
  · exact hall2 s h

theorem Sys.Keeps.visited {P : GameState → Prop} {m r : Sys} (h : Sys.Keeps P m r) :
    ∀ s ∈ Sys.visited m r, P s := by
  obtain ⟨⟨new, hn, hall⟩, _⟩ := h
  simpa [Sys.visited, hn] using hall

theorem Run.Keeps.after {P : GameState → Prop} {a b : Sys} {run : Run} (h1 : Sys.Keeps P a b)
    (h2 : Run.Keeps P b run) : Run.Keeps P a run := by
  cases run with
  | done r rest => exact Sys.Keeps.trans h1 h2
  | polling r => exact Sys.Keeps.trans h1 h2
  | undefined => exact h2

theorem foldl_keeps {P : GameState → Prop} {α : Type} (f : Sys → α → Sys)
    (hf : ∀ (k : Sys) (x : α), P k.st → Sys.Keeps P k (f k x)) :
    ∀ (xs : List α) (m : Sys), P m.st → Sys.Keeps P m (xs.foldl f m) := by
  intro xs
  induction xs with
  | nil => intro m h; exact Sys.Keeps.refl h
  | cons x xs ih =>
    intro m h
    have h1 := hf m x h
    exact Sys.Keeps.trans h1 (ih _ h1.2)

theorem Sys.Keeps.assign_arrays {P : GameState → Prop} (hP : CaptureClosed P) {m r : Sys}
    (h : Sys.Keeps P m r) (f : GameState → GameState)
    (hf : ∀ s, (f s).level = s.level ∧ (f s).index1 = s.index1 ∧ (f s).index2 = s.index2 ∧
      (f s).index3 = s.index3) : Sys.Keeps P m (r.assign f) :=
  h.assign f (hP.arrays r.st (f r.st) (hf _).1 (hf _).2.1 (hf _).2.2.1 (hf _).2.2.2 h.2)

theorem Generate_Sequence_keeps {P : GameState → Prop} (hP : CaptureClosed P)
    (rand : Nat → Int) (m : Sys) (h : P m.st) : Sys.Keeps P m (Generate_Sequence rand m) := by
  unfold Generate_Sequence
  have hr : ∀ k : Sys, P k.st → Sys.Keeps P k (k.rand rand).2 := fun k hk =>
    ⟨⟨[], by simp [Sys.rand], by simp⟩, hk⟩
  have e0 : Sys.Keeps P m (m.emit [Event.enter Routine.Generate_Sequence]) :=
    (Sys.Keeps.refl h).emit _
  have e1 := foldl_keeps (P := P) (fun m i =>
    let (r, m) := m.rand rand
    m.assign fun s => { s with lv1array := s.lv1array.put i (randCell r) })
    (by
      intro k x hk
      exact (hr k hk).assign_arrays hP _ (fun s => ⟨rfl, rfl, rfl, rfl⟩)) (List.range 2) _ e0.2
  have e2 := foldl_keeps (P := P) (fun m i =>
    let (r, m) := m.rand rand
    m.assign fun s => { s with lv2array := s.lv2array.put i (randCell r) })
    (by
      intro k x hk
      exact (hr k hk).assign_arrays hP _ (fun s => ⟨rfl, rfl, rfl, rfl⟩)) (List.range 3) _ e1.2
  have e3 := foldl_keeps (P := P) (fun m i =>
    let (r, m) := m.rand rand
    m.assign fun s => { s with lv3array := s.lv3array.put i (randCell r) })
    (by
      intro k x hk
      exact (hr k hk).assign_arrays hP _ (fun s => ⟨rfl, rfl, rfl, rfl⟩)) (List.range 4) _ e2.2
  exact (e0.trans e1).trans (e2.trans e3)

theorem RESET_GAME_keeps {P : GameState → Prop} (hP : Closed P) (m : Sys) (h : P m.st) :
    Sys.Keeps P m (RESET_GAME m) := by
  unfold RESET_GAME
  have hC := hP.toCaptureClosed
  have e0 : Sys.Keeps P m (m.emit [Event.enter Routine.RESET_GAME]) :=
    (Sys.Keeps.refl h).emit _
  have e1 := foldl_keeps (P := P) (fun m i =>
    let m := m.assign fun s => { s with lv1array := s.lv1array.put i 0 }
    m.assign fun s => { s with lv1playerarr := s.lv1playerarr.put i 0 })
    (by
      intro k x hk
      show Sys.Keeps P k ((k.assign _).assign _)
      refine Sys.Keeps.assign_arrays hC (Sys.Keeps.assign_arrays hC (Sys.Keeps.refl hk) _ ?_) _ ?_
      all_goals exact fun s => ⟨rfl, rfl, rfl, rfl⟩) (List.range 2) _ e0.2
  have e2 := foldl_keeps (P := P) (fun m i =>
    let m := m.assign fun s => { s with lv2array := s.lv2array.put i 0 }
    m.assign fun s => { s with lv2playerarr := s.lv2playerarr.put i 0 })
    (by
      intro k x hk
      show Sys.Keeps P k ((k.assign _).assign _)
      refine Sys.Keeps.assign_arrays hC (Sys.Keeps.assign_arrays hC (Sys.Keeps.refl hk) _ ?_) _ ?_
      all_goals exact fun s => ⟨rfl, rfl, rfl, rfl⟩) (List.range 3) _ e1.2
  have e3 := foldl_keeps (P := P) (fun m i =>
    let m := m.assign fun s => { s with lv3array := s.lv3array.put i 0 }
    m.assign fun s => { s with lv3playerarr := s.lv3playerarr.put i 0 })
    (by
      intro k x hk
      show Sys.Keeps P k ((k.assign _).assign _)
      refine Sys.Keeps.assign_arrays hC (Sys.Keeps.assign_arrays hC (Sys.Keeps.refl hk) _ ?_) _ ?_
      all_goals exact fun s => ⟨rfl, rfl, rfl, rfl⟩) (List.range 4) _ e2.2
  have e4 := (Sys.Keeps.refl e3.2).assign (fun s => { s with index1 := 0 }) (hP.clear1 _ e3.2)
  have e5 := (Sys.Keeps.refl e4.2).assign (fun s => { s with index2 := 0 }) (hP.clear2 _ e4.2)
  have e6 := (Sys.Keeps.refl e5.2).assign (fun s => { s with index3 := 0 }) (hP.clear3 _ e5.2)
  have e7 := (Sys.Keeps.refl e6.2).assign (fun s => { s with level := 0 }) (hP.restart _ e6.2)
  exact (((e0.trans e1).trans (e2.trans e3)).trans (e4.trans e5)).trans (e6.trans e7)

theorem foldl_emit_keeps {P : GameState → Prop} (es : List Event) (xs : List Nat) (m : Sys)
    (h : P m.st) : Sys.Keeps P m (xs.foldl (fun m _ => m.emit es) m) :=
  foldl_keeps (P := P) (fun m _ => m.emit es) (fun _ _ hk => (Sys.Keeps.refl hk).emit es) xs m h

theorem LEVEL_FAIL_keeps {P : GameState → Prop} (hP : Closed P) (m : Sys) (h : P m.st) :
    Sys.Keeps P m (LEVEL_FAIL m) := by
  unfold LEVEL_FAIL
  have e0 : Sys.Keeps P m (m.emit [Event.enter Routine.LEVEL_FAIL]) :=
    (Sys.Keeps.refl h).emit _
  have e1 := foldl_emit_keeps (P := P) [Event.RGB_LED_Output RGBColor.RGB_LED_RED,
    Event.EduBase_LEDs_Output LedMask.EDUBASE_LED_ALL_ON, Event.SysTick_Delay1ms 500,
    Event.RGB_LED_Output RGBColor.RGB_LED_OFF,
    Event.EduBase_LEDs_Output LedMask.EDUBASE_LED_ALL_OFF, Event.SysTick_Delay1ms 500]
    (List.range 4) _ e0.2
  exact (e0.trans e1).trans (RESET_GAME_keeps hP _ e1.2)

theorem BEAT_GAME_keeps {P : GameState → Prop} (hP : Closed P) (m : Sys) (h : P m.st) :
    Sys.Keeps P m (BEAT_GAME m) := by
  unfold BEAT_GAME
  exact (((Sys.Keeps.refl h).emit _).emit _).trans (RESET_GAME_keeps hP _ h)

theorem LEVEL_PASS_keeps {P : GameState → Prop} (hP : Closed P) (m : Sys) (h : P m.st)
    (hL : m.st.level ≤ 1) : Sys.Keeps P m (LEVEL_PASS m) := by
  unfold LEVEL_PASS
  have e0 : Sys.Keeps P m (m.emit [Event.enter Routine.LEVEL_PASS]) :=
    (Sys.Keeps.refl h).emit _
  have e1 := foldl_emit_keeps (P := P) [Event.RGB_LED_Output RGBColor.RGB_LED_GREEN,
    Event.EduBase_LEDs_Output (LedMask.bits 0x09), Event.SysTick_Delay1ms 500,
    Event.RGB_LED_Output RGBColor.RGB_LED_OFF,
    Event.EduBase_LEDs_Output LedMask.EDUBASE_LED_ALL_OFF, Event.SysTick_Delay1ms 500]
    (List.range 4) _ e0.2
  have hst : ((List.range 4).foldl (fun m _ => m.emit [Event.RGB_LED_Output
      RGBColor.RGB_LED_GREEN, Event.EduBase_LEDs_Output (LedMask.bits 0x09),
      Event.SysTick_Delay1ms 500, Event.RGB_LED_Output RGBColor.RGB_LED_OFF,
      Event.EduBase_LEDs_Output LedMask.EDUBASE_LED_ALL_OFF, Event.SysTick_Delay1ms 500])
      (m.emit [Event.enter Routine.LEVEL_PASS])).st = m.st := by
    simp [range_four]
  exact (e0.trans e1).assign _ (hP.pass _ e1.2 (by rw [hst]; exact hL))

theorem Player_Sequence.case0_keeps {P : GameState → Prop} (hP : CaptureClosed P) :
    ∀ (reads : List Nat) (m : Sys), P m.st → Run.Keeps P m (Player_Sequence.case0 reads m) := by
  intro reads
  induction reads with
  | nil =>
    intro m h
    unfold Player_Sequence.case0
    split
    · exact Sys.Keeps.refl h
    · exact Sys.Keeps.refl h
  | cons b rest ih =>
    intro m h
    by_cases hg : m.st.index1 = 0 ∨ m.st.index1 = 1
    · by_cases hb : b = 0
      · subst hb
        rw [Player_Sequence.case0_zero _ _ hg]
        exact Run.Keeps.after ((Sys.Keeps.refl h).emit _) (ih _ h)
      · obtain ⟨i, hi, hlt⟩ : ∃ i : Nat, m.st.index1 = i ∧ i < 2 :=
          ⟨m.st.index1.toNat, by omega, by omega⟩
        rw [Player_Sequence.case0_press b rest m i hi hlt hb]
        have e1 : Sys.Keeps P m ((m.emit [Event.Get_EduBase_Button_Status b]).assign fun s =>
            { s with lv1playerarr := m.st.lv1playerarr.put i (Player_SeqConv b) }) :=
          ((Sys.Keeps.refl h).emit _).assign_arrays hP _ (fun s => ⟨rfl, rfl, rfl, rfl⟩)
        have e2 := (e1.emit (linkLog (Player_SeqConv b))).assign
          (fun s => { s with index1 := s.index1 + 1 }) (hP.step1 _ e1.2 hg)
        exact Run.Keeps.after e2 (ih _ e2.2)
    · rw [Player_Sequence.case0_exit _ _ hg]
      exact Sys.Keeps.refl h

theorem Player_Sequence.case1_keeps {P : GameState → Prop} (hP : CaptureClosed P) :
    ∀ (reads : List Nat) (m : Sys), P m.st → Run.Keeps P m (Player_Sequence.case1 reads m) := by
  intro reads
  induction reads with
  | nil =>
    intro m h
    unfold Player_Sequence.case1
    split
    · exact Sys.Keeps.refl h
    · exact Sys.Keeps.refl h
  | cons b rest ih =>
    intro m h
    by_cases hg : m.st.index2 = 0 ∨ m.st.index2 = 1 ∨ m.st.index2 = 2
    · by_cases hb : b = 0
      · subst hb
        rw [Player_Sequence.case1_zero _ _ hg]
        exact Run.Keeps.after ((Sys.Keeps.refl h).emit _) (ih _ h)
      · obtain ⟨i, hi, hlt⟩ : ∃ i : Nat, m.st.index2 = i ∧ i < 3 :=
          ⟨m.st.index2.toNat, by omega, by omega⟩
        rw [Player_Sequence.case1_press b rest m i hi hlt hb]
        have e1 : Sys.Keeps P m ((m.emit [Event.Get_EduBase_Button_Status b]).assign fun s =>
            { s with lv2playerarr := m.st.lv2playerarr.put i (Player_SeqConv b) }) :=
          ((Sys.Keeps.refl h).emit _).assign_arrays hP _ (fun s => ⟨rfl, rfl, rfl, rfl⟩)
        have e2 := (e1.emit (linkLog (Player_SeqConv b))).assign
          (fun s => { s with index2 := s.index2 + 1 }) (hP.step2 _ e1.2 hg)
        exact Run.Keeps.after e2 (ih _ e2.2)
    · rw [Player_Sequence.case1_exit _ _ hg]
      exact Sys.Keeps.refl h

theorem Player_Sequence.case2_keeps {P : GameState → Prop} (hP : CaptureClosed P) :
    ∀ (reads : List Nat) (m : Sys), P m.st → Run.Keeps P m (Player_Sequence.case2 reads m) := by
  intro reads
  induction reads with
  | nil =>
    intro m h
    unfold Player_Sequence.case2
    split
    · exact Sys.Keeps.refl h
    · exact Sys.Keeps.refl h
  | cons b rest ih =>
    intro m h
    by_cases hg : m.st.index3 = 0 ∨ m.st.index3 = 1 ∨ m.st.index3 = 2 ∨ m.st.index3 = 3
    · by_cases hb : b = 0
      · subst hb
        rw [Player_Sequence.case2_zero _ _ hg]
        exact Run.Keeps.after ((Sys.Keeps.refl h).emit _) (ih _ h)
      · obtain ⟨i, hi, hlt⟩ : ∃ i : Nat, m.st.index3 = i ∧ i < 4 :=
          ⟨m.st.index3.toNat, by omega, by omega⟩
        have e1 : Sys.Keeps P m ((m.emit [Event.Get_EduBase_Button_Status b]).assign fun s =>
            { s with lv3playerarr := m.st.lv3playerarr.put i (Player_SeqConv b) }) :=
          ((Sys.Keeps.refl h).emit _).assign_arrays hP _ (fun s => ⟨rfl, rfl, rfl, rfl⟩)
        have e2 := (e1.emit (linkLog (Player_SeqConv b))).assign
          (fun s => { s with index3 := s.index3 + 1 }) (hP.step3 _ e1.2 hg)
        by_cases h3 : i = 3
        · subst h3
          rw [Player_Sequence.case2_last b rest m (by simpa using hi) hb]
          have e3 := e2.assign (fun s => { s with index1 := 0 }) (hP.clear1 _ e2.2)
          have e4 := e3.assign (fun s => { s with index2 := 0 }) (hP.clear2 _ e3.2)
          exact e4.assign (fun s => { s with index3 := 0 }) (hP.clear3 _ e4.2)
        · rw [Player_Sequence.case2_press b rest m i hi (by omega) hb]
          exact Run.Keeps.after e2 (ih _ e2.2)
    · rw [Player_Sequence.case2_exit _ _ hg]
      exact Sys.Keeps.refl h

theorem Player_Sequence_keeps {P : GameState → Prop} (hP : CaptureClosed P) (m : Sys)
    (reads : List Nat) (h : P m.st) : Run.Keeps P m (Player_Sequence m reads) := by
  unfold Player_Sequence
  have e0 : Sys.Keeps P m (m.emit [Event.enter Routine.Player_Sequence]) :=
    (Sys.Keeps.refl h).emit _
  simp only [Sys.emit_st]
  split
  · exact Run.Keeps.after e0 (Player_Sequence.case0_keeps hP reads _ h)
  · exact Run.Keeps.after e0 (Player_Sequence.case1_keeps hP reads _ h)
  · exact Run.Keeps.after e0 (Player_Sequence.case2_keeps hP reads _ h)
  · exact e0

/-- The routine `Player_Sequence` never changes `level`. -/
theorem Player_Sequence_level (m : Sys) (reads : List Nat) :
    Run.Keeps (fun s => s.level = m.st.level) m (Player_Sequence m reads) :=
  Player_Sequence_keeps
    { arrays := fun _ _ ht _ _ _ hs => ht.trans hs
      step1 := fun _ hs _ => hs
      step2 := fun _ hs _ => hs
      step3 := fun _ hs _ => hs
      clear1 := fun _ hs => hs
      clear2 := fun _ hs => hs
      clear3 := fun _ hs => hs } m reads rfl

theorem Sequence_Check_keeps {P : GameState → Prop} (hP : Closed P) (m : Sys) (h : P m.st)
    (hL : m.st.level ≤ 2) :
    ∃ r, Sequence_Check (levelLength m.st.level : Nat) m = some r ∧ Sys.Keeps P m r := by
  refine ⟨_, Sequence_Check_eq m hL, ?_⟩
  have e0 : Sys.Keeps P m (m.emit [Event.enter Routine.Sequence_Check]) :=
    (Sys.Keeps.refl h).emit _
  split
  · split
    · exact e0.trans (BEAT_GAME_keeps hP _ h)
    · exact e0.trans (LEVEL_PASS_keeps hP _ h (by simp only [Sys.emit_st]; omega))
  · exact e0.trans (LEVEL_FAIL_keeps hP _ h)

theorem Level_Config_keeps {P : GameState → Prop} (hP : Closed P) (m : Sys)
    (reads : List Nat) (h : P m.st) : Run.Keeps P m (Level_Config m reads) := by
  by_cases hL : m.st.level ≤ 2
  · rw [Level_Config_eq m reads hL]
    unfold Level_Config.play
    have e0 : Sys.Keeps P m (m.emit ([Event.enter Routine.Level_Config,
        Event.Seven_Segment_Display (m.st.level + 1),
        Event.RGB_LED_Output RGBColor.RGB_LED_BLUE] ++ m.st.target.flatMap presentLog)) :=
      (Sys.Keeps.refl h).emit _
    have e1 := Player_Sequence_keeps hP.toCaptureClosed _ reads e0.2
    have e2 := Player_Sequence_level (m.emit ([Event.enter Routine.Level_Config,
        Event.Seven_Segment_Display (m.st.level + 1),
        Event.RGB_LED_Output RGBColor.RGB_LED_BLUE] ++ m.st.target.flatMap presentLog)) reads
    split
    · next r rest hr =>
      rw [hr] at e1 e2
      have hlv : r.st.level = m.st.level := e2.2
      obtain ⟨q, hq, hk⟩ := Sequence_Check_keeps hP r e1.2 (hlv ▸ hL)
      rw [hlv] at hq
      rw [hq]
      exact (e0.trans e1).trans hk
    · next r hne =>
      cases hrun : Player_Sequence (m.emit ([Event.enter Routine.Level_Config,
        Event.Seven_Segment_Display (m.st.level + 1),
        Event.RGB_LED_Output RGBColor.RGB_LED_BLUE] ++ m.st.target.flatMap presentLog)) reads with
      | done r rest => exact absurd hrun (hne r rest)
      | polling r =>
        rw [hrun] at e1
        exact e0.trans e1
      | undefined =>
        rw [hrun] at e1
        exact e1
  · unfold Level_Config
    simp only [Sys.emit_st]
    split
    · next h0 => exact absurd (by omega) hL
    · next h1 => exact absurd (by omega) hL
    · next h2 => exact absurd (by omega) hL
    · exact (((Sys.Keeps.refl h).emit _).emit _).emit _

theorem mainLoop_keeps {P : GameState → Prop} (hP : Closed P) (rand : Nat → Int) :
    ∀ (n : Nat) (m : Sys) (reads : List Nat), P m.st →
      Run.Keeps P m (mainLoop rand n m reads) := by
  intro n
  induction n with
  | zero => intro m reads h; exact Sys.Keeps.refl h
  | succ n ih =>
    intro m reads h
    unfold mainLoop
    have e0 := Generate_Sequence_keeps hP.toCaptureClosed rand m h
    have e1 := Level_Config_keeps hP (Generate_Sequence rand m) reads e0.2
    cases hrun : Level_Config (Generate_Sequence rand m) reads with
    | done r rest =>
      rw [hrun] at e1
      exact Run.Keeps.after (e0.trans e1) (ih r rest e1.2)
    | polling r =>
      rw [hrun] at e1
      exact e0.trans e1
    | undefined =>
      rw [hrun] at e1
      exact e1

theorem closed_InBounds : Closed GameState.InBounds where
  arrays := fun s t _ h1 h2 h3 hs => by
    unfold GameState.InBounds at hs ⊢
    rw [h1, h2, h3]
    exact hs
  step1 := fun s hs hg => by
    unfold GameState.InBounds at hs ⊢
    simp only
    omega
  step2 := fun s hs hg => by
    unfold GameState.InBounds at hs ⊢
    simp only
    omega
  step3 := fun s hs hg => by
    unfold GameState.InBounds at hs ⊢
    simp only
    omega
  clear1 := fun s hs => by
    unfold GameState.InBounds at hs ⊢
    simp only
    omega
  clear2 := fun s hs => by
    unfold GameState.InBounds at hs ⊢
    simp only
    omega
  clear3 := fun s hs => by
    unfold GameState.InBounds at hs ⊢
    simp only
    omega
  restart := fun s hs => hs
  pass := fun s hs _ => hs

theorem closed_level_ne_three : Closed (fun s : GameState => s.level ≠ 3) where
  arrays := fun s t ht _ _ _ hs => by rw [ht]; exact hs
  step1 := fun _ hs _ => hs
  step2 := fun _ hs _ => hs
  step3 := fun _ hs _ => hs
  clear1 := fun _ hs => hs
  clear2 := fun _ hs => hs
  clear3 := fun _ hs => hs
  restart := fun _ _ => by simp
  pass := fun s _ h1 => by
    simp only
    omega

/-! ## C5 -/

/-- C5: advance on match.  At a level 0 or 1 whose cursor is 0 and whose
target holds symbols between 1 and 4, if the first N non-zero reads (N the
level's length; zero reads may come anywhere between them) are the button codes
of the target symbols in order, then one `Level_Config` call returns with the
level one higher, the three target arrays as they were, and `LEVEL_PASS` the
only outcome routine entered (no `LEVEL_FAIL`, no `RESET_GAME`). -/
theorem C5_advance_on_match (m : Sys) (reads : List Nat) (hL : m.st.level ≤ 1)
    (hc : m.st.cursor = 0) (hsym : ∀ x ∈ m.st.target, 1 ≤ x ∧ x ≤ 4)
    (hreads : (reads.filter (fun b => b ≠ 0)).take (levelLength m.st.level) =
      m.st.target.map buttonCode) :
    ∃ r, Level_Config m reads = Run.done r (afterPresses (levelLength m.st.level) reads) ∧
      r.st.level = m.st.level + 1 ∧
      r.st.lv1array = m.st.lv1array ∧ r.st.lv2array = m.st.lv2array ∧
      r.st.lv3array = m.st.lv3array ∧
      Event.enter Routine.LEVEL_PASS ∈ Sys.emitted m r ∧
      Event.enter Routine.LEVEL_FAIL ∉ Sys.emitted m r ∧
      Event.enter Routine.RESET_GAME ∉ Sys.emitted m r := by
  have hlen := length_filter_of_presses _ reads _ hreads
    (by rw [List.length_map]; exact m.st.length_target (by omega))
  have hmatch : (presses (levelLength m.st.level) reads).map Player_SeqConv = m.st.target := by
    unfold presses
    rw [hreads]
    exact map_Player_SeqConv_buttonCode _ hsym
  obtain ⟨r, hr, hlv, h1, h2, h3, hout⟩ := Level_Config_pass m reads hL hc hlen hmatch
  refine ⟨r, hr, hlv, h1, h2, h3, ?_, ?_, ?_⟩
  · rw [hout]
    simp
  · rw [hout]
    have ha := enter_not_mem_presentLog Routine.LEVEL_FAIL m.st.target
    have hb := enter_not_mem_pollLog Routine.LEVEL_FAIL
      (consumed (levelLength m.st.level) reads)
    simp only [List.mem_flatMap, not_exists, not_and] at ha hb
    simp [passFlash]
    exact ⟨ha, hb⟩
  · rw [hout]
    have ha := enter_not_mem_presentLog Routine.RESET_GAME m.st.target
    have hb := enter_not_mem_pollLog Routine.RESET_GAME
      (consumed (levelLength m.st.level) reads)
    simp only [List.mem_flatMap, not_exists, not_and] at ha hb
    simp [passFlash]
    exact ⟨ha, hb⟩

/-- Witness of C5 (scenario A): level 0, target 2, 4, raw reads 0, 0x02, 0,
0x08: the level becomes 1. -/
theorem C5_advance_on_match_witness :
    ∃ r, Level_Config (Sys.sample 0 (CArray.ofList [2, 4]) (CArray.zero 2) (CArray.zero 4)
        (CArray.zero 4)) [0, 0x02, 0, 0x08] = Run.done r [] ∧
      r.st.level = 1 ∧ r.st.lv1array.cells = [2, 4] :=
  have h := C5_advance_on_match (Sys.sample 0 (CArray.ofList [2, 4]) (CArray.zero 2)
    (CArray.zero 4) (CArray.zero 4)) [0, 0x02, 0, 0x08] (by decide) (by decide) (by decide)
    (by decide)
  h.elim fun r hr => ⟨r, hr.1, hr.2.1, by rw [hr.2.2.1]; rfl⟩

/-! ## C6 -/

/-- C6: fail on mismatch.  At every level 0, 1, 2 with the level's cursor at 0,
if the capture completes (the stream holds at least N non-zero reads) and the
captured sequence, `Player_SeqConv` of the first N non-zero reads, differs from
the active target at some index below N, then one `Level_Config` call returns
through `LEVEL_FAIL` in exactly the fresh-start state: level 0, all target and
player arrays zero, all cursors 0. -/
theorem C6_fail_on_mismatch (m : Sys) (reads : List Nat) (hL : m.st.level ≤ 2)
    (hc : m.st.cursor = 0)
    (hlen : levelLength m.st.level ≤ (reads.filter (fun b => b ≠ 0)).length)
    (hmis : ∃ i, i < levelLength m.st.level ∧
      (((reads.filter (fun b => b ≠ 0)).take (levelLength m.st.level)).map Player_SeqConv)[i]? ≠
        m.st.target[i]?) :
    ∃ r, Level_Config m reads = Run.done r (afterPresses (levelLength m.st.level) reads) ∧
      r.st = GameState.fresh ∧
      r.st.level = 0 ∧
      r.st.lv1array.cells = [0, 0] ∧ r.st.lv2array.cells = [0, 0, 0] ∧
      r.st.lv3array.cells = [0, 0, 0, 0] ∧
      r.st.lv1playerarr.cells = [0, 0] ∧ r.st.lv2playerarr.cells = [0, 0, 0] ∧
      r.st.lv3playerarr.cells = [0, 0, 0, 0] ∧
      r.st.index1 = 0 ∧ r.st.index2 = 0 ∧ r.st.index3 = 0 ∧
      Event.enter Routine.LEVEL_FAIL ∈ Sys.emitted m r := by
  have hdiff : (presses (levelLength m.st.level) reads).map Player_SeqConv ≠ m.st.target := by
    obtain ⟨i, _, hi⟩ := hmis
    intro h
    apply hi
    unfold presses at h
    rw [h]
  obtain ⟨r, hr, hst, hout⟩ := Level_Config_fail m reads hL hc hlen hdiff
  refine ⟨r, hr, hst, ?_⟩
  rw [hst, hout]
  refine ⟨rfl, rfl, rfl, rfl, rfl, rfl, rfl, rfl, rfl, rfl, ?_⟩
  simp

/-- Witness of C6 (scenario B): level 0, target 1, 3, the player presses
buttons 1 and 4 (raw 0x01, 0x08): the state is reset. -/
theorem C6_fail_on_mismatch_witness :
    ∃ r, Level_Config (Sys.sample 0 (CArray.ofList [1, 3]) (CArray.zero 2) (CArray.zero 4)
        (CArray.zero 4)) [0x01, 0x08] = Run.done r [] ∧ r.st = GameState.fresh :=
  have h := C6_fail_on_mismatch (Sys.sample 0 (CArray.ofList [1, 3]) (CArray.zero 2)
    (CArray.zero 4) (CArray.zero 4)) [0x01, 0x08] (by decide) (by decide) (by decide)
    ⟨1, by decide, by decide⟩
  h.elim fun r hr => ⟨r, hr.1, hr.2.1⟩

/-! ## C7 -/

/-- C7: win on the last level.  At level 2 with `index3` at 0 and a target of
symbols between 1 and 4, if the first four non-zero reads are the button codes
of the target in order, then `Level_Config` returns through `BEAT_GAME`:
`LEVEL_PASS` and `LEVEL_FAIL` are not entered, no state the call goes through
has level 3, and the state it returns in is exactly the fresh-start state. -/
theorem C7_win_on_last_level (m : Sys) (reads : List Nat) (hL : m.st.level = 2)
    (hc : m.st.index3 = 0) (hsym : ∀ x ∈ m.st.lv3array.cells, 1 ≤ x ∧ x ≤ 4)
    (hreads : (reads.filter (fun b => b ≠ 0)).take 4 = m.st.lv3array.cells.map buttonCode) :
    ∃ r, Level_Config m reads = Run.done r (afterPresses 4 reads) ∧
      Event.enter Routine.BEAT_GAME ∈ Sys.emitted m r ∧
      Event.enter Routine.LEVEL_PASS ∉ Sys.emitted m r ∧
      Event.enter Routine.LEVEL_FAIL ∉ Sys.emitted m r ∧
      (∀ s ∈ Sys.visited m r, s.level ≠ 3) ∧
      r.st = GameState.fresh ∧
      r.st.level = 0 ∧
      r.st.lv1array.cells = [0, 0] ∧ r.st.lv2array.cells = [0, 0, 0] ∧
      r.st.lv3array.cells = [0, 0, 0, 0] ∧
      r.st.lv1playerarr.cells = [0, 0] ∧ r.st.lv2playerarr.cells = [0, 0, 0] ∧
      r.st.lv3playerarr.cells = [0, 0, 0, 0] ∧
      r.st.index1 = 0 ∧ r.st.index2 = 0 ∧ r.st.index3 = 0 := by
  have ht : m.st.target = m.st.lv3array.cells := by simp [GameState.target, hL]
  have hN : levelLength m.st.level = 4 := by rw [hL]; rfl
  have hcur : m.st.cursor = 0 := by simpa [GameState.cursor, hL] using hc
  have hlen : levelLength m.st.level ≤ (reads.filter (fun b => b ≠ 0)).length := by
    rw [hN]
    exact length_filter_of_presses 4 reads _ hreads
      (by rw [List.length_map]; exact m.st.lv3array.length_cells)
  have hmatch : (presses (levelLength m.st.level) reads).map Player_SeqConv = m.st.target := by
    unfold presses
    rw [hN, hreads, ht]
    exact map_Player_SeqConv_buttonCode _ hsym
  obtain ⟨r, hr, hst, hout⟩ := Level_Config_beat m reads hL hcur hlen hmatch
  have hkeep := Level_Config_keeps closed_level_ne_three m reads (by rw [hL]; decide)
  rw [hr] at hkeep
  rw [hN] at hr
  refine ⟨r, hr, ?_, ?_, ?_, Sys.Keeps.visited hkeep, hst, ?_⟩
  · rw [hout]
    simp
  · rw [hout]
    have ha := enter_not_mem_presentLog Routine.LEVEL_PASS m.st.target
    have hb := enter_not_mem_pollLog Routine.LEVEL_PASS
      (consumed (levelLength m.st.level) reads)
    simp only [List.mem_flatMap, not_exists, not_and] at ha hb
    simp [beatSignal]
    exact ⟨ha, hb⟩
  · rw [hout]
    have ha := enter_not_mem_presentLog Routine.LEVEL_FAIL m.st.target
    have hb := enter_not_mem_pollLog Routine.LEVEL_FAIL
      (consumed (levelLength m.st.level) reads)
    simp only [List.mem_flatMap, not_exists, not_and] at ha hb
    simp [beatSignal]
    exact ⟨ha, hb⟩
  · rw [hst]
    exact ⟨rfl, rfl, rfl, rfl, rfl, rfl, rfl, rfl, rfl, rfl⟩

/-- Witness of C7 (scenario C): level 2, target 1, 2, 3, 4, raw reads 0x01,
0x02, 0x04, 0x08: the game is beaten and reset. -/
theorem C7_win_on_last_level_witness :
    ∃ r, Level_Config (Sys.sample 2 (CArray.zero 2) (CArray.zero 2)
        (CArray.ofList [1, 2, 3, 4]) (CArray.zero 4)) [0x01, 0x02, 0x04, 0x08] = Run.done r [] ∧
      r.st = GameState.fresh ∧ Event.enter Routine.BEAT_GAME ∈ r.out :=
  have h := C7_win_on_last_level (Sys.sample 2 (CArray.zero 2) (CArray.zero 2)
    (CArray.ofList [1, 2, 3, 4]) (CArray.zero 4)) [0x01, 0x02, 0x04, 0x08] rfl rfl (by decide)
    (by decide)
  h.elim fun r hr => ⟨r, hr.1, hr.2.2.2.2.2.1, hr.2.1⟩

/-! ## C9 -/

/-- C9: whatever the `rand()` stream, the raw reads and the number of main-loop
iterations observed, the program started from the fresh-start state never
accesses an array outside its bounds, and in every state it goes through (the
globals after each assignment, those inside `Player_Sequence` included)
`0 ≤ index1 ≤ 2`, `0 ≤ index2 ≤ 3` and `0 ≤ index3 ≤ 4`. -/
theorem C9_cursors_in_bounds (rand : Nat → Int) (n : Nat) (reads : List Nat) :
    main rand n reads ≠ Run.undefined ∧
    ∀ r, (main rand n reads = Run.polling r ∨ ∃ rest, main rand n reads = Run.done r rest) →
      ∀ s ∈ r.hist, (0 ≤ s.index1 ∧ s.index1 ≤ 2) ∧ (0 ≤ s.index2 ∧ s.index2 ≤ 3) ∧
        (0 ≤ s.index3 ∧ s.index3 ≤ 4) := by
  have hboot : GameState.InBounds Sys.boot.st := by
    unfold GameState.InBounds
    decide
  have hk := mainLoop_keeps closed_InBounds rand n Sys.boot reads hboot
  have hhist : ∀ r, Sys.Keeps GameState.InBounds Sys.boot r → ∀ s ∈ r.hist,
      GameState.InBounds s := by
    intro r hr s hs
    obtain ⟨⟨new, hn, hall⟩, _⟩ := hr
    rw [hn] at hs
    rcases List.mem_append.mp hs with h | h
    · have : s = GameState.fresh := by simpa [Sys.boot] using h
      rw [this]
      exact hboot
    · exact hall s h
  unfold main
  constructor
  · intro hu
    rw [hu] at hk
    exact hk
  · intro r hr
    rcases hr with hr | ⟨rest, hr⟩
    · rw [hr] at hk
      exact hhist r hk
    · rw [hr] at hk
      exact hhist r hk

/-! ## C12 -/

theorem Player_SeqConv_other (b : Nat) (h : b ∉ [0x01, 0x02, 0x04, 0x08]) :
    Player_SeqConv b = 0 := by
  simp only [List.mem_cons, List.mem_singleton, List.not_mem_nil, or_false, not_or] at h
  unfold Player_SeqConv
  split <;> simp_all

theorem Player_SeqConv_code (b : Nat) (h : b ∈ [0x01, 0x02, 0x04, 0x08]) :
    1 ≤ Player_SeqConv b ∧ Player_SeqConv b ≤ 4 ∧ buttonCode (Player_SeqConv b) = b := by
  simp only [List.mem_cons, List.mem_singleton, List.not_mem_nil, or_false] at h
  rcases h with h | h | h | h <;> subst h <;> decide

/-- C12: `Player_SeqConv` maps 0x01 to 1, 0x02 to 2, 0x04 to 3, 0x08 to 4 and
every other input to 0; its result is at most 4, is non-zero exactly on those
four codes, and on them it is injective. -/
theorem C12_Player_SeqConv_table (b c : Nat) :
    Player_SeqConv 0x01 = 1 ∧ Player_SeqConv 0x02 = 2 ∧ Player_SeqConv 0x04 = 3 ∧
    Player_SeqConv 0x08 = 4 ∧
    (b ∉ [0x01, 0x02, 0x04, 0x08] → Player_SeqConv b = 0) ∧
    Player_SeqConv b ≤ 4 ∧
    (Player_SeqConv b ≠ 0 ↔ b ∈ [0x01, 0x02, 0x04, 0x08]) ∧
    (b ∈ [0x01, 0x02, 0x04, 0x08] → c ∈ [0x01, 0x02, 0x04, 0x08] →
      Player_SeqConv b = Player_SeqConv c → b = c) := by
  refine ⟨rfl, rfl, rfl, rfl, Player_SeqConv_other b, ?_, ?_, ?_⟩
  · by_cases h : b ∈ [0x01, 0x02, 0x04, 0x08]
    · exact (Player_SeqConv_code b h).2.1
    · rw [Player_SeqConv_other b h]
      omega
  · constructor
    · intro hne
      by_contra h
      exact hne (Player_SeqConv_other b h)
    · intro h
      have := (Player_SeqConv_code b h).1
      omega
  · intro hb hc heq
    rw [← (Player_SeqConv_code b hb).2.2, ← (Player_SeqConv_code c hc).2.2, heq]

/-- Witness of C12: the two-button value 0x03 converts to 0. -/
theorem C12_Player_SeqConv_table_witness : Player_SeqConv 0x03 = 0 :=
  (C12_Player_SeqConv_table 0x03 0x08).2.2.2.2.1 (by decide)

/-! ## C15 -/

theorem LED_Sound_Link_other (link : Nat) (h : link ∉ [1, 2, 3, 4]) :
    linkLog link = [Event.EduBase_LEDs_Output LedMask.EDUBASE_LED_ALL_OFF] := by
  simp only [List.mem_cons, List.mem_singleton, List.not_mem_nil, or_false, not_or] at h
  unfold linkLog LED_Sound_Link
  split <;> first | (exfalso; omega) | rfl

theorem emitted_LED_Sound_Link (link : Nat) (m : Sys) :
    Sys.emitted m (LED_Sound_Link link m) = linkLog link :=
  Sys.emitted_of_out (by rw [LED_Sound_Link_eq]; rfl)

/-- C15: `LED_Sound_Link` drives one of four exclusive channels.  For the
symbols 1, 2, 3, 4 it writes the one-bit LED mask 0x01, 0x02, 0x04, 0x08 (two to
the symbol minus one) and plays one note, G4, A4, B4, C5 in that order; for 0
and every other value it writes the all-off mask and plays nothing.  The
globals and their history are untouched. -/
theorem C15_LED_Sound_Link_channels (link : Nat) (m : Sys) :
    (LED_Sound_Link link m).st = m.st ∧ (LED_Sound_Link link m).hist = m.hist ∧
    (link = 1 → Sys.emitted m (LED_Sound_Link link m) =
      [Event.EduBase_LEDs_Output (LedMask.bits 0x01), Event.Play_Note Note.G4_NOTE 50]) ∧
    (link = 2 → Sys.emitted m (LED_Sound_Link link m) =
      [Event.EduBase_LEDs_Output (LedMask.bits 0x02), Event.Play_Note Note.A4_NOTE 50]) ∧
    (link = 3 → Sys.emitted m (LED_Sound_Link link m) =
      [Event.EduBase_LEDs_Output (LedMask.bits 0x04), Event.Play_Note Note.B4_NOTE 50]) ∧
    (link = 4 → Sys.emitted m (LED_Sound_Link link m) =
      [Event.EduBase_LEDs_Output (LedMask.bits 0x08), Event.Play_Note Note.C5_NOTE 50]) ∧
    (link ∈ [1, 2, 3, 4] →
      ledOutputs (Sys.emitted m (LED_Sound_Link link m)) = [LedMask.bits (2 ^ (link - 1))] ∧
      (notesPlayed (Sys.emitted m (LED_Sound_Link link m))).length = 1) ∧
    (link ∉ [1, 2, 3, 4] →
      Sys.emitted m (LED_Sound_Link link m) =
        [Event.EduBase_LEDs_Output LedMask.EDUBASE_LED_ALL_OFF] ∧
      notesPlayed (Sys.emitted m (LED_Sound_Link link m)) = []) := by
  rw [emitted_LED_Sound_Link, LED_Sound_Link_eq]
  refine ⟨rfl, rfl, ?_, ?_, ?_, ?_, ?_, ?_⟩
  · rintro rfl; rfl
  · rintro rfl; rfl
  · rintro rfl; rfl
  · rintro rfl; rfl
  · intro h
    simp only [List.mem_cons, List.mem_singleton, List.not_mem_nil, or_false] at h
    rcases h with h | h | h | h <;> subst h <;> exact ⟨rfl, rfl⟩
  · intro h
    rw [LED_Sound_Link_other link h]
    exact ⟨rfl, rfl⟩

/-- Witness of C15: symbol 3 lights mask 0x04 and plays B4; value 7 turns the
LEDs off. -/
theorem C15_LED_Sound_Link_channels_witness :
    Sys.emitted Sys.boot (LED_Sound_Link 3 Sys.boot) =
      [Event.EduBase_LEDs_Output (LedMask.bits 0x04), Event.Play_Note Note.B4_NOTE 50] ∧
    Sys.emitted Sys.boot (LED_Sound_Link 7 Sys.boot) =
      [Event.EduBase_LEDs_Output LedMask.EDUBASE_LED_ALL_OFF] :=
  ⟨(C15_LED_Sound_Link_channels 3 Sys.boot).2.2.2.2.1 rfl,
   ((C15_LED_Sound_Link_channels 7 Sys.boot).2.2.2.2.2.2.2 (by decide)).1⟩

/-! ## C20 -/

/-- C20: the feedback of a press.  For a raw code 0x01, 0x02, 0x04 or 0x08 the
LED mask written by `LED_Sound_Link(Player_SeqConv(b))` is the code itself, so
button k lights LED k; for every other value it is the all-off mask.  This is
the feedback part of one poll of `Player_Sequence` with a non-zero read. -/
theorem C20_button_lights_own_led (b : Nat) (m : Sys) :
    (b ∈ [0x01, 0x02, 0x04, 0x08] →
      ledOutputs (Sys.emitted m (LED_Sound_Link (Player_SeqConv b) m)) = [LedMask.bits b]) ∧
    (b ∉ [0x01, 0x02, 0x04, 0x08] →
      ledOutputs (Sys.emitted m (LED_Sound_Link (Player_SeqConv b) m)) =
        [LedMask.EDUBASE_LED_ALL_OFF]) ∧
    (b ≠ 0 → pollLog b = Event.Get_EduBase_Button_Status b ::
      Sys.emitted m (LED_Sound_Link (Player_SeqConv b) m)) := by
  rw [emitted_LED_Sound_Link]
  refine ⟨?_, ?_, ?_⟩
  · intro h
    simp only [List.mem_cons, List.mem_singleton, List.not_mem_nil, or_false] at h
    rcases h with h | h | h | h <;> subst h <;> rfl
  · intro h
    rw [Player_SeqConv_other b h]
    rfl
  · intro h
    simp [pollLog, h]

/-- Witness of C20: button 0x04 lights LED mask 0x04; the two-button value
0x06 lights nothing. -/
theorem C20_button_lights_own_led_witness :
    ledOutputs (Sys.emitted Sys.boot (LED_Sound_Link (Player_SeqConv 0x04) Sys.boot)) =
      [LedMask.bits 0x04] ∧
    ledOutputs (Sys.emitted Sys.boot (LED_Sound_Link (Player_SeqConv 0x06) Sys.boot)) =
      [LedMask.EDUBASE_LED_ALL_OFF] :=
  ⟨(C20_button_lights_own_led 0x04 Sys.boot).1 (by decide),
   (C20_button_lights_own_led 0x06 Sys.boot).2.1 (by decide)⟩

/-! ## C17 -/

/-- C17: `LEVEL_FAIL` logs exactly four rounds of red status, all LEDs on,
500 ms, status off, all LEDs off, 500 ms, with the globals untouched, and only
then runs `RESET_GAME`, which leaves the fresh-start state, level 0. -/
theorem C17_LEVEL_FAIL_signal (m : Sys) :
    failFlash = [Event.RGB_LED_Output RGBColor.RGB_LED_RED,
      Event.EduBase_LEDs_Output LedMask.EDUBASE_LED_ALL_ON, Event.SysTick_Delay1ms 500,
      Event.RGB_LED_Output RGBColor.RGB_LED_OFF,
      Event.EduBase_LEDs_Output LedMask.EDUBASE_LED_ALL_OFF, Event.SysTick_Delay1ms 500] ∧
    LEVEL_FAIL m = RESET_GAME (m.emit (Event.enter Routine.LEVEL_FAIL ::
      (failFlash ++ failFlash ++ failFlash ++ failFlash))) ∧
    (m.emit (Event.enter Routine.LEVEL_FAIL ::
      (failFlash ++ failFlash ++ failFlash ++ failFlash))).st = m.st ∧
    Sys.emitted m (LEVEL_FAIL m) = Event.enter Routine.LEVEL_FAIL ::
      (failFlash ++ failFlash ++ failFlash ++ failFlash) ++ [Event.enter Routine.RESET_GAME] ∧
    (Sys.emitted m (LEVEL_FAIL m)).count (Event.RGB_LED_Output RGBColor.RGB_LED_RED) = 4 ∧
    (Sys.emitted m (LEVEL_FAIL m)).count (Event.enter Routine.RESET_GAME) = 1 ∧
    (LEVEL_FAIL m).st = GameState.fresh ∧ (LEVEL_FAIL m).st.level = 0 := by
  have hout : Sys.emitted m (LEVEL_FAIL m) = Event.enter Routine.LEVEL_FAIL ::
      (failFlash ++ failFlash ++ failFlash ++ failFlash) ++ [Event.enter Routine.RESET_GAME] :=
    Sys.emitted_of_out (by simp [LEVEL_FAIL_out])
  refine ⟨rfl, ?_, rfl, hout, ?_, ?_, LEVEL_FAIL_st m, ?_⟩
  · simp [LEVEL_FAIL, range_four, failFlash, Sys.emit_emit]
  · rw [hout]; decide
  · rw [hout]; decide
  · rw [LEVEL_FAIL_st]; rfl

/-! ## C14 -/

theorem Generate_Sequence_out (rand : Nat → Int) (m : Sys) :
    (Generate_Sequence rand m).out = m.out ++ [Event.enter Routine.Generate_Sequence] := by
  simp [Generate_Sequence, range_two, range_three, range_four, Sys.rand, Sys.assign, Sys.emit]

/-- C14: at every level 0, 1, 2 and in every state, `Sequence_Check(N)` enters
exactly one outcome routine, once: `LEVEL_FAIL` when the arrays differ,
otherwise `LEVEL_PASS` below level 2 and `BEAT_GAME` at level 2.  `RESET_GAME`
is entered once on a failed or won outcome and not at all on an advance, inside
the call, so before the `Generate_Sequence` that the main loop runs next. -/
theorem C14_one_outcome_routine (rand : Nat → Int) (m : Sys) (hL : m.st.level ≤ 2) :
    ∃ r, Sequence_Check (levelLength m.st.level : Nat) m = some r ∧
      ((m.st.target ≠ m.st.player ∧ r.st = GameState.fresh ∧
          routinesEntered (Sys.emitted m r) =
            [Routine.Sequence_Check, Routine.LEVEL_FAIL, Routine.RESET_GAME]) ∨
       (m.st.target = m.st.player ∧ m.st.level < 2 ∧ r.st.level = m.st.level + 1 ∧
          routinesEntered (Sys.emitted m r) = [Routine.Sequence_Check, Routine.LEVEL_PASS]) ∨
       (m.st.target = m.st.player ∧ m.st.level = 2 ∧ r.st = GameState.fresh ∧
          routinesEntered (Sys.emitted m r) =
            [Routine.Sequence_Check, Routine.BEAT_GAME, Routine.RESET_GAME])) ∧
      (routinesEntered (Sys.emitted m r)).count Routine.LEVEL_FAIL +
        (routinesEntered (Sys.emitted m r)).count Routine.LEVEL_PASS +
        (routinesEntered (Sys.emitted m r)).count Routine.BEAT_GAME = 1 ∧
      (routinesEntered (Sys.emitted m r)).count Routine.RESET_GAME =
        (if Routine.LEVEL_PASS ∈ routinesEntered (Sys.emitted m r) then 0 else 1) ∧
      Routine.Generate_Sequence ∉ routinesEntered (Sys.emitted m r) ∧
      Sys.emitted m (Generate_Sequence rand r) =
        Sys.emitted m r ++ [Event.enter Routine.Generate_Sequence] := by
  have hgen : ∀ (r : Sys) (es : List Event), r.out = m.out ++ es →
      Sys.emitted m (Generate_Sequence rand r) =
        Sys.emitted m r ++ [Event.enter Routine.Generate_Sequence] := by
    intro r es hes
    rw [Sys.emitted_of_out hes]
    exact Sys.emitted_of_out (by rw [Generate_Sequence_out, hes, List.append_assoc])
  by_cases heq : m.st.target = m.st.player
  · obtain ⟨r, hr, -, hpass, hbeat⟩ := Sequence_Check_of_eq m hL heq.symm
    by_cases h2 : m.st.level = 2
    · obtain ⟨hrr, hout⟩ := hbeat h2
      have hro : routinesEntered (Sys.emitted m r) =
          [Routine.Sequence_Check, Routine.BEAT_GAME, Routine.RESET_GAME] := by
        rw [hout]; rfl
      refine ⟨r, hr, Or.inr (Or.inr ⟨heq, h2, by rw [hrr]; exact BEAT_GAME_st _, hro⟩), ?_, ?_, ?_,
        hgen r _ (by rw [hrr, BEAT_GAME_out, Sys.emit_out, List.append_assoc])⟩
      · rw [hro]; decide
      · rw [hro]; decide
      · rw [hro]; decide
    · have hlt : m.st.level < 2 := by omega
      obtain ⟨hrr, hout⟩ := hpass hlt
      have hro : routinesEntered (Sys.emitted m r) =
          [Routine.Sequence_Check, Routine.LEVEL_PASS] := by
        rw [hout]; rfl
      refine ⟨r, hr, Or.inr (Or.inl ⟨heq, hlt, ?_, hro⟩), ?_, ?_, ?_,
        hgen r _ (by rw [hrr, LEVEL_PASS_out, Sys.emit_out, List.append_assoc])⟩
      · rw [hrr, LEVEL_PASS_st]
        simp only [Sys.emit_st]
        omega
      · rw [hro]; decide
      · rw [hro]; decide
      · rw [hro]; decide
  · obtain ⟨r, hr, hst, hout⟩ := Sequence_Check_of_ne m hL heq
    have hro : routinesEntered (Sys.emitted m r) =
        [Routine.Sequence_Check, Routine.LEVEL_FAIL, Routine.RESET_GAME] := by
      rw [hout]; rfl
    have hrr : r = LEVEL_FAIL (m.emit [Event.enter Routine.Sequence_Check]) := by
      have := Sequence_Check_eq m hL
      rw [if_neg heq, hr] at this
      exact Option.some.inj this
    refine ⟨r, hr, Or.inl ⟨heq, hst, hro⟩, ?_, ?_, ?_,
      hgen r _ (by rw [hrr, LEVEL_FAIL_out, Sys.emit_out, List.append_assoc])⟩
    · rw [hro]; decide
    · rw [hro]; decide
    · rw [hro]; decide

/-- Witness of C14: level 0 with target 1, 3 against player 1, 4 enters
`LEVEL_FAIL` and `RESET_GAME`, once each. -/
theorem C14_one_outcome_routine_witness :
    ∃ r, Sequence_Check 2 (Sys.sample 0 (CArray.ofList [1, 3]) (CArray.ofList [1, 4])
        (CArray.zero 4) (CArray.zero 4)) = some r ∧
      (routinesEntered (Sys.emitted (Sys.sample 0 (CArray.ofList [1, 3]) (CArray.ofList [1, 4])
        (CArray.zero 4) (CArray.zero 4)) r)).count Routine.RESET_GAME = 1 :=
  have h := C14_one_outcome_routine (fun _ => 0) (Sys.sample 0 (CArray.ofList [1, 3])
    (CArray.ofList [1, 4]) (CArray.zero 4) (CArray.zero 4)) (by decide)
  h.elim fun r hr => ⟨r, hr.1, by
    rcases hr.2.1 with h1 | h1 | h1
    · rw [h1.2.2]; decide
    · exact absurd h1.1 (by decide)
    · exact absurd h1.2.1 (by decide)⟩

/-! ## What a capture may change -/

theorem StoredFrom.unchanged (used : List Nat) (x : Option Nat) : StoredFrom used x x := Or.inl rfl

theorem StoredFrom.chain {u v : List Nat} {x y z : Option Nat} (h1 : StoredFrom u x y)
    (h2 : StoredFrom v y z) : StoredFrom (u ++ v) x z := by
  rcases h2 with h2 | ⟨b, hb, hb0, h2⟩
  · rcases h1 with h1 | ⟨b, hb, hb0, h1⟩
    · exact Or.inl (h2.trans h1)
    · exact Or.inr ⟨b, List.mem_append_left v hb, hb0, h2.trans h1⟩
  · exact Or.inr ⟨b, List.mem_append_right u hb, hb0, h2⟩

theorem StoredFrom.of_put {n : Nat} (a : CArray n) (i j b : Nat) (hb : b ≠ 0) :
    StoredFrom [b] (a.cells[j]?) ((a.put i (Player_SeqConv b)).cells[j]?) := by
  rw [CArray.cells_put, List.getElem?_set]
  by_cases hij : i = j
  · by_cases hlt : i < a.cells.length
    · subst hij
      exact Or.inr ⟨b, List.mem_singleton.mpr rfl, hb, by simp [hlt]⟩
    · refine Or.inl ?_
      subst hij
      simp only [hlt, if_true, if_false]
      exact (List.getElem?_eq_none (by omega)).symm
  · exact Or.inl (by simp [hij])

theorem Sys.Captured.nothing (m : Sys) : Sys.Captured [] m m :=
  ⟨by simp, rfl, rfl, rfl, rfl, rfl, fun _ => StoredFrom.unchanged _ _, fun _ => StoredFrom.unchanged _ _,
    fun _ => StoredFrom.unchanged _ _⟩

theorem Sys.Captured.join {u v : List Nat} {a b c : Sys} (h1 : Sys.Captured u a b)
    (h2 : Sys.Captured v b c) : Sys.Captured (u ++ v) a c := by
  obtain ⟨ho1, hn1, hl1, ha1, hb1, hc1, hp1, hq1, hr1⟩ := h1
  obtain ⟨ho2, hn2, hl2, ha2, hb2, hc2, hp2, hq2, hr2⟩ := h2
  refine ⟨by rw [ho2, ho1]; simp, hn2.trans hn1, hl2.trans hl1, ha2.trans ha1, hb2.trans hb1,
    hc2.trans hc1, fun i => (hp1 i).chain (hp2 i), fun i => (hq1 i).chain (hq2 i),
    fun i => (hr1 i).chain (hr2 i)⟩

theorem Sys.Captured.zero_read (m : Sys) :
    Sys.Captured [0] m (m.emit [Event.Get_EduBase_Button_Status 0]) :=
  ⟨by simp [pollLog], rfl, rfl, rfl, rfl, rfl, fun _ => StoredFrom.unchanged _ _,
    fun _ => StoredFrom.unchanged _ _, fun _ => StoredFrom.unchanged _ _⟩

theorem Run.Captured.cons_read {b : Nat} {rest : List Nat} {m k : Sys} {run : Run}
    (h1 : Sys.Captured [b] m k) (h2 : Run.Captured k rest run) :
    Run.Captured m (b :: rest) run := by
  cases run with
  | done r left =>
    obtain ⟨used, hu, hc⟩ := h2
    exact ⟨b :: used, by rw [hu]; rfl, h1.join hc⟩
  | polling r => exact h1.join h2
  | undefined => exact h2

theorem Sys.Captured.press1 (m : Sys) (i b : Nat) (hb : b ≠ 0) :
    Sys.Captured [b] m
      ((((m.emit [Event.Get_EduBase_Button_Status b]).assign fun s =>
          { s with lv1playerarr := m.st.lv1playerarr.put i (Player_SeqConv b) }).emit
          (linkLog (Player_SeqConv b))).assign fun s => { s with index1 := s.index1 + 1 }) :=
  ⟨by simp [pollLog, hb], rfl, rfl, rfl, rfl, rfl, fun j => StoredFrom.of_put _ i j b hb, fun _ => StoredFrom.unchanged _ _, fun _ => StoredFrom.unchanged _ _⟩

theorem Sys.Captured.press2 (m : Sys) (i b : Nat) (hb : b ≠ 0) :
    Sys.Captured [b] m
      ((((m.emit [Event.Get_EduBase_Button_Status b]).assign fun s =>
          { s with lv2playerarr := m.st.lv2playerarr.put i (Player_SeqConv b) }).emit
          (linkLog (Player_SeqConv b))).assign fun s => { s with index2 := s.index2 + 1 }) :=
  ⟨by simp [pollLog, hb], rfl, rfl, rfl, rfl, rfl, fun _ => StoredFrom.unchanged _ _, fun j => StoredFrom.of_put _ i j b hb, fun _ => StoredFrom.unchanged _ _⟩

theorem Sys.Captured.press3 (m : Sys) (i b : Nat) (hb : b ≠ 0) :
    Sys.Captured [b] m
      ((((m.emit [Event.Get_EduBase_Button_Status b]).assign fun s =>
          { s with lv3playerarr := m.st.lv3playerarr.put i (Player_SeqConv b) }).emit
          (linkLog (Player_SeqConv b))).assign fun s => { s with index3 := s.index3 + 1 }) :=
  ⟨by simp [pollLog, hb], rfl, rfl, rfl, rfl, rfl, fun _ => StoredFrom.unchanged _ _, fun _ => StoredFrom.unchanged _ _, fun j => StoredFrom.of_put _ i j b hb⟩

theorem Player_Sequence.case0_captured : ∀ (reads : List Nat) (m : Sys),
    Run.Captured m reads (Player_Sequence.case0 reads m) := by
  intro reads
  induction reads with
  | nil =>
    intro m
    unfold Player_Sequence.case0
    split
    · exact Sys.Captured.nothing m
    · exact ⟨[], rfl, Sys.Captured.nothing m⟩
  | cons b rest ih =>
    intro m
    by_cases hg : m.st.index1 = 0 ∨ m.st.index1 = 1
    · by_cases hb : b = 0
      · subst hb
        rw [Player_Sequence.case0_zero _ _ hg]
        exact Run.Captured.cons_read (Sys.Captured.zero_read m) (ih _)
      · obtain ⟨i, hi, hlt⟩ : ∃ i : Nat, m.st.index1 = i ∧ i < 2 :=
          ⟨m.st.index1.toNat, by omega, by omega⟩
        rw [Player_Sequence.case0_press b rest m i hi hlt hb]
        exact Run.Captured.cons_read (Sys.Captured.press1 m i b hb) (ih _)
    · rw [Player_Sequence.case0_exit _ _ hg]
      exact ⟨[], rfl, Sys.Captured.nothing m⟩

theorem Player_Sequence.case1_captured : ∀ (reads : List Nat) (m : Sys),
    Run.Captured m reads (Player_Sequence.case1 reads m) := by
  intro reads
  induction reads with
  | nil =>
    intro m
    unfold Player_Sequence.case1
    split
    · exact Sys.Captured.nothing m
    · exact ⟨[], rfl, Sys.Captured.nothing m⟩
  | cons b rest ih =>
    intro m
    by_cases hg : m.st.index2 = 0 ∨ m.st.index2 = 1 ∨ m.st.index2 = 2
    · by_cases hb : b = 0
      · subst hb
        rw [Player_Sequence.case1_zero _ _ hg]
        exact Run.Captured.cons_read (Sys.Captured.zero_read m) (ih _)
      · obtain ⟨i, hi, hlt⟩ : ∃ i : Nat, m.st.index2 = i ∧ i < 3 :=
          ⟨m.st.index2.toNat, by omega, by omega⟩
        rw [Player_Sequence.case1_press b rest m i hi hlt hb]
        exact Run.Captured.cons_read (Sys.Captured.press2 m i b hb) (ih _)
    · rw [Player_Sequence.case1_exit _ _ hg]
      exact ⟨[], rfl, Sys.Captured.nothing m⟩

theorem Sys.Captured.cleared {used : List Nat} {m r : Sys} (h : Sys.Captured used m r) :
    Sys.Captured used m
      (((r.assign fun s => { s with index1 := 0 }).assign fun s => { s with index2 := 0 }).assign
        fun s => { s with index3 := 0 }) := h

theorem Player_Sequence.case2_captured : ∀ (reads : List Nat) (m : Sys),
    Run.Captured m reads (Player_Sequence.case2 reads m) := by
  intro reads
  induction reads with
  | nil =>
    intro m
    unfold Player_Sequence.case2
    split
    · exact Sys.Captured.nothing m
    · exact ⟨[], rfl, Sys.Captured.nothing m⟩
  | cons b rest ih =>
    intro m
    by_cases hg : m.st.index3 = 0 ∨ m.st.index3 = 1 ∨ m.st.index3 = 2 ∨ m.st.index3 = 3
    · by_cases hb : b = 0
      · subst hb
        rw [Player_Sequence.case2_zero _ _ hg]
        exact Run.Captured.cons_read (Sys.Captured.zero_read m) (ih _)
      · obtain ⟨i, hi, hlt⟩ : ∃ i : Nat, m.st.index3 = i ∧ i < 4 :=
          ⟨m.st.index3.toNat, by omega, by omega⟩
        by_cases h3 : i = 3
        · subst h3
          rw [Player_Sequence.case2_last b rest m (by simpa using hi) hb]
          exact ⟨[b], rfl, (Sys.Captured.press3 m 3 b hb).cleared⟩
        · rw [Player_Sequence.case2_press b rest m i hi (by omega) hb]
          exact Run.Captured.cons_read (Sys.Captured.press3 m i b hb) (ih _)
    · rw [Player_Sequence.case2_exit _ _ hg]
      exact ⟨[], rfl, Sys.Captured.nothing m⟩

/-- The routine `Player_Sequence` in any state and on any reads: after its
entry is logged, only what `Sys.Captured` allows happens. -/
theorem Player_Sequence_captured (m : Sys) (reads : List Nat) :
    Run.Captured (m.emit [Event.enter Routine.Player_Sequence]) reads
      (Player_Sequence m reads) := by
  unfold Player_Sequence
  simp only [Sys.emit_st]
  split
  · exact Player_Sequence.case0_captured reads _
  · exact Player_Sequence.case1_captured reads _
  · exact Player_Sequence.case2_captured reads _
  · exact ⟨[], rfl, Sys.Captured.nothing _⟩

/-! ## C11 -/

theorem StoredFrom.mono {u v : List Nat} {x y : Option Nat} (huv : ∀ b ∈ u, b ∈ v)
    (h : StoredFrom u x y) : StoredFrom v x y := by
  rcases h with h | ⟨b, hb, hb0, h⟩
  · exact Or.inl h
  · exact Or.inr ⟨b, huv b hb, hb0, h⟩

/-- Counterexample to C11: level 0, player array 7, 7, raw reads 0x03 (two
buttons at once) and 0x01.  The capture returns with the player array 0, 1:
`Player_SeqConv 0x03 = 0` was stored at index 0, the state right after that
store (cells 0, 7) is in the history, and the feedback for it is the all-off
mask. -/
theorem C11_counterexample :
    Player_SeqConv 0x03 = 0 ∧
    Player_Sequence (Sys.sample 0 (CArray.zero 2) (CArray.ofList [7, 7]) (CArray.zero 4)
      (CArray.zero 4)) [0x03, 0x01] =
      Run.done (Run.sys (Player_Sequence (Sys.sample 0 (CArray.zero 2) (CArray.ofList [7, 7])
        (CArray.zero 4) (CArray.zero 4)) [0x03, 0x01])) [] ∧
    (Run.sys (Player_Sequence (Sys.sample 0 (CArray.zero 2) (CArray.ofList [7, 7])
      (CArray.zero 4) (CArray.zero 4)) [0x03, 0x01])).st.lv1playerarr.cells = [0, 1] ∧
    { GameState.fresh with lv1playerarr := CArray.ofList [0, 7] } ∈
      (Run.sys (Player_Sequence (Sys.sample 0 (CArray.zero 2) (CArray.ofList [7, 7])
        (CArray.zero 4) (CArray.zero 4)) [0x03, 0x01])).hist ∧
    (Run.sys (Player_Sequence (Sys.sample 0 (CArray.zero 2) (CArray.ofList [7, 7])
      (CArray.zero 4) (CArray.zero 4)) [0x03, 0x01])).out =
      [Event.enter Routine.Player_Sequence, Event.Get_EduBase_Button_Status 0x03,
       Event.EduBase_LEDs_Output LedMask.EDUBASE_LED_ALL_OFF,
       Event.Get_EduBase_Button_Status 0x01,
       Event.EduBase_LEDs_Output (LedMask.bits 0x01), Event.Play_Note Note.G4_NOTE 50] ∧
    ¬ (∀ x ∈ (Run.sys (Player_Sequence (Sys.sample 0 (CArray.zero 2) (CArray.ofList [7, 7])
      (CArray.zero 4) (CArray.zero 4)) [0x03, 0x01])).st.player, 1 ≤ x ∧ x ≤ 4) := by
  decide

/-- C11, amended: in every state and on every read stream `Player_Sequence`
stays inside its arrays, and every player-array cell it leaves is either the
value the cell had before or `Player_SeqConv` of a non-zero read of the stream.
Such a value is at most 4; it is a symbol 1..4 when the read is one of 0x01,
0x02, 0x04, 0x08 and it is 0 for every other non-zero read.  When the capture
starts at cursor 0 and completes, the active player array is `Player_SeqConv`
of the first N non-zero reads, cell by cell. -/
theorem C11_stored_values (m : Sys) (reads : List Nat) :
    Player_Sequence m reads ≠ Run.undefined ∧
    (∀ r, (Player_Sequence m reads = Run.polling r ∨
        ∃ rest, Player_Sequence m reads = Run.done r rest) →
      ∀ i : Nat,
        StoredFrom reads (m.st.lv1playerarr.cells[i]?) (r.st.lv1playerarr.cells[i]?) ∧
        StoredFrom reads (m.st.lv2playerarr.cells[i]?) (r.st.lv2playerarr.cells[i]?) ∧
        StoredFrom reads (m.st.lv3playerarr.cells[i]?) (r.st.lv3playerarr.cells[i]?)) ∧
    (∀ b : Nat, Player_SeqConv b ≤ 4 ∧
      (b ∈ [0x01, 0x02, 0x04, 0x08] → 1 ≤ Player_SeqConv b) ∧
      (b ∉ [0x01, 0x02, 0x04, 0x08] → Player_SeqConv b = 0)) ∧
    (m.st.level ≤ 2 → m.st.cursor = 0 →
      levelLength m.st.level ≤ (reads.filter (fun b => b ≠ 0)).length →
      ∃ r, Player_Sequence m reads = Run.done r (afterPresses (levelLength m.st.level) reads) ∧
        r.st.player = ((reads.filter (fun b => b ≠ 0)).take (levelLength m.st.level)).map
          Player_SeqConv) := by
  have hcap := Player_Sequence_captured m reads
  refine ⟨?_, ?_, ?_, ?_⟩
  · intro hu
    rw [hu] at hcap
    exact hcap
  · intro r hr i
    rcases hr with hr | ⟨rest, hr⟩
    · rw [hr] at hcap
      obtain ⟨-, -, -, -, -, -, h1, h2, h3⟩ := hcap
      exact ⟨h1 i, h2 i, h3 i⟩
    · rw [hr] at hcap
      obtain ⟨used, hu, -, -, -, -, -, -, h1, h2, h3⟩ := hcap
      have hsub : ∀ b ∈ used, b ∈ reads := fun b hb => by
        rw [hu]
        exact List.mem_append_left rest hb
      exact ⟨(h1 i).mono hsub, (h2 i).mono hsub, (h3 i).mono hsub⟩
  · intro b
    by_cases h : b ∈ [0x01, 0x02, 0x04, 0x08]
    · exact ⟨(Player_SeqConv_code b h).2.1, fun _ => (Player_SeqConv_code b h).1,
        fun hn => absurd h hn⟩
    · exact ⟨by rw [Player_SeqConv_other b h]; omega, fun hc => absurd hc h,
        fun _ => Player_SeqConv_other b h⟩
  · intro hL hc hlen
    obtain ⟨r, hr, hp, -⟩ := Player_Sequence_capture m reads hL hc hlen
    exact ⟨r, hr, hp⟩

/-- The capture loop of level 1 with `k` presses still to come and fewer
non-zero reads than that: it is still polling when the reads run out. -/
theorem Player_Sequence.case0_starved : ∀ (reads : List Nat) (k : Nat) (m : Sys), k ≤ 2 →
    m.st.index1 = ((2 - k : Nat) : Int) → (reads.filter (fun b => b ≠ 0)).length < k →
    ∃ r, Player_Sequence.case0 reads m = Run.polling r := by
  intro reads
  induction reads with
  | nil =>
    intro k m hk hi hlen
    have hg : m.st.index1 = 0 ∨ m.st.index1 = 1 := by
      simp at hlen
      rw [hi]; omega
    refine ⟨m, ?_⟩
    unfold Player_Sequence.case0
    simp only [hg, if_true]
  | cons b rest ih =>
    intro k m hk hi hlen
    by_cases hb : b = 0
    · subst hb
      have hg : m.st.index1 = 0 ∨ m.st.index1 = 1 := by
        have : 0 < k := by omega
        rw [hi]; omega
      rw [Player_Sequence.case0_zero _ _ hg]
      exact ih k _ hk hi (by simpa using hlen)
    · have hlen2 : (rest.filter (fun b => b ≠ 0)).length + 1 < k := by simpa [hb] using hlen
      obtain ⟨k, rfl⟩ : ∃ j, k = j + 1 := ⟨k - 1, by omega⟩
      rw [Player_Sequence.case0_press b rest m (2 - (k + 1)) hi (by omega) hb]
      exact ih k _ (by omega) (by simp only [Sys.assign_st, Sys.emit_st, hi]; omega) (by omega)

/-- The capture loop of level 2 with `k` presses still to come and fewer
non-zero reads than that: it is still polling when the reads run out. -/
theorem Player_Sequence.case1_starved : ∀ (reads : List Nat) (k : Nat) (m : Sys), k ≤ 3 →
    m.st.index2 = ((3 - k : Nat) : Int) → (reads.filter (fun b => b ≠ 0)).length < k →
    ∃ r, Player_Sequence.case1 reads m = Run.polling r := by
  intro reads
  induction reads with
  | nil =>
    intro k m hk hi hlen
    have hg : m.st.index2 = 0 ∨ m.st.index2 = 1 ∨ m.st.index2 = 2 := by
      simp at hlen
      rw [hi]; omega
    refine ⟨m, ?_⟩
    unfold Player_Sequence.case1
    simp only [hg, if_true]
  | cons b rest ih =>
    intro k m hk hi hlen
    by_cases hb : b = 0
    · subst hb
      have hg : m.st.index2 = 0 ∨ m.st.index2 = 1 ∨ m.st.index2 = 2 := by
        have : 0 < k := by omega
        rw [hi]; omega
      rw [Player_Sequence.case1_zero _ _ hg]
      exact ih k _ hk hi (by simpa using hlen)
    · have hlen2 : (rest.filter (fun b => b ≠ 0)).length + 1 < k := by simpa [hb] using hlen
      obtain ⟨k, rfl⟩ : ∃ j, k = j + 1 := ⟨k - 1, by omega⟩
      rw [Player_Sequence.case1_press b rest m (3 - (k + 1)) hi (by omega) hb]
      exact ih k _ (by omega) (by simp only [Sys.assign_st, Sys.emit_st, hi]; omega) (by omega)

/-- The capture loop of level 3 with `k` presses still to come and fewer
non-zero reads than that: it is still polling when the reads run out. -/
theorem Player_Sequence.case2_starved : ∀ (reads : List Nat) (k : Nat) (m : Sys), k ≤ 4 →
    m.st.index3 = ((4 - k : Nat) : Int) → (reads.filter (fun b => b ≠ 0)).length < k →
    ∃ r, Player_Sequence.case2 reads m = Run.polling r := by
  intro reads
  induction reads with
  | nil =>
    intro k m hk hi hlen
    have hg : m.st.index3 = 0 ∨ m.st.index3 = 1 ∨ m.st.index3 = 2 ∨ m.st.index3 = 3 := by
      simp at hlen
      rw [hi]; omega
    refine ⟨m, ?_⟩
    unfold Player_Sequence.case2
    simp only [hg, if_true]
  | cons b rest ih =>
    intro k m hk hi hlen
    by_cases hb : b = 0
    · subst hb
      have hg : m.st.index3 = 0 ∨ m.st.index3 = 1 ∨ m.st.index3 = 2 ∨ m.st.index3 = 3 := by
        have : 0 < k := by omega
        rw [hi]; omega
      rw [Player_Sequence.case2_zero _ _ hg]
      exact ih k _ hk hi (by simpa using hlen)
    · have hlen2 : (rest.filter (fun b => b ≠ 0)).length + 1 < k := by simpa [hb] using hlen
      obtain ⟨k, rfl⟩ : ∃ j, k = j + 1 := ⟨k - 1, by omega⟩
      rw [Player_Sequence.case2_press b rest m (4 - (k + 1)) hi (by omega) hb]
      exact ih k _ (by omega) (by simp only [Sys.assign_st, Sys.emit_st, hi]; omega) (by omega)

/-- The routine `Player_Sequence` entered at cursor 0 on a stream with fewer
non-zero reads than the level's length: it does not return. -/
theorem Player_Sequence_starved (m : Sys) (reads : List Nat) (hL : m.st.level ≤ 2)
    (hc : m.st.cursor = 0)
    (hlen : (reads.filter (fun b => b ≠ 0)).length < levelLength m.st.level) :
    ∃ r, Player_Sequence m reads = Run.polling r := by
  obtain ⟨l, hl⟩ : ∃ l, m.st.level = l := ⟨_, rfl⟩
  have hl2 : l ≤ 2 := hl ▸ hL
  rw [hl] at hlen
  unfold Player_Sequence
  simp only [Sys.emit_st, hl]
  interval_cases l
  · exact Player_Sequence.case0_starved reads 2 _ (le_refl 2)
      (by simpa [GameState.cursor, hl] using hc) hlen
  · exact Player_Sequence.case1_starved reads 3 _ (le_refl 3)
      (by simpa [GameState.cursor, hl] using hc) hlen
  · exact Player_Sequence.case2_starved reads 4 _ (le_refl 4)
      (by simpa [GameState.cursor, hl] using hc) hlen

/-- The cursors after a completed capture that started at cursor 0: the
cursor of level 0 or 1 stands at the level's length and the others are as they
were; at level 2 all three are cleared. -/
theorem Player_Sequence_cursors (m : Sys) (reads : List Nat) (hL : m.st.level ≤ 2)
    (hc : m.st.cursor = 0)
    (hlen : levelLength m.st.level ≤ (reads.filter (fun b => b ≠ 0)).length) :
    ∃ r, Player_Sequence m reads = Run.done r (afterPresses (levelLength m.st.level) reads) ∧
      (m.st.level = 0 →
        r.st.index1 = 2 ∧ r.st.index2 = m.st.index2 ∧ r.st.index3 = m.st.index3) ∧
      (m.st.level = 1 →
        r.st.index1 = m.st.index1 ∧ r.st.index2 = 3 ∧ r.st.index3 = m.st.index3) ∧
      (m.st.level = 2 → r.st.index1 = 0 ∧ r.st.index2 = 0 ∧ r.st.index3 = 0) := by
  obtain ⟨l, hl⟩ : ∃ l, m.st.level = l := ⟨_, rfl⟩
  have hl2 : l ≤ 2 := hl ▸ hL
  rw [hl] at hlen ⊢
  interval_cases l
  · obtain ⟨r, hr, hst, -, -⟩ := Player_Sequence.case0_capture reads 2
      (m.emit [Event.enter Routine.Player_Sequence]) (le_refl 2)
      (by simpa [GameState.cursor, hl] using hc) hlen
    refine ⟨r, by simpa [Player_Sequence, hl] using hr, ?_⟩
    rw [hst]
    simp
  · obtain ⟨r, hr, hst, -, -⟩ := Player_Sequence.case1_capture reads 3
      (m.emit [Event.enter Routine.Player_Sequence]) (le_refl 3)
      (by simpa [GameState.cursor, hl] using hc) hlen
    refine ⟨r, by simpa [Player_Sequence, hl] using hr, ?_⟩
    rw [hst]
    simp
  · obtain ⟨r, hr, hst, -, -⟩ := Player_Sequence.case2_capture reads 4
      (m.emit [Event.enter Routine.Player_Sequence]) (by decide) (le_refl 4)
      (by simpa [GameState.cursor, hl] using hc) hlen
    refine ⟨r, by simpa [Player_Sequence, hl] using hr, ?_⟩
    rw [hst]
    simp

/-! ## C13 -/

/-- C13: an unrecognised press loses the level.  At every level 0, 1, 2 with
the cursor at 0 and a target of symbols 1..4, if the stream holds at least N
non-zero reads and the one at position `i` among the first N is not 0x01, 0x02,
0x04 or 0x08, then the capture still returns after N non-zero reads with 0 in
cell `i` of the player array and the cursor advanced past all N cells (at level
2, where it is cleared on reaching 4, back at 0), and `Level_Config` returns
through `LEVEL_FAIL` in the fresh-start state, whatever the other presses. -/
theorem C13_unrecognised_press_fails (m : Sys) (reads : List Nat) (i b : Nat)
    (hL : m.st.level ≤ 2) (hc : m.st.cursor = 0) (hsym : ∀ x ∈ m.st.target, 1 ≤ x ∧ x ≤ 4)
    (hlen : levelLength m.st.level ≤ (reads.filter (fun b => b ≠ 0)).length)
    (hi : ((reads.filter (fun b => b ≠ 0)).take (levelLength m.st.level))[i]? = some b)
    (hbad : b ∉ [0x01, 0x02, 0x04, 0x08]) :
    ∃ c r,
      Player_Sequence m reads = Run.done c (afterPresses (levelLength m.st.level) reads) ∧
      c.st.player[i]? = some 0 ∧ c.st.player.length = levelLength m.st.level ∧
      c.st.cursor = (if m.st.level = 2 then 0 else (levelLength m.st.level : Int)) ∧
      Level_Config m reads = Run.done r (afterPresses (levelLength m.st.level) reads) ∧
      r.st = GameState.fresh ∧
      Event.enter Routine.LEVEL_FAIL ∈ Sys.emitted m r ∧
      Event.enter Routine.LEVEL_PASS ∉ Sys.emitted m r ∧
      Event.enter Routine.BEAT_GAME ∉ Sys.emitted m r := by
  have hcell : ((presses (levelLength m.st.level) reads).map Player_SeqConv)[i]? = some 0 := by
    unfold presses
    rw [List.getElem?_map, hi]
    simp [Player_SeqConv_other b hbad]
  have hdiff : (presses (levelLength m.st.level) reads).map Player_SeqConv ≠ m.st.target := by
    intro h
    rw [h] at hcell
    have hmem : 0 ∈ m.st.target := List.getElem?_mem hcell
    have := (hsym 0 hmem).1
    omega
  obtain ⟨c, hc1, hp, hlv, -⟩ := Player_Sequence_capture m reads hL hc hlen
  obtain ⟨c2, hc2, h0, h1, h2⟩ := Player_Sequence_cursors m reads hL hc hlen
  have hcc : c2 = c := by
    rw [hc1] at hc2
    exact (Run.done.inj hc2).1.symm
  subst hcc
  obtain ⟨r, hr, hst, hout⟩ := Level_Config_fail m reads hL hc hlen hdiff
  have ha : ∀ q, Event.enter q ∉ m.st.target.flatMap presentLog :=
    fun q => enter_not_mem_presentLog q m.st.target
  have hb : ∀ q, Event.enter q ∉ (consumed (levelLength m.st.level) reads).flatMap pollLog :=
    fun q => enter_not_mem_pollLog q _
  refine ⟨c2, r, hc1, by rw [hp]; exact hcell, ?_, ?_, hr, hst, ?_, ?_, ?_⟩
  · rw [c2.st.length_player (by omega), hlv]
  · obtain ⟨l, hl⟩ : ∃ l, m.st.level = l := ⟨_, rfl⟩
    have hl2 : l ≤ 2 := hl ▸ hL
    simp only [GameState.cursor, hlv]
    rw [hl] at h0 h1 h2 ⊢
    interval_cases l
    · simpa [levelLength] using (h0 rfl).1
    · simpa [levelLength] using (h1 rfl).2.1
    · simpa using (h2 rfl).2.2
  · rw [hout]
    simp
  · rw [hout]
    have h1 := ha Routine.LEVEL_PASS
    have h2 := hb Routine.LEVEL_PASS
    simp only [List.mem_flatMap, not_exists, not_and] at h1 h2
    simp [failFlash]
    exact ⟨h1, h2⟩
  · rw [hout]
    have h1 := ha Routine.BEAT_GAME
    have h2 := hb Routine.BEAT_GAME
    simp only [List.mem_flatMap, not_exists, not_and] at h1 h2
    simp [failFlash]
    exact ⟨h1, h2⟩

/-- Witness of C13: level 0, target 2, 4, reads 0x02 then 0x0C (two buttons):
cell 1 of the player array is 0 and the level is lost. -/
theorem C13_unrecognised_press_fails_witness :
    ∃ c r, Player_Sequence (Sys.sample 0 (CArray.ofList [2, 4]) (CArray.zero 2) (CArray.zero 4)
        (CArray.zero 4)) [0x02, 0x0C] = Run.done c [] ∧ c.st.player[1]? = some 0 ∧
      Level_Config (Sys.sample 0 (CArray.ofList [2, 4]) (CArray.zero 2) (CArray.zero 4)
        (CArray.zero 4)) [0x02, 0x0C] = Run.done r [] ∧ r.st = GameState.fresh :=
  have h := C13_unrecognised_press_fails (Sys.sample 0 (CArray.ofList [2, 4]) (CArray.zero 2)
    (CArray.zero 4) (CArray.zero 4)) [0x02, 0x0C] 1 0x0C (by decide) (by decide) (by decide)
    (by decide) (by decide) (by decide)
  h.elim fun c hc => hc.elim fun r hr => ⟨c, r, hr.1, hr.2.1, hr.2.2.2.2.1, hr.2.2.2.2.2.1⟩

/-- The routine `Level_Config` at a level 0, 1, 2, in any state and on any
reads: either the capture is still polling when the reads run out, or it
returns in a state `c` and the result is what `Sequence_Check` makes of `c`. -/
theorem Level_Config_cases (m : Sys) (reads : List Nat) (hL : m.st.level ≤ 2) :
    (∃ r, Player_Sequence (m.emit ([Event.enter Routine.Level_Config,
          Event.Seven_Segment_Display (m.st.level + 1),
          Event.RGB_LED_Output RGBColor.RGB_LED_BLUE] ++ m.st.target.flatMap presentLog))
          reads = Run.polling r ∧
        Level_Config m reads = Run.polling r) ∨
    (∃ c r rest, Player_Sequence (m.emit ([Event.enter Routine.Level_Config,
          Event.Seven_Segment_Display (m.st.level + 1),
          Event.RGB_LED_Output RGBColor.RGB_LED_BLUE] ++ m.st.target.flatMap presentLog))
          reads = Run.done c rest ∧
        c.st.level = m.st.level ∧
        Sequence_Check (levelLength m.st.level : Nat) c = some r ∧
        r = (if c.st.target = c.st.player then
              (if c.st.level = 2 then BEAT_GAME (c.emit [Event.enter Routine.Sequence_Check])
               else LEVEL_PASS (c.emit [Event.enter Routine.Sequence_Check]))
             else LEVEL_FAIL (c.emit [Event.enter Routine.Sequence_Check])) ∧
        Level_Config m reads = Run.done r rest) := by
  have hcap := Player_Sequence_captured (m.emit ([Event.enter Routine.Level_Config,
          Event.Seven_Segment_Display (m.st.level + 1),
          Event.RGB_LED_Output RGBColor.RGB_LED_BLUE] ++ m.st.target.flatMap presentLog)) reads
  rw [Level_Config_eq m reads hL]
  unfold Level_Config.play
  cases hrun : Player_Sequence (m.emit ([Event.enter Routine.Level_Config,
          Event.Seven_Segment_Display (m.st.level + 1),
          Event.RGB_LED_Output RGBColor.RGB_LED_BLUE] ++ m.st.target.flatMap presentLog)) reads with
  | done c rest =>
    rw [hrun] at hcap
    obtain ⟨used, -, -, -, hlv, -⟩ := hcap
    simp only [Sys.emit_st] at hlv
    have hs := Sequence_Check_eq c (hlv ▸ hL)
    rw [hlv] at hs
    refine Or.inr ⟨c, _, rest, rfl, hlv, hs, ?_, ?_⟩
    · rw [hlv]
    · simp only [hs]
  | polling r => exact Or.inl ⟨r, rfl, rfl⟩
  | undefined =>
    rw [hrun] at hcap
    exact absurd hcap id

theorem buttonReads_append (es fs : List Event) :
    buttonReads (es ++ fs) = buttonReads es ++ buttonReads fs := by
  simp [buttonReads, List.filterMap_append]

theorem buttonReads_linkLog (link : Nat) : buttonReads (linkLog link) = [] := by
  unfold linkLog LED_Sound_Link
  split <;> rfl

theorem buttonReads_presentLog (l : List Nat) : buttonReads (l.flatMap presentLog) = [] := by
  induction l with
  | nil => rfl
  | cons x l ih =>
    rw [List.flatMap_cons, buttonReads_append, ih, presentLog, buttonReads_append,
      buttonReads_linkLog]
    rfl

theorem buttonReads_pollLog (l : List Nat) : buttonReads (l.flatMap pollLog) = l := by
  induction l with
  | nil => rfl
  | cons x l ih =>
    rw [List.flatMap_cons, buttonReads_append, ih, pollLog]
    have : buttonReads (Event.Get_EduBase_Button_Status x ::
        (if x ≠ 0 then linkLog (Player_SeqConv x) else [])) = [x] := by
      show x :: buttonReads (if x ≠ 0 then linkLog (Player_SeqConv x) else []) = [x]
      split
      · rw [buttonReads_linkLog]
      · rfl
    rw [this]
    rfl

/-! ## C16 -/

/-- C16: the order of one `Level_Config` call at a level 0, 1, 2, in any state
and on any reads.  The log opens with the level indicator L+1 and the blue
status; then, for each target cell in index order, the output of
`LED_Sound_Link` for it, 500 ms, all LEDs off, 500 ms, with no button read among
them; then the polls of the capture.  If the reads run out the call is still
polling and `Sequence_Check` has not been entered.  Otherwise the capture
returns in a state whose target is the one presented, `Sequence_Check` is
entered after the last poll, is run on that state, and no button is read after
it. -/
theorem C16_Level_Config_order (m : Sys) (reads : List Nat) (hL : m.st.level ≤ 2) :
    (∀ x, presentLog x = Sys.emitted m (LED_Sound_Link x m) ++
      [Event.SysTick_Delay1ms 500, Event.EduBase_LEDs_Output LedMask.EDUBASE_LED_ALL_OFF,
       Event.SysTick_Delay1ms 500]) ∧
    m.st.target.length = levelLength m.st.level ∧
    buttonReads ([Event.enter Routine.Level_Config, Event.Seven_Segment_Display (m.st.level + 1),
      Event.RGB_LED_Output RGBColor.RGB_LED_BLUE] ++ m.st.target.flatMap presentLog) = [] ∧
    ((∃ r, Level_Config m reads = Run.polling r ∧
        Sys.emitted m r = [Event.enter Routine.Level_Config,
          Event.Seven_Segment_Display (m.st.level + 1),
          Event.RGB_LED_Output RGBColor.RGB_LED_BLUE] ++ m.st.target.flatMap presentLog ++
          Event.enter Routine.Player_Sequence :: reads.flatMap pollLog ∧
        Event.enter Routine.Sequence_Check ∉ Sys.emitted m r) ∨
     (∃ c r rest used tail, Level_Config m reads = Run.done r rest ∧ reads = used ++ rest ∧
        Player_Sequence (m.emit ([Event.enter Routine.Level_Config,
          Event.Seven_Segment_Display (m.st.level + 1),
          Event.RGB_LED_Output RGBColor.RGB_LED_BLUE] ++ m.st.target.flatMap presentLog))
          reads = Run.done c rest ∧
        c.st.target = m.st.target ∧
        Sequence_Check (levelLength m.st.level : Nat) c = some r ∧
        Sys.emitted m r = [Event.enter Routine.Level_Config,
          Event.Seven_Segment_Display (m.st.level + 1),
          Event.RGB_LED_Output RGBColor.RGB_LED_BLUE] ++ m.st.target.flatMap presentLog ++
          Event.enter Routine.Player_Sequence :: used.flatMap pollLog ++
          Event.enter Routine.Sequence_Check :: tail ∧
        buttonReads (used.flatMap pollLog) = used ∧
        Event.enter Routine.Sequence_Check ∉ used.flatMap pollLog ∧
        buttonReads tail = [])) := by
  have hcap := Player_Sequence_captured (m.emit ([Event.enter Routine.Level_Config,
          Event.Seven_Segment_Display (m.st.level + 1),
          Event.RGB_LED_Output RGBColor.RGB_LED_BLUE] ++ m.st.target.flatMap presentLog)) reads
  refine ⟨fun x => ?_, m.st.length_target hL, ?_, ?_⟩
  · rw [emitted_LED_Sound_Link]
    rfl
  · rw [buttonReads_append, buttonReads_presentLog]
    rfl
  · rcases Level_Config_cases m reads hL with ⟨r, hp, hr⟩ | ⟨c, r, rest, hp, hlv, hsc, hro, hr⟩
    · rw [hp] at hcap
      obtain ⟨hout, -⟩ := hcap
      have he : Sys.emitted m r = [Event.enter Routine.Level_Config,
          Event.Seven_Segment_Display (m.st.level + 1),
          Event.RGB_LED_Output RGBColor.RGB_LED_BLUE] ++ m.st.target.flatMap presentLog ++
          Event.enter Routine.Player_Sequence :: reads.flatMap pollLog :=
        Sys.emitted_of_out (by rw [hout]; simp)
      refine Or.inl ⟨r, hr, he, ?_⟩
      rw [he]
      have h1 := enter_not_mem_presentLog Routine.Sequence_Check m.st.target
      have h2 := enter_not_mem_pollLog Routine.Sequence_Check reads
      simp only [List.mem_flatMap, not_exists, not_and] at h1 h2
      simp
      exact ⟨h1, h2⟩
    · rw [hp] at hcap
      obtain ⟨used, hu, hout, -, -, h1, h2, h3, -⟩ := hcap
      simp only [Sys.emit_st] at h1 h2 h3
      have ht : c.st.target = m.st.target := by
        simp only [GameState.target, hlv, h1, h2, h3]
      have hcout : c.out = m.out ++ ([Event.enter Routine.Level_Config,
          Event.Seven_Segment_Display (m.st.level + 1),
          Event.RGB_LED_Output RGBColor.RGB_LED_BLUE] ++ m.st.target.flatMap presentLog ++
          Event.enter Routine.Player_Sequence :: used.flatMap pollLog) := by
        rw [hout]; simp
      have htail : ∃ tail, r.out = c.out ++ Event.enter Routine.Sequence_Check :: tail ∧
          buttonReads tail = [] := by
        rw [hro]
        split
        · split
          · exact ⟨[Event.enter Routine.BEAT_GAME] ++ beatSignal ++
              [Event.enter Routine.RESET_GAME], by rw [BEAT_GAME_out]; simp, rfl⟩
          · exact ⟨[Event.enter Routine.LEVEL_PASS] ++ passFlash ++ passFlash ++ passFlash ++
              passFlash, by rw [LEVEL_PASS_out]; simp, rfl⟩
        · exact ⟨[Event.enter Routine.LEVEL_FAIL] ++ failFlash ++ failFlash ++ failFlash ++
            failFlash ++ [Event.enter Routine.RESET_GAME], by rw [LEVEL_FAIL_out]; simp, rfl⟩
      obtain ⟨tail, hrout, htl⟩ := htail
      refine Or.inr ⟨c, r, rest, used, tail, hr, hu, hp, ht, hsc, ?_, buttonReads_pollLog used,
        enter_not_mem_pollLog _ used, htl⟩
      exact Sys.emitted_of_out (by rw [hrout, hcout]; simp)

/-- Witness of C16: level 0 with target 2, 4 and the reads 0x02, 0, 0x08. -/
theorem C16_Level_Config_order_witness :
    buttonReads ([Event.enter Routine.Level_Config, Event.Seven_Segment_Display 1,
      Event.RGB_LED_Output RGBColor.RGB_LED_BLUE] ++ [2, 4].flatMap presentLog) = [] ∧
    presentLog 2 = [Event.EduBase_LEDs_Output (LedMask.bits 0x02),
      Event.Play_Note Note.A4_NOTE 50, Event.SysTick_Delay1ms 500,
      Event.EduBase_LEDs_Output LedMask.EDUBASE_LED_ALL_OFF, Event.SysTick_Delay1ms 500] :=
  have h := C16_Level_Config_order (Sys.sample 0 (CArray.ofList [2, 4]) (CArray.zero 2)
    (CArray.zero 4) (CArray.zero 4)) [0x02, 0, 0x08] (by decide)
  ⟨h.2.2.1, h.1 2⟩

/-! ## C19 -/

theorem GameState.AtTop.level_le {s : GameState} (h : s.AtTop) : s.level ≤ 2 := by
  rcases h with h | h | h <;> omega

theorem GameState.AtTop.cursor_eq {s : GameState} (h : s.AtTop) : s.cursor = 0 := by
  rcases h with h | h | h <;> simp [GameState.cursor, h.1, h.2]

/-- One iteration of the main loop from a state at the top of the loop: if
`Level_Config` returns, the capture took the full length of the level and the
state is again one at the top of the loop, at level 0 or one level up. -/
theorem AtTop_iteration (rand : Nat → Int) (m : Sys) (reads : List Nat) (r : Sys)
    (rest : List Nat) (h : m.st.AtTop)
    (hrun : Level_Config (Generate_Sequence rand m) reads = Run.done r rest) :
    levelLength m.st.level ≤ (reads.filter (fun b => b ≠ 0)).length ∧
    rest = afterPresses (levelLength m.st.level) reads ∧
    r.st.AtTop ∧ (r.st.level = 0 ∨ (m.st.level < 2 ∧ r.st.level = m.st.level + 1)) := by
  have hg : (Generate_Sequence rand m).st.level = m.st.level ∧
      (Generate_Sequence rand m).st.index1 = m.st.index1 ∧
      (Generate_Sequence rand m).st.index2 = m.st.index2 ∧
      (Generate_Sequence rand m).st.index3 = m.st.index3 := by
    rw [Generate_Sequence_st]
    exact ⟨rfl, rfl, rfl, rfl⟩
  generalize Generate_Sequence rand m = g at hg hrun
  obtain ⟨hg0, hg1, hg2, hg3⟩ := hg
  have hgtop : g.st.AtTop := by
    unfold GameState.AtTop
    rw [hg0, hg1, hg2, hg3]
    exact h
  have hL : g.st.level ≤ 2 := hgtop.level_le
  have hc : g.st.cursor = 0 := hgtop.cursor_eq
  rcases Level_Config_cases g reads hL with ⟨p, -, hp⟩ | ⟨c, q, left, hps, hlv, -, hq, hdone⟩
  · rw [hp] at hrun
    exact Run.noConfusion hrun
  · rw [hdone] at hrun
    obtain ⟨hqr, hleft⟩ := Run.done.inj hrun
    subst hqr hleft
    have hlen : levelLength g.st.level ≤ (reads.filter (fun b => b ≠ 0)).length := by
      by_contra hn
      obtain ⟨p, hp⟩ := Player_Sequence_starved (g.emit ([Event.enter Routine.Level_Config,
        Event.Seven_Segment_Display (g.st.level + 1),
        Event.RGB_LED_Output RGBColor.RGB_LED_BLUE] ++ g.st.target.flatMap presentLog)) reads
        hL hc (by simpa using hn)
      rw [hp] at hps
      exact Run.noConfusion hps
    obtain ⟨c2, hc2, h0, h1, h2⟩ := Player_Sequence_cursors (g.emit
      ([Event.enter Routine.Level_Config, Event.Seven_Segment_Display (g.st.level + 1),
        Event.RGB_LED_Output RGBColor.RGB_LED_BLUE] ++ g.st.target.flatMap presentLog)) reads
      hL hc hlen
    rw [hps] at hc2
    obtain ⟨hcc, hleft⟩ := Run.done.inj hc2
    subst hcc
    simp only [Sys.emit_st] at h0 h1 h2 hleft
    rw [← hg0]
    refine ⟨hlen, hleft, ?_⟩
    rw [hq]
    split
    · split
      · rw [BEAT_GAME_st]
        exact ⟨Or.inl ⟨rfl, rfl, rfl, rfl⟩, Or.inl rfl⟩
      · next hne2 =>
        rw [LEVEL_PASS_st]
        simp only [Sys.emit_st, GameState.AtTop]
        rw [hlv] at hne2 ⊢
        rcases hgtop with ht | ht | ht
        · obtain ⟨-, hi2, hi3⟩ := h0 ht.1
          rw [ht.1]
          refine ⟨Or.inr (Or.inl ⟨rfl, ?_, ?_⟩), Or.inr ⟨by decide, rfl⟩⟩
          · rw [hi2]; exact ht.2.2.1
          · rw [hi3]; exact ht.2.2.2
        · obtain ⟨-, -, hi3⟩ := h1 ht.1
          rw [ht.1]
          refine ⟨Or.inr (Or.inr ⟨rfl, ?_⟩), Or.inr ⟨by decide, rfl⟩⟩
          rw [hi3]; exact ht.2.2
        · exact absurd ht.1 hne2
    · rw [LEVEL_FAIL_st]
      exact ⟨Or.inl ⟨rfl, rfl, rfl, rfl⟩, Or.inl rfl⟩

theorem mainLoop_AtTop (rand : Nat → Int) : ∀ (n : Nat) (m : Sys) (reads : List Nat) (r : Sys)
    (rest : List Nat), m.st.AtTop → mainLoop rand n m reads = Run.done r rest → r.st.AtTop := by
  intro n
  induction n with
  | zero =>
    intro m reads r rest h hrun
    unfold mainLoop at hrun
    rw [← (Run.done.inj hrun).1]
    exact h
  | succ n ih =>
    intro m reads r rest h hrun
    unfold mainLoop at hrun
    cases hlc : Level_Config (Generate_Sequence rand m) reads with
    | done k left =>
      rw [hlc] at hrun
      exact ih k left r rest (AtTop_iteration rand m reads k left h hlc).2.2.1 hrun
    | polling k =>
      rw [hlc] at hrun
      exact Run.noConfusion hrun
    | undefined =>
      rw [hlc] at hrun
      exact Run.noConfusion hrun

/-- C19: the state at the top of a main-loop iteration, reached from the
fresh-start state after any number of completed iterations on any `rand()`
stream and any reads, has its level in 0, 1, 2 and the cursor of that level at
0.  So the `Level_Config` call of the next iteration, when it returns, has run
one of its three cases on exactly the level's length of non-zero reads, and it
leaves the level either at 0 or, only from a level below 2, one higher; the
state it returns in is again such a state. -/
theorem C19_loop_top_invariant (rand : Nat → Int) (n : Nat) (reads : List Nat) (r : Sys)
    (rest : List Nat) (h : main rand n reads = Run.done r rest) :
    r.st.level ≤ 2 ∧ r.st.cursor = 0 ∧
    (r.st.level = 0 → r.st.index1 = 0) ∧ (r.st.level = 1 → r.st.index2 = 0) ∧
    (r.st.level = 2 → r.st.index3 = 0) ∧
    ∀ (rand2 : Nat → Int) (reads2 : List Nat) (r2 : Sys) (rest2 : List Nat),
      Level_Config (Generate_Sequence rand2 r) reads2 = Run.done r2 rest2 →
      levelLength r.st.level ≤ (reads2.filter (fun b => b ≠ 0)).length ∧
      rest2 = afterPresses (levelLength r.st.level) reads2 ∧
      (r2.st.level = 0 ∨ (r.st.level < 2 ∧ r2.st.level = r.st.level + 1)) ∧
      r2.st.level ≤ 2 ∧ r2.st.cursor = 0 := by
  have htop : r.st.AtTop :=
    mainLoop_AtTop rand n Sys.boot reads r rest (Or.inl ⟨rfl, rfl, rfl, rfl⟩) h
  refine ⟨htop.level_le, htop.cursor_eq, ?_, ?_, ?_, ?_⟩
  · intro h0
    simpa [GameState.cursor, h0] using htop.cursor_eq
  · intro h1
    simpa [GameState.cursor, h1] using htop.cursor_eq
  · intro h2
    simpa [GameState.cursor, h2] using htop.cursor_eq
  · intro rand2 reads2 r2 rest2 hrun
    obtain ⟨hlen, hrest, htop2, hlev⟩ := AtTop_iteration rand2 r reads2 r2 rest2 htop hrun
    exact ⟨hlen, hrest, hlev, htop2.level_le, htop2.cursor_eq⟩

/-- Witness of C19: one iteration on the `rand()` stream 0, 1, 2, ..., which
makes the level-1 target 1, 2, with the reads 0x01, 0x02: the loop is back at
its top at level 1 with `index2` at 0. -/
theorem C19_loop_top_invariant_witness :
    (Run.sys (main (fun k => (k : Int)) 1 [0x01, 0x02])).st.level ≤ 2 ∧
    (Run.sys (main (fun k => (k : Int)) 1 [0x01, 0x02])).st.cursor = 0 :=
  have h := C19_loop_top_invariant (fun k => (k : Int)) 1 [0x01, 0x02]
    (Run.sys (main (fun k => (k : Int)) 1 [0x01, 0x02])) [] (by decide)
  ⟨h.1, h.2.1⟩

/-! ## C18 -/

/-- C18, the code at a won game (level 2, target 1, 2, 3, 4, raw reads 0x01,
0x02, 0x04, 0x08): `Level_Config` returns through `BEAT_GAME`, and from the
entry of `BEAT_GAME` on the log is the display of 0, the green status, one
write of the LED mask 0x06, one delay of 3000 ms and `RESET_GAME`.  The LEDs
are written once and never switched off: the signal is static, it does not
flash.  The state is then the fresh-start state. -/
theorem C18_BEAT_GAME_is_static :
    Level_Config (Sys.sample 2 (CArray.zero 2) (CArray.zero 2) (CArray.ofList [1, 2, 3, 4])
      (CArray.zero 4)) [0x01, 0x02, 0x04, 0x08] =
      Run.done (Run.sys (Level_Config (Sys.sample 2 (CArray.zero 2) (CArray.zero 2)
        (CArray.ofList [1, 2, 3, 4]) (CArray.zero 4)) [0x01, 0x02, 0x04, 0x08])) [] ∧
    (Run.sys (Level_Config (Sys.sample 2 (CArray.zero 2) (CArray.zero 2)
      (CArray.ofList [1, 2, 3, 4]) (CArray.zero 4)) [0x01, 0x02, 0x04, 0x08])).out.dropWhile
        (fun e => e ≠ Event.enter Routine.BEAT_GAME) =
      [Event.enter Routine.BEAT_GAME, Event.Seven_Segment_Display 0,
       Event.RGB_LED_Output RGBColor.RGB_LED_GREEN,
       Event.EduBase_LEDs_Output (LedMask.bits 0x06), Event.SysTick_Delay1ms 3000,
       Event.enter Routine.RESET_GAME] ∧
    ledOutputs ((Run.sys (Level_Config (Sys.sample 2 (CArray.zero 2) (CArray.zero 2)
      (CArray.ofList [1, 2, 3, 4]) (CArray.zero 4)) [0x01, 0x02, 0x04, 0x08])).out.dropWhile
        (fun e => e ≠ Event.enter Routine.BEAT_GAME)) = [LedMask.bits 0x06] ∧
    (Run.sys (Level_Config (Sys.sample 2 (CArray.zero 2) (CArray.zero 2)
      (CArray.ofList [1, 2, 3, 4]) (CArray.zero 4)) [0x01, 0x02, 0x04, 0x08])).st =
      GameState.fresh := by
  decide

end SimonSays
